import Mathlib

/-!
# libkepler: orbit intersection and intercept scan (`src/intercept.c`)

A shallow embedding of `src/intercept.c`, and of the seed pattern of
`test/numtest.c`.

* A C `double` is an element of a linearly ordered field `α` (exact arithmetic:
  no rounding, no NaN, no infinities).  Every definition is generic in `α`, so it
  can be run over `ℚ` and read over `ℝ`.  Division by zero is outside this
  idealisation (a field gives `x / 0 = 0`, IEEE gives an infinity); statements
  that would depend on it exclude the zero divisor explicitly.
* The functions of `<math.h>` that the file calls (`acos`, `asin`, `sin`,
  `sqrt`), the constant `M_PI` and the anomaly conversion of `libkepler/kepler.h`
  are parameters: the former are collected in `Libm`, the latter is an
  argument of `intercept_orbit`.  `floor`, `trunc` and `fabs` are exact and are
  taken from the ordered field.
* `struct kepler_elements` is only read through the accessors `kepler_orbit_*`
  of `libkepler/kepler.h`; an orbit is the record of the values they return.
* A `double *` or a local array is a function `ℕ → α` (index ↦ cell); a store
  `a[i] = v` is `Function.update a i v`.
* An `int` is a natural number where the code only counts within a range of a
  few units (interval counts, window cursors).  The two counters that can leave
  it, `n_orbit` and `num_intercepts`, are integers kept in the range of a
  32-bit `int`: the cast `(int)trunc(x)` is `int_of_double` and `+= 1` is
  `int_add`, which wraps.
* In `test/numtest.c` a `uint64_t` is a natural number below `2^64` and the
  `double` results are rational numbers; there the one step that rounds, the
  conversion of a `uint64_t` to `double`, is modelled (`to_double`).
-/

namespace libkepler

/-- The part of `<math.h>` used by `intercept.c`: `M_PI`, `acos`, `asin`,
`sin` and `sqrt`. -/
structure Libm (α : Type) where
  M_PI : α
  acos : α → α
  asin : α → α
  sin : α → α
  sqrt : α → α

/-- An orbit, as seen through the accessors of `libkepler/kepler.h`: the field
`x` is the value returned by `kepler_orbit_x(elements)`; the three frame vectors
are the arrays filled by `kepler_orbit_normal`, `kepler_orbit_tangent` and
`kepler_orbit_bitangent`. -/
structure kepler_elements (α : Type) where
  semi_latus_rectum : α
  eccentricity : α
  periapsis : α
  apoapsis : α
  closed : Bool
  circular : Bool
  hyperbolic : Bool
  normal : ℕ → α
  tangent : ℕ → α
  bitangent : ℕ → α
  periapsis_time : α
  period : α
  mean_motion : α

section defs

variable {α : Type} [LinearOrderedField α] [FloorRing α]

/-- The constant `DBL_EPSILON` of `<float.h>` for IEEE binary64: `2^-52`. -/
def DBL_EPSILON : α := 1 / 2 ^ 52

/-- The function `cross(a, b, c)` (lines 7-11): the array written to `c`. -/
def cross (a b : ℕ → α) : ℕ → α :=
  fun i =>
    if i = 0 then a 1 * b 2 - a 2 * b 1
    else if i = 1 then -(a 0 * b 2 - a 2 * b 0)
    else if i = 2 then a 0 * b 1 - a 1 * b 0
    else 0

/-- The function `dot(a, b)` (lines 13-15). -/
def dot (a b : ℕ → α) : α :=
  a 0 * b 0 + a 1 * b 1 + a 2 * b 2

/-- The function `mag(a)` (lines 17-19). -/
def mag (M : Libm α) (a : ℕ → α) : α :=
  M.sqrt (dot a a)

/-- The function `clamp(min, max, x)` (lines 21-23). -/
def clamp (lo hi x : α) : α :=
  if x < lo then lo else (if x > hi then hi else x)

/-- The function `zero(x)` (lines 25-27). -/
def zero (x : α) : Bool :=
  decide (x * x < DBL_EPSILON)

/-- The function `sign(x)` (line 29). -/
def sign (x : α) : α :=
  if x < 0 then -1 else 1

/-- The function `min(a, b)` of `intercept.c` (line 33). -/
def min (a b : α) : α :=
  if a < b then a else b

/-- The function `max(a, b)` of `intercept.c` (line 34). -/
def max (a b : α) : α :=
  if a > b then a else b

/-- The function `angle_clamp(x0)` (lines 36-39). -/
def angle_clamp (M : Libm α) (x0 : α) : α :=
  let x := (x0 + M.M_PI) / (2 * M.M_PI);
  -M.M_PI + 2 * M.M_PI * (x - (⌊x⌋ : ℤ))

/-- The function `trunc(x)` of `<math.h>` (line 246): rounding towards zero.
Its value, a `double` that is an integer, is returned as an integer; the cast
to `int` is `int_of_double`. -/
def trunc (x : α) : ℤ :=
  if 0 ≤ x then ⌊x⌋ else ⌈x⌉

/-- The cast `(int)x` of a `double` that is an integer (line 246), for a
32-bit `int`: the value itself from `-2^31` to `2^31 - 1`.  Outside that range
the cast is undefined in C; the value taken is the one the conversion of
x86-64 returns, `INT_MIN = -2^31`. -/
def int_of_double (z : ℤ) : ℤ :=
  if -2 ^ 31 ≤ z ∧ z < 2 ^ 31 then z else -2 ^ 31

/-- The sum of two `int` (lines 275 and 291) on 32 bits in two's complement:
the sum itself from `-2^31` to `2^31 - 1`, wrapped into that range otherwise
(signed overflow is undefined in C; the machine addition wraps). -/
def int_add (a b : ℤ) : ℤ :=
  (a + b + 2 ^ 31) % 2 ^ 32 - 2 ^ 31

/-- The function `true_anomaly_from_radius(elements, r)` (lines 43-48). -/
def true_anomaly_from_radius (M : Libm α) (elements : kepler_elements α) (r : α) : α :=
  let p := elements.semi_latus_rectum
  let e := elements.eccentricity
  M.acos (clamp (-1) 1 ((p / r - 1) / e))

/-- The call `swap(a + i, a + j)` (line 41): exchange of two cells of one
array. -/
def swap (a : ℕ → α) (i j : ℕ) : ℕ → α :=
  Function.update (Function.update a i (a j)) j (a i)

/-- The local `f1` of `intersect_orbit` after the altitude check (lines 64-71):
the inner altitude-bound angle `f_peri`. -/
def altitude_f1 (M : Libm α) (orbit1 orbit2 : kepler_elements α) (threshold : α) : α :=
  if !orbit1.circular then
    true_anomaly_from_radius M orbit1 (orbit2.periapsis - threshold)
  else 0

/-- The local `f2` of `intersect_orbit` after the altitude check and the
hyperbolic assignment (lines 64-75): the outer altitude-bound angle `f_apo`. -/
def altitude_f2 (M : Libm α) (orbit1 orbit2 : kepler_elements α) (threshold : α) : α :=
  let f2 :=
    if !orbit1.circular then
      if orbit2.closed then
        true_anomaly_from_radius M orbit1 (orbit2.apoapsis + threshold)
      else M.M_PI
    else M.M_PI
  if orbit1.hyperbolic then M.acos (1 / orbit1.eccentricity) else f2

/-- The local array `nodes` of `intersect_orbit` (line 82). -/
def nodes (orbit1 orbit2 : kepler_elements α) : ℕ → α :=
  cross orbit2.normal orbit1.normal

/-- The local `N` of `intersect_orbit` (line 83). -/
def nodes_mag (M : Libm α) (orbit1 orbit2 : kepler_elements α) : α :=
  mag M (nodes orbit1 orbit2)

/-- The local `coplanar` of `intersect_orbit` (line 84). -/
def coplanar (M : Libm α) (orbit1 orbit2 : kepler_elements α) : Bool :=
  zero (nodes_mag M orbit1 orbit2)

/-- The local `rel_incl` of `intersect_orbit` (line 85). -/
def rel_incl (M : Libm α) (orbit1 orbit2 : kepler_elements α) : α :=
  sign (dot orbit1.normal orbit2.normal) * M.asin (clamp (-1) 1 (nodes_mag M orbit1 orbit2))

/-- The local `f_an` of `intersect_orbit` (line 108). -/
def f_an (M : Libm α) (orbit1 orbit2 : kepler_elements α) : α :=
  sign (dot orbit1.bitangent (nodes orbit1 orbit2)) *
    M.acos (clamp (-1) 1 (dot (nodes orbit1 orbit2) orbit1.tangent / nodes_mag M orbit1 orbit2))

/-- The local `f_dn` of `intersect_orbit` (line 109). -/
def f_dn (M : Libm α) (orbit1 orbit2 : kepler_elements α) : α :=
  f_an M orbit1 orbit2 - sign (f_an M orbit1 orbit2) * M.M_PI

/-- The local array `f_nodes` of `intersect_orbit` (line 111). -/
def f_nodes (M : Libm α) (orbit1 orbit2 : kepler_elements α) (i : ℕ) : α :=
  if i = 0 then min (f_an M orbit1 orbit2) (f_dn M orbit1 orbit2)
  else max (f_an M orbit1 orbit2) (f_dn M orbit1 orbit2)

/-- The local array `delta_fs` of `intersect_orbit` after the loop of lines
114-121: both cells receive the same value, computed from the periapsis radius
of `orbit1`. -/
def delta_fs (M : Libm α) (orbit1 orbit2 : kepler_elements α) (threshold : α) (_i : ℕ) : α :=
  let r := orbit1.periapsis
  M.asin (clamp (-1) 1
    (M.sin (threshold / (2 * r)) / M.sin (|rel_incl M orbit1 orbit2| / 2)))

/-- The tail of `intersect_orbit` (lines 175-180): the conditional exchange of
the two windows and the final count. -/
def intersect_orbit_count (fs : ℕ → α) : ℕ × (ℕ → α) :=
  let fs1 := if fs 0 > fs 1 ∧ ¬ (fs 2 > fs 3) then swap (swap fs 0 2) 1 3 else fs
  ((if fs1 0 < fs1 1 then 1 else 0) + (if fs1 2 < fs1 3 then 1 else 0), fs1)

/-- The four stores that open the periapsis-only and the two-sided branch of
`intersect_orbit` (lines 133-136 and 164-167): window `i` is
`[max(f_nodes[i] - delta_fs[i], lo_i), min(f_nodes[i] + delta_fs[i], hi_i)]`. -/
def clip_windows (M : Libm α) (orbit1 orbit2 : kepler_elements α) (threshold : α)
    (lo0 hi0 lo1 hi1 : α) (fs : ℕ → α) : ℕ → α :=
  let fs := Function.update fs 0
    (max (f_nodes M orbit1 orbit2 0 - delta_fs M orbit1 orbit2 threshold 0) lo0)
  let fs := Function.update fs 1
    (min (f_nodes M orbit1 orbit2 0 + delta_fs M orbit1 orbit2 threshold 0) hi0)
  let fs := Function.update fs 2
    (max (f_nodes M orbit1 orbit2 1 - delta_fs M orbit1 orbit2 threshold 1) lo1)
  Function.update fs 3
    (min (f_nodes M orbit1 orbit2 1 + delta_fs M orbit1 orbit2 threshold 1) hi1)

/-- The merge test shared by the periapsis-only and the two-sided branch (lines
138-141 and 169-172), followed by the tail of the function. -/
def merge_or_count (fs : ℕ → α) : ℕ × (ℕ → α) :=
  if fs 1 ≥ fs 2 then (1, Function.update fs 1 (fs 3))
  else intersect_orbit_count fs

/-- The apoapsis-only branch of `intersect_orbit` (lines 143-161). -/
def intersect_apoapsis (M : Libm α) (orbit1 orbit2 : kepler_elements α) (threshold : α)
    (f1 : α) (fs : ℕ → α) : ℕ × (ℕ → α) :=
  let f_nodes := f_nodes M orbit1 orbit2
  let delta_fs := delta_fs M orbit1 orbit2 threshold
  let st0 : ℕ × (ℕ → α) := (0, fs)
  let st1 : ℕ × (ℕ → α) :=
    if f_nodes 0 - delta_fs 0 < -f1 then
      let fs := Function.update st0.2 (2 * st0.1 + 0)
        (if f_nodes 0 - delta_fs 0 < -M.M_PI then
          max (angle_clamp M (f_nodes 0 - delta_fs 0)) f1
        else f_nodes 0 - delta_fs 0)
      let fs := Function.update fs (2 * st0.1 + 1) (min (f_nodes 0 + delta_fs 0) (-f1))
      (st0.1 + 1, fs)
    else st0
  if f_nodes 1 + delta_fs 1 > f1 then
    let fs := Function.update st1.2 (2 * st1.1 + 0) (max (f_nodes 1 - delta_fs 1) f1)
    let fs := Function.update fs (2 * st1.1 + 1)
      (if f_nodes 1 + delta_fs 1 > M.M_PI then
        min (angle_clamp M (f_nodes 1 + delta_fs 1)) (-f1)
      else f_nodes 1 + delta_fs 1)
    (st1.1 + 1, fs)
  else st1

/-- The function `intersect_orbit(orbit1, orbit2, threshold, fs)` (lines
50-181): the returned count and the contents of `fs` on return. -/
def intersect_orbit (M : Libm α) (orbit1 orbit2 : kepler_elements α) (threshold : α)
    (fs : ℕ → α) : ℕ × (ℕ → α) :=
  -- Apoapsis-periapsis test early exit
  if (orbit1.closed = true ∧ orbit1.apoapsis < orbit2.periapsis - threshold) ∨
      (orbit2.closed = true ∧ orbit2.apoapsis < orbit1.periapsis - threshold) then
    (0, fs)
  else
    -- Altitude check
    let f1 := altitude_f1 M orbit1 orbit2 threshold
    let f2 := altitude_f2 M orbit1 orbit2 threshold
    -- Coplanar orbits
    if coplanar M orbit1 orbit2 then
      if zero f1 then
        (1, Function.update (Function.update fs 0 (-f2)) 1 f2)
      else if orbit1.closed = true ∧ ¬ (f2 < M.M_PI) then
        (1, Function.update (Function.update fs 0 f1) 1 (-f1))
      else
        (2, Function.update (Function.update (Function.update (Function.update fs
          0 (-f2)) 1 (-f1)) 2 f1) 3 f2)
    -- Non-coplanar orbits
    else
      let f_nodes := f_nodes M orbit1 orbit2
      let delta_fs := delta_fs M orbit1 orbit2 threshold
      if orbit1.closed = true ∧ zero f1 = true ∧ ¬ (f2 < M.M_PI) then
        -- intersects anywhere on orbit
        (2, Function.update (Function.update (Function.update (Function.update fs
          0 (angle_clamp M (f_nodes 0 - delta_fs 0)))
          1 (angle_clamp M (f_nodes 0 + delta_fs 0)))
          2 (angle_clamp M (f_nodes 1 - delta_fs 1)))
          3 (angle_clamp M (f_nodes 1 + delta_fs 1)))
      else if zero f1 then
        -- intersect near periapsis
        merge_or_count (clip_windows M orbit1 orbit2 threshold (-f2) f2 (-f2) f2 fs)
      else if orbit1.closed = true ∧ ¬ (f2 < M.M_PI) then
        -- intersect near apoapsis
        intersect_apoapsis M orbit1 orbit2 threshold f1 fs
      else
        -- two intersects
        merge_or_count (clip_windows M orbit1 orbit2 threshold (-f2) (-f1) f1 f2 fs)

/-- The function `intercept_minimize(orbit1, orbit2, threshold, t0, t1,
intercept)` (lines 183-197): every argument is discarded and nothing is written
through `intercept`. -/
def intercept_minimize (_orbit1 _orbit2 : kepler_elements α) (_threshold _t0 _t1 : α) : Bool :=
  false

/-- The local `threshold` of `intercept_orbit` (lines 207-209). -/
def intercept_threshold (orbit1 orbit2 : kepler_elements α) : α :=
  (1 / 1000) * min orbit1.semi_latus_rectum orbit2.semi_latus_rectum

/-- The local array `orbits` of `intercept_orbit` (line 211). -/
def orbits (orbit1 orbit2 : kepler_elements α) (o : ℕ) : kepler_elements α :=
  if o = 0 then orbit1 else orbit2

/-- The row `times[o]` of `intercept_orbit` after the conversion loop and the
exchange of lines 223-238, for the orbit `orbit` with `intersects` intervals
whose bounds are in `fs`; `times` is the row before the loop and
`kepler_anomaly_true_to_mean` the conversion of `libkepler/kepler.h`. -/
def window_times (kepler_anomaly_true_to_mean : α → α → α) (orbit : kepler_elements α)
    (intersects : ℕ) (fs times : ℕ → α) : ℕ → α :=
  let times : ℕ → α := fun i =>
    if i < 2 * intersects then
      orbit.periapsis_time +
        (kepler_anomaly_true_to_mean orbit.eccentricity (fs i) / orbit.mean_motion)
    else times i
  -- intersect #2 is before #1
  let swapped := intersects = 2 ∧ times 2 > times 3
  if swapped then swap (swap times 0 2) 1 3 else times

/-- The initial value of `n_orbit[o]` in `intercept_orbit` (lines 241-249). -/
def initial_n_orbit (orbit : kepler_elements α) (t0 : α) : ℤ :=
  if orbit.closed then
    int_of_double (trunc ((t0 - orbit.periapsis_time) / orbit.period +
      (if orbit.periapsis_time > t0 then -(1 / 2) else 1 / 2)))
  else 0

/-- The variables of the merge-scan loop of `intercept_orbit`. -/
structure scan_state (α : Type) where
  t : α
  n_orbit : ℕ → ℤ
  isect : ℕ → ℕ
  num_intercepts : ℤ

/-- The entry `trange[o][k]` computed at the top of the loop body (lines
258-267). -/
def trange (orbits : ℕ → kepler_elements α) (times : ℕ → ℕ → α) (s : scan_state α)
    (o k : ℕ) : α :=
  let period : α :=
    if !(orbits o).closed then 0 else (s.n_orbit o : α) * (orbits o).period
  if k = 0 then
    let lo := times o (2 * s.isect o) + period
    if times o (2 * s.isect o) > times o (2 * s.isect o + 1) then -- near apoapsis
      lo - (orbits o).period
    else lo
  else times o (2 * s.isect o + 1) + period

/-- The local `t_begin` of the loop body (line 270). -/
def t_begin (orbits : ℕ → kepler_elements α) (times : ℕ → ℕ → α) (s : scan_state α) : α :=
  max s.t (max (trange orbits times s 0 0) (trange orbits times s 1 0))

/-- The local `t_end` of the loop body (line 271). -/
def t_end (orbits : ℕ → kepler_elements α) (times : ℕ → ℕ → α) (t1 : α)
    (s : scan_state α) : α :=
  min t1 (min (trange orbits times s 0 1) (trange orbits times s 1 1))

/-- One execution of the loop body of `intercept_orbit` (lines 255-292): the
variables after it, and whether it left the loop through `break`. -/
def scan_step (orbits : ℕ → kepler_elements α) (intersects : ℕ → ℕ) (times : ℕ → ℕ → α)
    (t1 : α) (s : scan_state α) : scan_state α × Bool :=
  -- overlap of two time intervals
  let tb := t_begin orbits times s
  let te := t_end orbits times t1 s
  let num_intercepts := if tb < te then int_add s.num_intercepts 1 else s.num_intercepts
  -- advance to next time range on one orbit
  let advance : ℕ := if trange orbits times s 0 1 < trange orbits times s 1 1 then 0 else 1
  let isect := Function.update s.isect advance (s.isect advance + 1)
  if isect advance = intersects advance then
    if !(orbits advance).closed then
      (⟨te, s.n_orbit, isect, num_intercepts⟩, true)
    else
      -- advance to next orbital period
      (⟨te, Function.update s.n_orbit advance (int_add (s.n_orbit advance) 1),
        Function.update isect advance 0, num_intercepts⟩, false)
  else
    (⟨te, s.n_orbit, isect, num_intercepts⟩, false)

/-- The loop `while(t < t1)` of `intercept_orbit` (lines 254-293), run for at
most `fuel` iterations: the variables on exit, or `none` when the loop is still
running after `fuel` iterations. -/
def scan_loop (orbits : ℕ → kepler_elements α) (intersects : ℕ → ℕ) (times : ℕ → ℕ → α)
    (t1 : α) : ℕ → scan_state α → Option (scan_state α)
  | fuel, s =>
    if s.t < t1 then
      match fuel with
      | 0 => none
      | fuel + 1 =>
        let r := scan_step orbits intersects times t1 s
        if r.2 then some r.1 else scan_loop orbits intersects times t1 fuel r.1
    else some s

/-- The variables of the loop of `intercept_orbit` on entry (lines 241-253). -/
def scan_init (orbits : ℕ → kepler_elements α) (t0 : α) : scan_state α :=
  ⟨t0, fun o => if o < 2 then initial_n_orbit (orbits o) t0 else 0, fun _ => 0, 0⟩

/-- The variables at the top of the loop after `n` complete iterations, or
`none` when the loop has been left before. -/
def scan_after (orbits : ℕ → kepler_elements α) (intersects : ℕ → ℕ) (times : ℕ → ℕ → α)
    (t0 t1 : α) : ℕ → Option (scan_state α)
  | 0 => some (scan_init orbits t0)
  | n + 1 =>
    match scan_after orbits intersects times t0 t1 n with
    | none => none
    | some s =>
      if s.t < t1 then
        let r := scan_step orbits intersects times t1 s
        if r.2 then none else some r.1
      else none

/-- The local array `intersects` of `intercept_orbit` as the loop of lines
217-219 fills it: `intersects[o]` is the count returned by
`intersect_orbit(orbits[o], orbits[!o], threshold, &fs[o][0])`; `fs` holds the
contents of the local array `fs` when it is declared. -/
def intercept_intersects (M : Libm α) (orbit1 orbit2 : kepler_elements α)
    (fs : ℕ → ℕ → α) (o : ℕ) : ℕ :=
  if o = 0 then
    (intersect_orbit M orbit1 orbit2 (intercept_threshold orbit1 orbit2) (fs 0)).1
  else (intersect_orbit M orbit2 orbit1 (intercept_threshold orbit1 orbit2) (fs 1)).1

/-- The local array `fs` of `intercept_orbit` after the loop of lines 217-219:
row `o` is what `intersect_orbit(orbits[o], orbits[!o], threshold, &fs[o][0])`
leaves in it. -/
def intercept_fs (M : Libm α) (orbit1 orbit2 : kepler_elements α)
    (fs : ℕ → ℕ → α) (o : ℕ) : ℕ → α :=
  if o = 0 then
    (intersect_orbit M orbit1 orbit2 (intercept_threshold orbit1 orbit2) (fs 0)).2
  else (intersect_orbit M orbit2 orbit1 (intercept_threshold orbit1 orbit2) (fs 1)).2

/-- The local array `times` of `intercept_orbit` after the loop of lines
223-238; `times` holds its contents when it is declared. -/
def intercept_times (M : Libm α) (kepler_anomaly_true_to_mean : α → α → α)
    (orbit1 orbit2 : kepler_elements α) (fs times : ℕ → ℕ → α) (o : ℕ) : ℕ → α :=
  if o < 2 then
    window_times kepler_anomaly_true_to_mean (orbits orbit1 orbit2 o)
      (intercept_intersects M orbit1 orbit2 fs o) (intercept_fs M orbit1 orbit2 fs o) (times o)
  else times o

/-- The function `intercept_orbit(orbit1, orbit2, t0, t1, intercept)` (lines
199-296) with the loop run for at most `fuel` iterations; `fs` and `times` are
the contents of the local arrays of the same names when they are declared,
`kepler_anomaly_true_to_mean` is the conversion of `libkepler/kepler.h`.
Nothing is written through `intercept`. -/
def intercept_orbit (M : Libm α) (kepler_anomaly_true_to_mean : α → α → α)
    (orbit1 orbit2 : kepler_elements α) (t0 t1 : α)
    (fs times : ℕ → ℕ → α) (fuel : ℕ) : Option Bool :=
  -- true anomaly ranges of possible intercepts
  if intercept_intersects M orbit1 orbit2 fs 0 = 0 then some false
  else if intercept_intersects M orbit1 orbit2 fs 1 = 0 then some false
  else
    -- time ranges of possible intercepts, then the loop over orbits
    (scan_loop (orbits orbit1 orbit2) (intercept_intersects M orbit1 orbit2 fs)
      (intercept_times M kepler_anomaly_true_to_mean orbit1 orbit2 fs times) t1 fuel
      (scan_init (orbits orbit1 orbit2) t0)).map
      (fun s => decide (s.num_intercepts ≠ 0))

end defs

section examples

variable {α : Type} [LinearOrderedField α]

/-- The unit vector `(0, 0, 1)`. -/
def e_z : ℕ → α := fun i => if i = 2 then 1 else 0

/-- The unit vector `(1, 0, 0)`. -/
def e_x : ℕ → α := fun i => if i = 0 then 1 else 0

/-- The unit vector `(0, 1, 0)`. -/
def e_y : ℕ → α := fun i => if i = 1 then 1 else 0

/-- Modelled from the spec: the accessor values of `libkepler/kepler.h` (not
part of the sources at hand) for the conic of semi-latus rectum `p` and
eccentricity `e` in the plane `z = 0` with periapsis on the `x` axis, as
given in section 3 of the specification: periapsis radius `p / (1 + e)`,
apoapsis radius `p / (1 - e)`, closed when `e < 1`, hyperbolic when `e > 1`.
The specification gives no tolerance for "circular: e ≈ 0", so the flag is
an argument.  `t_p` is the periapsis epoch, `T` the period and `n` the mean
motion. -/
def conic_orbit (p e : α) (circular : Bool) (t_p T n : α) : kepler_elements α :=
  { semi_latus_rectum := p, eccentricity := e,
    periapsis := p / (1 + e), apoapsis := p / (1 - e),
    closed := decide (e < 1), circular := circular, hyperbolic := decide (1 < e),
    normal := e_z, tangent := e_x, bitangent := e_y,
    periapsis_time := t_p, period := T, mean_motion := n }

/-- Modelled from the spec: the accessor values of `libkepler/kepler.h` for a
circular orbit of radius `p` in the plane `z = 0`, that is `conic_orbit` at
`e = 0` with the quotients and comparisons worked out: both apsides at `p`,
closed, circular, not hyperbolic. -/
def circular_orbit (p t_p T n : α) : kepler_elements α :=
  { semi_latus_rectum := p, eccentricity := 0, periapsis := p, apoapsis := p,
    closed := true, circular := true, hyperbolic := false,
    normal := e_z, tangent := e_x, bitangent := e_y,
    periapsis_time := t_p, period := T, mean_motion := n }

/-- Modelled from the spec: the accessor values of `libkepler/kepler.h` for a
circular orbit of radius `p` in the plane `x = 0`: as `circular_orbit`, with
the frame normal `(1, 0, 0)`, tangent `(0, 0, 1)`, bitangent
`normal × tangent = (0, -1, 0)`. -/
def polar_circular_orbit (p t_p T n : α) : kepler_elements α :=
  { semi_latus_rectum := p, eccentricity := 0, periapsis := p, apoapsis := p,
    closed := true, circular := true, hyperbolic := false,
    normal := e_x, tangent := e_z, bitangent := fun i => if i = 1 then -1 else 0,
    periapsis_time := t_p, period := T, mean_motion := n }

/-- Modelled from the spec: the accessor values of `libkepler/kepler.h` for the
conic of semi-latus rectum `p` and eccentricity `e` in the plane `y = 0`: as
`conic_orbit`, with the frame normal `(0, 1, 0)`, tangent `(0, 0, 1)`,
bitangent `(1, 0, 0)`. -/
def tilted_conic_orbit (p e : α) (circular : Bool) (t_p T n : α) : kepler_elements α :=
  { semi_latus_rectum := p, eccentricity := e,
    periapsis := p / (1 + e), apoapsis := p / (1 - e),
    closed := decide (e < 1), circular := circular, hyperbolic := decide (1 < e),
    normal := e_y, tangent := e_z, bitangent := e_x,
    periapsis_time := t_p, period := T, mean_motion := n }

/-- Modelled from the spec: the accessor values of `libkepler/kepler.h` for the
conic of semi-latus rectum `p` and eccentricity `e` in the plane through the
`x` axis with unit normal `(0, s, c)`: as `conic_orbit`, with the frame normal
`(0, s, c)`, tangent `(1, 0, 0)`, bitangent `normal × tangent = (0, c, -s)`. -/
def inclined_conic_orbit (p e : α) (circular : Bool) (t_p T n s c : α) : kepler_elements α :=
  { semi_latus_rectum := p, eccentricity := e,
    periapsis := p / (1 + e), apoapsis := p / (1 - e),
    closed := decide (e < 1), circular := circular, hyperbolic := decide (1 < e),
    normal := fun i => if i = 1 then s else if i = 2 then c else 0,
    tangent := e_x,
    bitangent := fun i => if i = 1 then c else if i = 2 then -s else 0,
    periapsis_time := t_p, period := T, mean_motion := n }

/-- A table of window times for the scan: orbit 0 has the two windows
`[-8, -6]` and `[6, 8]` (symmetric about its periapsis epoch 0), orbit 1 the
single window `[-100, 100]`. -/
def flyby_times : ℕ → ℕ → α :=
  fun o i =>
    if o = 0 then (if i = 0 then -8 else if i = 1 then -6 else if i = 2 then 6 else 8)
    else (if i = 0 then -100 else 100)

/-- The interval counts that go with `flyby_times`: two for orbit 0, one for
orbit 1. -/
def flyby_intersects : ℕ → ℕ :=
  fun o => if o = 0 then 2 else 1

/-- Scan data of two closed orbits of period `4 h` whose converted tables both
hold the two windows `[-h - d, -h + d]` and `[h - d, h + d]`: windows of
half-width `d` around the two node passages, a quarter period either side of the
periapsis epoch 0. -/
def node_windows (orbs : ℕ → kepler_elements α) (times : ℕ → ℕ → α) (h d : α) : Prop :=
  ∀ o, o < 2 →
    (orbs o).closed = true ∧ (orbs o).period = 4 * h ∧
    times o 0 = -h - d ∧ times o 1 = -h + d ∧ times o 2 = h - d ∧ times o 3 = h + d

/-- Modelled from the spec: the relations of section 3 between the values of
the accessors of `libkepler/kepler.h` (not part of the sources at hand) on one
orbit: `r_p = p / (1 + e)`; closed exactly when `e < 1`; hyperbolic exactly
when `e > 1`; `r_a = p / (1 - e)` on a closed orbit; an orbit with `e = 0` is
circular. -/
def consistent (o : kepler_elements α) : Prop :=
  o.periapsis = o.semi_latus_rectum / (1 + o.eccentricity) ∧
  (o.closed = true ↔ o.eccentricity < 1) ∧
  (o.hyperbolic = true ↔ 1 < o.eccentricity) ∧
  (o.closed = true → o.apoapsis = o.semi_latus_rectum / (1 - o.eccentricity)) ∧
  (o.eccentricity = 0 → o.circular = true)

end examples

section spec_functions

variable {α : Type} [LinearOrderedField α]

/-- Modelled from the spec: the function `true_radius(p, e, f)` declared in
`libkepler/true_anomaly.h` (its body is not part of the sources at hand), as
the specification gives it in section 3: `r = p / (1 + e cos f)`; `cos` is
the cosine of `<math.h>`. -/
def true_radius (cos : α → α) (p e f : α) : α :=
  p / (1 + e * cos f)

end spec_functions

section variant

variable {α : Type} [LinearOrderedField α]

/-- The local `advance` of the loop body of `intercept_orbit` (line 282): the
orbit whose current window ends first, orbit 1 on a tie. -/
def scan_advance (orbits : ℕ → kepler_elements α) (times : ℕ → ℕ → α)
    (s : scan_state α) : ℕ :=
  if trange orbits times s 0 1 < trange orbits times s 1 1 then 0 else 1

/-- The windows that orbit `o` has left in the state `s` before a target: on a
closed orbit the windows before window `K o` of the period `B o`, on any other
orbit the windows of its single pass.  Used to bound the number of iterations
of the loop. -/
def scan_left (orbits : ℕ → kepler_elements α) (intersects : ℕ → ℕ) (B : ℕ → ℤ) (K : ℕ → ℕ)
    (s : scan_state α) (o : ℕ) : ℕ :=
  if (orbits o).closed then
    ((B o - s.n_orbit o) * (intersects o : ℤ) + (K o : ℤ) - (s.isect o : ℤ)).toNat
  else intersects o - s.isect o

/-- The variant of the loop of `intercept_orbit`: the windows left on the two
orbits. -/
def scan_variant (orbits : ℕ → kepler_elements α) (intersects : ℕ → ℕ) (B : ℕ → ℤ)
    (K : ℕ → ℕ) (s : scan_state α) : ℕ :=
  scan_left orbits intersects B K s 0 + scan_left orbits intersects B K s 1

end variant

section numtest

/-- The builtin `__builtin_clzl(x)` on a 64-bit `unsigned long`: the number of
leading zero bits of `x`, for `0 < x < 2^64` (the builtin is undefined at 0). -/
def clzl (x : ℕ) : ℕ :=
  63 - Nat.log2 x

/-- The conversion of a `uint64_t` to `double` (binary64, significand of 53
bits): the nearest representable value, a tie going to the even significand.
The result is an integer, returned as a natural number: `n` itself below
`2^53`; above, with `e` the number of low bits that do not fit, `q` the upper
53 bits and `r` the `e` bits dropped, `q * 2^e` or `(q + 1) * 2^e`. -/
def to_double (n : ℕ) : ℕ :=
  if n < 2 ^ 53 then n
  else
    let e := Nat.log2 n - 52
    let q := n / 2 ^ e
    let r := n % 2 ^ e
    if 2 * r < 2 ^ e ∨ (2 * r = 2 ^ e ∧ q % 2 = 0) then q * 2 ^ e else (q + 1) * 2 ^ e

/-- The function `test_pattern_1d(seed)` of `test/numtest.c` (lines 66-77).  A
`uint64_t` is a natural number below `2^64`; the subtractions do not borrow
(`seed >= 2` and `2^(level-1) <= seed - 1`), the other operations are taken
`% 2^64`.  The result, a `double`, is a rational number: the two conversions
round as `to_double`, and the quotient of a `double` by a power of two is
exact.  `1ull << level` is undefined for `level = 64`, that is for
`seed > 2^63`. -/
def test_pattern_1d (seed : ℕ) : ℚ :=
  if seed < 2 then (to_double seed : ℚ)
  else
    let seed := seed - 1
    let level := 64 - clzl seed
    let numer := (1 + (seed - 2 ^ (level - 1) % 2 ^ 64) * 2) % 2 ^ 64
    let denom := 2 ^ level % 2 ^ 64
    (to_double numer : ℚ) / (to_double denom : ℚ)

/-- The loop of `test_pattern` that reads `seed` as a Morton code (lines
90-92), from the index `i` on; `seeds` is the array of the same name. -/
def morton_loop (seed dim : ℕ) (i : ℕ) (seeds : ℕ → ℕ) : ℕ → ℕ :=
  if i < 64 ∧ 2 ^ i ≤ seed then
    morton_loop seed dim (i + 1)
      (if seed &&& 2 ^ i ≠ 0 then
        Function.update seeds (i % dim) (seeds (i % dim) ||| 2 ^ (i / dim))
      else seeds)
  else seeds
termination_by 64 - i
decreasing_by omega

/-- The function `test_pattern(seed, dim, params)` of `test/numtest.c` (lines
79-96): the contents of `params` on return. -/
def test_pattern (seed dim : ℕ) (params : ℕ → ℚ) : ℕ → ℚ :=
  if dim = 1 then Function.update params 0 (test_pattern_1d seed)
  else
    let seeds := morton_loop seed dim 0 (fun _ => 0)
    fun i => if i < dim then test_pattern_1d (seeds i) else params i

end numtest

section int_arith

lemma int_add_zero_one : int_add 0 1 = 1 := by
  unfold int_add
  norm_num

lemma int_add_one_one : int_add 1 1 = 2 := by
  unfold int_add
  norm_num

lemma int_of_double_zero : int_of_double 0 = 0 := by
  unfold int_of_double
  norm_num

lemma int_of_double_one : int_of_double 1 = 1 := by
  unfold int_of_double
  norm_num

/-- Inside the range of `int`, with room for one more, `+= 1` adds one. -/
lemma int_add_one (n : ℤ) (h1 : -2 ^ 31 ≤ n) (h2 : n < 2 ^ 31 - 1) : int_add n 1 = n + 1 := by
  unfold int_add
  norm_num at h1 h2 ⊢
  omega

lemma int_of_double_range (z : ℤ) : -2 ^ 31 ≤ int_of_double z ∧ int_of_double z < 2 ^ 31 := by
  unfold int_of_double
  split_ifs with h
  · exact h
  · norm_num

lemma int_of_double_of_mem (z : ℤ) (h1 : -2 ^ 31 ≤ z) (h2 : z < 2 ^ 31) :
    int_of_double z = z := by
  unfold int_of_double
  rw [if_pos ⟨h1, h2⟩]

end int_arith

section arrays

variable {α : Type}

lemma swap_swap_0 (fs : ℕ → α) : swap (swap fs 0 2) 1 3 0 = fs 2 := by
  simp [swap, Function.update_apply]

lemma swap_swap_1 (fs : ℕ → α) : swap (swap fs 0 2) 1 3 1 = fs 3 := by
  simp [swap, Function.update_apply]

lemma swap_swap_2 (fs : ℕ → α) : swap (swap fs 0 2) 1 3 2 = fs 0 := by
  simp [swap, Function.update_apply]

lemma swap_swap_3 (fs : ℕ → α) : swap (swap fs 0 2) 1 3 3 = fs 1 := by
  simp [swap, Function.update_apply]

end arrays

section basics

variable {α : Type} [LinearOrderedField α]

lemma min_eq_inf (a b : α) : min a b = a ⊓ b := by
  unfold min
  split_ifs with h
  · exact (inf_eq_left.mpr h.le).symm
  · exact (inf_eq_right.mpr (not_lt.mp h)).symm

lemma max_eq_sup (a b : α) : max a b = a ⊔ b := by
  unfold max
  split_ifs with h
  · exact (sup_eq_left.mpr (le_of_lt h)).symm
  · exact (sup_eq_right.mpr (not_lt.mp h)).symm

lemma intersect_orbit_count_le (fs : ℕ → α) : (intersect_orbit_count fs).1 ≤ 2 := by
  unfold intersect_orbit_count
  dsimp only
  split_ifs <;> simp

lemma merge_or_count_le (fs : ℕ → α) : (merge_or_count fs).1 ≤ 2 := by
  unfold merge_or_count
  split_ifs
  · simp
  · exact intersect_orbit_count_le fs

/-- The count of the tail of `intersect_orbit` in terms of the four cells. -/
lemma intersect_orbit_count_fst (fs : ℕ → α) :
    (intersect_orbit_count fs).1 =
      if fs 0 > fs 1 ∧ ¬ (fs 2 > fs 3) then
        (if fs 2 < fs 3 then 1 else 0) + (if fs 0 < fs 1 then 1 else 0)
      else (if fs 0 < fs 1 then 1 else 0) + (if fs 2 < fs 3 then 1 else 0) := by
  unfold intersect_orbit_count
  dsimp only
  by_cases h : fs 0 > fs 1 ∧ ¬ (fs 2 > fs 3)
  · rw [if_pos h, if_pos h, swap_swap_0, swap_swap_1, swap_swap_2, swap_swap_3]
  · rw [if_neg h, if_neg h]

lemma intersect_orbit_count_fst_congr (fs fs' : ℕ → α)
    (h0 : fs 0 = fs' 0) (h1 : fs 1 = fs' 1) (h2 : fs 2 = fs' 2) (h3 : fs 3 = fs' 3) :
    (intersect_orbit_count fs).1 = (intersect_orbit_count fs').1 := by
  rw [intersect_orbit_count_fst, intersect_orbit_count_fst, h0, h1, h2, h3]

lemma merge_or_count_fst_congr (fs fs' : ℕ → α)
    (h0 : fs 0 = fs' 0) (h1 : fs 1 = fs' 1) (h2 : fs 2 = fs' 2) (h3 : fs 3 = fs' 3) :
    (merge_or_count fs).1 = (merge_or_count fs').1 := by
  unfold merge_or_count
  rw [h1, h2]
  split_ifs
  · rfl
  · exact intersect_orbit_count_fst_congr fs fs' h0 h1 h2 h3

lemma clip_windows_0 (M : Libm α) (orbit1 orbit2 : kepler_elements α)
    (threshold lo0 hi0 lo1 hi1 : α) (fs : ℕ → α) :
    clip_windows M orbit1 orbit2 threshold lo0 hi0 lo1 hi1 fs 0 =
      max (f_nodes M orbit1 orbit2 0 - delta_fs M orbit1 orbit2 threshold 0) lo0 := by
  simp [clip_windows, Function.update_apply]

lemma clip_windows_1 (M : Libm α) (orbit1 orbit2 : kepler_elements α)
    (threshold lo0 hi0 lo1 hi1 : α) (fs : ℕ → α) :
    clip_windows M orbit1 orbit2 threshold lo0 hi0 lo1 hi1 fs 1 =
      min (f_nodes M orbit1 orbit2 0 + delta_fs M orbit1 orbit2 threshold 0) hi0 := by
  simp [clip_windows, Function.update_apply]

lemma clip_windows_2 (M : Libm α) (orbit1 orbit2 : kepler_elements α)
    (threshold lo0 hi0 lo1 hi1 : α) (fs : ℕ → α) :
    clip_windows M orbit1 orbit2 threshold lo0 hi0 lo1 hi1 fs 2 =
      max (f_nodes M orbit1 orbit2 1 - delta_fs M orbit1 orbit2 threshold 1) lo1 := by
  simp [clip_windows, Function.update_apply]

lemma clip_windows_3 (M : Libm α) (orbit1 orbit2 : kepler_elements α)
    (threshold lo0 hi0 lo1 hi1 : α) (fs : ℕ → α) :
    clip_windows M orbit1 orbit2 threshold lo0 hi0 lo1 hi1 fs 3 =
      min (f_nodes M orbit1 orbit2 1 + delta_fs M orbit1 orbit2 threshold 1) hi1 := by
  simp [clip_windows, Function.update_apply]

variable [FloorRing α]

lemma intersect_apoapsis_fst_indep (M : Libm α) (orbit1 orbit2 : kepler_elements α)
    (threshold f1 : α) (fs fs' : ℕ → α) :
    (intersect_apoapsis M orbit1 orbit2 threshold f1 fs).1 =
      (intersect_apoapsis M orbit1 orbit2 threshold f1 fs').1 := by
  unfold intersect_apoapsis
  dsimp only
  split_ifs <;> rfl

/-- The count returned by `intersect_orbit` does not depend on what `fs` holds
on entry. -/
lemma intersect_orbit_fst_indep (M : Libm α) (orbit1 orbit2 : kepler_elements α)
    (threshold : α) (fs fs' : ℕ → α) :
    (intersect_orbit M orbit1 orbit2 threshold fs).1 =
      (intersect_orbit M orbit1 orbit2 threshold fs').1 := by
  unfold intersect_orbit
  dsimp only
  split_ifs
  all_goals first
    | rfl
    | exact intersect_apoapsis_fst_indep _ _ _ _ _ _ _
    | (apply merge_or_count_fst_congr
       · rw [clip_windows_0, clip_windows_0]
       · rw [clip_windows_1, clip_windows_1]
       · rw [clip_windows_2, clip_windows_2]
       · rw [clip_windows_3, clip_windows_3])

lemma intersect_apoapsis_le (M : Libm α) (orbit1 orbit2 : kepler_elements α)
    (threshold f1 : α) (fs : ℕ → α) :
    (intersect_apoapsis M orbit1 orbit2 threshold f1 fs).1 ≤ 2 := by
  unfold intersect_apoapsis
  dsimp only
  split_ifs <;> simp

end basics

section coplanar

variable {α : Type} [LinearOrderedField α]

lemma cross_self (a : ℕ → α) : cross a a = fun _ => 0 := by
  funext i
  unfold cross
  split_ifs <;> ring

lemma zero_zero : zero (0 : α) = true := by
  simp [zero, DBL_EPSILON]

/-- Equal normals make the two orbits coplanar, as soon as `sqrt(0) = 0`. -/
lemma coplanar_of_normal_eq (M : Libm α) (hsqrt : M.sqrt 0 = 0)
    (orbit1 orbit2 : kepler_elements α) (hn : orbit2.normal = orbit1.normal) :
    coplanar M orbit1 orbit2 = true := by
  unfold coplanar nodes_mag mag nodes
  rw [hn, cross_self]
  simp [dot, hsqrt, zero_zero]

lemma consistent_circular_orbit (p t_p T n : α) : consistent (circular_orbit p t_p T n) := by
  simp [consistent, circular_orbit]

variable [FloorRing α]

/-- The coplanar branch of `intersect_orbit` (lines 88-101). -/
lemma intersect_orbit_coplanar (M : Libm α) (orbit1 orbit2 : kepler_elements α)
    (threshold : α) (fs : ℕ → α)
    (hpass : ¬ ((orbit1.closed = true ∧ orbit1.apoapsis < orbit2.periapsis - threshold) ∨
      (orbit2.closed = true ∧ orbit2.apoapsis < orbit1.periapsis - threshold)))
    (hcop : coplanar M orbit1 orbit2 = true) :
    intersect_orbit M orbit1 orbit2 threshold fs =
      if zero (altitude_f1 M orbit1 orbit2 threshold) = true then
        (1, Function.update (Function.update fs 0 (-altitude_f2 M orbit1 orbit2 threshold))
          1 (altitude_f2 M orbit1 orbit2 threshold))
      else if orbit1.closed = true ∧ ¬ (altitude_f2 M orbit1 orbit2 threshold < M.M_PI) then
        (1, Function.update (Function.update fs 0 (altitude_f1 M orbit1 orbit2 threshold))
          1 (-altitude_f1 M orbit1 orbit2 threshold))
      else
        (2, Function.update (Function.update (Function.update (Function.update fs
          0 (-altitude_f2 M orbit1 orbit2 threshold))
          1 (-altitude_f1 M orbit1 orbit2 threshold))
          2 (altitude_f1 M orbit1 orbit2 threshold))
          3 (altitude_f2 M orbit1 orbit2 threshold)) := by
  unfold intersect_orbit
  rw [if_neg hpass]
  dsimp only
  rw [if_pos hcop]

end coplanar

section ranges

variable {α : Type} [LinearOrderedField α]

lemma sign_cases (x : α) : sign x = -1 ∨ sign x = 1 := by
  unfold sign
  split_ifs
  · exact Or.inl rfl
  · exact Or.inr rfl

lemma min_le_left_c (a b : α) : min a b ≤ a := by
  rw [min_eq_inf]; exact inf_le_left

lemma min_le_right_c (a b : α) : min a b ≤ b := by
  rw [min_eq_inf]; exact inf_le_right

lemma le_min_c {a b c : α} (h1 : c ≤ a) (h2 : c ≤ b) : c ≤ min a b := by
  rw [min_eq_inf]; exact le_inf h1 h2

lemma le_max_left_c (a b : α) : a ≤ max a b := by
  rw [max_eq_sup]; exact le_sup_left

lemma le_max_right_c (a b : α) : b ≤ max a b := by
  rw [max_eq_sup]; exact le_sup_right

lemma max_le_c {a b c : α} (h1 : a ≤ c) (h2 : b ≤ c) : max a b ≤ c := by
  rw [max_eq_sup]; exact sup_le h1 h2

/-- The altitude-bound angles are in `[0, M_PI]` when `acos` is. -/
lemma altitude_f1_range (M : Libm α) (hacos : ∀ x, 0 ≤ M.acos x ∧ M.acos x ≤ M.M_PI)
    (orbit1 orbit2 : kepler_elements α) (threshold : α) :
    0 ≤ altitude_f1 M orbit1 orbit2 threshold ∧
      altitude_f1 M orbit1 orbit2 threshold ≤ M.M_PI := by
  have hpi : 0 ≤ M.M_PI := le_trans (hacos 0).1 (hacos 0).2
  unfold altitude_f1 true_anomaly_from_radius
  dsimp only
  split_ifs
  · exact hacos _
  · exact ⟨le_refl _, hpi⟩

lemma altitude_f2_range (M : Libm α) (hacos : ∀ x, 0 ≤ M.acos x ∧ M.acos x ≤ M.M_PI)
    (orbit1 orbit2 : kepler_elements α) (threshold : α) :
    0 ≤ altitude_f2 M orbit1 orbit2 threshold ∧
      altitude_f2 M orbit1 orbit2 threshold ≤ M.M_PI := by
  have hpi : 0 ≤ M.M_PI := le_trans (hacos 0).1 (hacos 0).2
  unfold altitude_f2 true_anomaly_from_radius
  dsimp only
  split_ifs
  all_goals first
    | exact hacos _
    | exact ⟨hpi, le_refl _⟩

lemma f_an_range (M : Libm α) (hacos : ∀ x, 0 ≤ M.acos x ∧ M.acos x ≤ M.M_PI)
    (orbit1 orbit2 : kepler_elements α) :
    -M.M_PI ≤ f_an M orbit1 orbit2 ∧ f_an M orbit1 orbit2 ≤ M.M_PI := by
  unfold f_an
  obtain ⟨h0, h1⟩ := hacos (clamp (-1) 1
    (dot (nodes orbit1 orbit2) orbit1.tangent / nodes_mag M orbit1 orbit2))
  rcases sign_cases (dot orbit1.bitangent (nodes orbit1 orbit2)) with hs | hs <;>
    rw [hs] <;> constructor <;> linarith

/-- The sorted nodal anomalies: the first is in `[-M_PI, 0]`. -/
lemma f_nodes_0_range (M : Libm α) (hacos : ∀ x, 0 ≤ M.acos x ∧ M.acos x ≤ M.M_PI)
    (orbit1 orbit2 : kepler_elements α) :
    -M.M_PI ≤ f_nodes M orbit1 orbit2 0 ∧ f_nodes M orbit1 orbit2 0 ≤ 0 := by
  have hpi : 0 ≤ M.M_PI := le_trans (hacos 0).1 (hacos 0).2
  obtain ⟨h0, h1⟩ := f_an_range M hacos orbit1 orbit2
  unfold f_nodes f_dn sign min
  rw [if_pos rfl]
  split_ifs <;> constructor <;> linarith

/-- The sorted nodal anomalies: the second is in `[0, M_PI]`. -/
lemma f_nodes_1_range (M : Libm α) (hacos : ∀ x, 0 ≤ M.acos x ∧ M.acos x ≤ M.M_PI)
    (orbit1 orbit2 : kepler_elements α) :
    0 ≤ f_nodes M orbit1 orbit2 1 ∧ f_nodes M orbit1 orbit2 1 ≤ M.M_PI := by
  have hpi : 0 ≤ M.M_PI := le_trans (hacos 0).1 (hacos 0).2
  obtain ⟨h0, h1⟩ := f_an_range M hacos orbit1 orbit2
  unfold f_nodes f_dn sign max
  rw [if_neg (by norm_num)]
  split_ifs <;> constructor <;> linarith

variable [FloorRing α]

/-- The value of `angle_clamp` is in `[-M_PI, M_PI]` (in fact in
`[-M_PI, M_PI)` when
`M_PI > 0`). -/
lemma angle_clamp_range (M : Libm α) (hpi : 0 ≤ M.M_PI) (x0 : α) :
    -M.M_PI ≤ angle_clamp M x0 ∧ angle_clamp M x0 ≤ M.M_PI := by
  unfold angle_clamp
  dsimp only
  have h0 := Int.fract_nonneg ((x0 + M.M_PI) / (2 * M.M_PI))
  have h1 := (Int.fract_lt_one ((x0 + M.M_PI) / (2 * M.M_PI))).le
  rw [Int.fract] at h0 h1
  constructor
  · nlinarith
  · nlinarith

end ranges

section branch_ranges

variable {α : Type} [LinearOrderedField α]

/-- Range of the cells returned by the tail of `intersect_orbit`: every
returned window has `lo < hi` or is the degenerate first window, so the clip
bounds of the four cells carry over. -/
lemma intersect_orbit_count_range (P : α) (fs : ℕ → α)
    (h0 : -P ≤ fs 0) (h1 : fs 1 ≤ P) (h2 : -P ≤ fs 2) (h3 : fs 3 ≤ P) (j : ℕ)
    (hj : j < 2 * (intersect_orbit_count fs).1) :
    -P ≤ (intersect_orbit_count fs).2 j ∧ (intersect_orbit_count fs).2 j ≤ P := by
  rw [intersect_orbit_count_fst] at hj
  unfold intersect_orbit_count
  dsimp only
  by_cases hs : fs 0 > fs 1 ∧ ¬ (fs 2 > fs 3)
  · rw [if_pos hs] at hj ⊢
    have h01 : ¬ (fs 0 < fs 1) := not_lt.mpr hs.1.le
    rw [if_neg h01] at hj
    by_cases h23 : fs 2 < fs 3
    · rw [if_pos h23] at hj
      have hj2 : j = 0 ∨ j = 1 := by omega
      rcases hj2 with rfl | rfl
      · rw [swap_swap_0]; exact ⟨h2, by linarith⟩
      · rw [swap_swap_1]; exact ⟨by linarith, h3⟩
    · rw [if_neg h23] at hj
      omega
  · rw [if_neg hs] at hj ⊢
    by_cases h01 : fs 0 < fs 1
    · by_cases h23 : fs 2 < fs 3
      · rw [if_pos h01, if_pos h23] at hj
        have hj4 : j = 0 ∨ j = 1 ∨ j = 2 ∨ j = 3 := by omega
        rcases hj4 with rfl | rfl | rfl | rfl
        · exact ⟨h0, by linarith⟩
        · exact ⟨by linarith, h1⟩
        · exact ⟨h2, by linarith⟩
        · exact ⟨by linarith, h3⟩
      · rw [if_pos h01, if_neg h23] at hj
        have hj2 : j = 0 ∨ j = 1 := by omega
        rcases hj2 with rfl | rfl
        · exact ⟨h0, by linarith⟩
        · exact ⟨by linarith, h1⟩
    · by_cases h23 : fs 2 < fs 3
      · rw [if_neg h01, if_pos h23] at hj
        have h10 : fs 0 ≤ fs 1 := by
          by_contra hc
          exact hs ⟨not_le.mp hc, not_lt.mpr h23.le⟩
        have hj2 : j = 0 ∨ j = 1 := by omega
        rcases hj2 with rfl | rfl
        · exact ⟨h0, by linarith⟩
        · exact ⟨by linarith [not_lt.mp h01], h1⟩
      · rw [if_neg h01, if_neg h23] at hj
        omega

/-- Range of the cells returned by the merge test followed by the tail. -/
lemma merge_or_count_range (P : α) (fs : ℕ → α)
    (h0l : -P ≤ fs 0) (h0u : fs 0 ≤ P) (h1u : fs 1 ≤ P) (h2l : -P ≤ fs 2)
    (h3l : -P ≤ fs 3) (h3u : fs 3 ≤ P) (j : ℕ)
    (hj : j < 2 * (merge_or_count fs).1) :
    -P ≤ (merge_or_count fs).2 j ∧ (merge_or_count fs).2 j ≤ P := by
  unfold merge_or_count at hj ⊢
  by_cases hm : fs 1 ≥ fs 2
  · rw [if_pos hm] at hj ⊢
    have hj2 : j = 0 ∨ j = 1 := by
      simp only [Nat.mul_one] at hj
      omega
    rcases hj2 with rfl | rfl
    · dsimp only
      rw [Function.update_noteq (by norm_num)]
      exact ⟨h0l, h0u⟩
    · dsimp only
      rw [Function.update_same]
      exact ⟨h3l, h3u⟩
  · rw [if_neg hm] at hj ⊢
    exact intersect_orbit_count_range P fs h0l h1u h2l h3u j hj

/-- Range of the cells returned from the clipped node windows (periapsis-only
and two-sided branch), for a half-width `delta_fs ≥ 0` and clip bounds in
`[-M_PI, M_PI]`. -/
lemma clipped_windows_range (M : Libm α)
    (hacos : ∀ x, 0 ≤ M.acos x ∧ M.acos x ≤ M.M_PI)
    (orbit1 orbit2 : kepler_elements α) (threshold lo0 hi0 lo1 hi1 : α) (fs : ℕ → α)
    (hdelta : 0 ≤ delta_fs M orbit1 orbit2 threshold 0)
    (hlo0 : -M.M_PI ≤ lo0 ∧ lo0 ≤ M.M_PI) (hhi0 : hi0 ≤ M.M_PI) (hlo1 : -M.M_PI ≤ lo1)
    (hhi1 : -M.M_PI ≤ hi1 ∧ hi1 ≤ M.M_PI) (j : ℕ)
    (hj : j < 2 * (merge_or_count
      (clip_windows M orbit1 orbit2 threshold lo0 hi0 lo1 hi1 fs)).1) :
    -M.M_PI ≤ (merge_or_count
        (clip_windows M orbit1 orbit2 threshold lo0 hi0 lo1 hi1 fs)).2 j ∧
      (merge_or_count
        (clip_windows M orbit1 orbit2 threshold lo0 hi0 lo1 hi1 fs)).2 j ≤ M.M_PI := by
  have hpi : 0 ≤ M.M_PI := le_trans (hacos 0).1 (hacos 0).2
  obtain ⟨hn0l, hn0u⟩ := f_nodes_0_range M hacos orbit1 orbit2
  obtain ⟨hn1l, hn1u⟩ := f_nodes_1_range M hacos orbit1 orbit2
  have hd1 : delta_fs M orbit1 orbit2 threshold 1 = delta_fs M orbit1 orbit2 threshold 0 := rfl
  refine merge_or_count_range M.M_PI _ ?_ ?_ ?_ ?_ ?_ ?_ j hj
  · rw [clip_windows_0]
    exact le_trans hlo0.1 (le_max_right_c _ _)
  · rw [clip_windows_0]
    exact max_le_c (by linarith) hlo0.2
  · rw [clip_windows_1]
    exact le_trans (min_le_right_c _ _) hhi0
  · rw [clip_windows_2]
    exact le_trans hlo1 (le_max_right_c _ _)
  · rw [clip_windows_3]
    exact le_min_c (by rw [hd1]; linarith) hhi1.1
  · rw [clip_windows_3]
    exact le_trans (min_le_right_c _ _) hhi1.2

variable [FloorRing α]

/-- Range of the cells returned by the apoapsis-only branch, for a half-width
`delta_fs ≥ 0`. -/
lemma intersect_apoapsis_range (M : Libm α)
    (hacos : ∀ x, 0 ≤ M.acos x ∧ M.acos x ≤ M.M_PI)
    (orbit1 orbit2 : kepler_elements α) (threshold f1 : α) (fs : ℕ → α)
    (hf1 : 0 ≤ f1 ∧ f1 ≤ M.M_PI)
    (hdelta : 0 ≤ delta_fs M orbit1 orbit2 threshold 0) (j : ℕ)
    (hj : j < 2 * (intersect_apoapsis M orbit1 orbit2 threshold f1 fs).1) :
    -M.M_PI ≤ (intersect_apoapsis M orbit1 orbit2 threshold f1 fs).2 j ∧
      (intersect_apoapsis M orbit1 orbit2 threshold f1 fs).2 j ≤ M.M_PI := by
  have hpi : 0 ≤ M.M_PI := le_trans (hacos 0).1 (hacos 0).2
  obtain ⟨hn0l, hn0u⟩ := f_nodes_0_range M hacos orbit1 orbit2
  obtain ⟨hn1l, hn1u⟩ := f_nodes_1_range M hacos orbit1 orbit2
  have hd1 : delta_fs M orbit1 orbit2 threshold 1 = delta_fs M orbit1 orbit2 threshold 0 := rfl
  obtain ⟨hf1l, hf1u⟩ := hf1
  have hv0 : -M.M_PI ≤ (if f_nodes M orbit1 orbit2 0 - delta_fs M orbit1 orbit2 threshold 0
        < -M.M_PI then
          max (angle_clamp M (f_nodes M orbit1 orbit2 0 - delta_fs M orbit1 orbit2 threshold 0)) f1
        else f_nodes M orbit1 orbit2 0 - delta_fs M orbit1 orbit2 threshold 0) ∧
      (if f_nodes M orbit1 orbit2 0 - delta_fs M orbit1 orbit2 threshold 0 < -M.M_PI then
          max (angle_clamp M (f_nodes M orbit1 orbit2 0 - delta_fs M orbit1 orbit2 threshold 0)) f1
        else f_nodes M orbit1 orbit2 0 - delta_fs M orbit1 orbit2 threshold 0) ≤ M.M_PI := by
    split_ifs with h
    · exact ⟨by linarith [le_max_right_c (angle_clamp M (f_nodes M orbit1 orbit2 0 -
          delta_fs M orbit1 orbit2 threshold 0)) f1],
        max_le_c (angle_clamp_range M hpi _).2 hf1u⟩
    · exact ⟨not_lt.mp h, by linarith⟩
  have hv1 : -M.M_PI ≤ min (f_nodes M orbit1 orbit2 0 + delta_fs M orbit1 orbit2 threshold 0)
        (-f1) ∧
      min (f_nodes M orbit1 orbit2 0 + delta_fs M orbit1 orbit2 threshold 0) (-f1) ≤ M.M_PI :=
    ⟨le_min_c (by linarith) (by linarith),
      by linarith [min_le_right_c (f_nodes M orbit1 orbit2 0 +
        delta_fs M orbit1 orbit2 threshold 0) (-f1)]⟩
  have hv2 : -M.M_PI ≤ max (f_nodes M orbit1 orbit2 1 - delta_fs M orbit1 orbit2 threshold 1)
        f1 ∧
      max (f_nodes M orbit1 orbit2 1 - delta_fs M orbit1 orbit2 threshold 1) f1 ≤ M.M_PI :=
    ⟨by linarith [le_max_right_c (f_nodes M orbit1 orbit2 1 -
        delta_fs M orbit1 orbit2 threshold 1) f1],
      max_le_c (by rw [hd1]; linarith) hf1u⟩
  have hv3 : -M.M_PI ≤ (if f_nodes M orbit1 orbit2 1 + delta_fs M orbit1 orbit2 threshold 1
        > M.M_PI then
          min (angle_clamp M (f_nodes M orbit1 orbit2 1 + delta_fs M orbit1 orbit2 threshold 1))
            (-f1)
        else f_nodes M orbit1 orbit2 1 + delta_fs M orbit1 orbit2 threshold 1) ∧
      (if f_nodes M orbit1 orbit2 1 + delta_fs M orbit1 orbit2 threshold 1 > M.M_PI then
          min (angle_clamp M (f_nodes M orbit1 orbit2 1 + delta_fs M orbit1 orbit2 threshold 1))
            (-f1)
        else f_nodes M orbit1 orbit2 1 + delta_fs M orbit1 orbit2 threshold 1) ≤ M.M_PI := by
    split_ifs with h
    · exact ⟨le_min_c (angle_clamp_range M hpi _).1 (by linarith),
        by linarith [min_le_right_c (angle_clamp M (f_nodes M orbit1 orbit2 1 +
          delta_fs M orbit1 orbit2 threshold 1)) (-f1)]⟩
    · exact ⟨by rw [hd1]; linarith, not_lt.mp h⟩
  unfold intersect_apoapsis at hj ⊢
  dsimp only at hj ⊢
  by_cases hA : f_nodes M orbit1 orbit2 0 - delta_fs M orbit1 orbit2 threshold 0 < -f1
  · by_cases hB : f_nodes M orbit1 orbit2 1 + delta_fs M orbit1 orbit2 threshold 1 > f1
    · rw [if_pos hB, if_pos hA] at hj ⊢
      dsimp only at hj ⊢
      have hj4 : j = 0 ∨ j = 1 ∨ j = 2 ∨ j = 3 := by omega
      rcases hj4 with rfl | rfl | rfl | rfl
      · simpa [Function.update_apply] using hv0
      · simpa [Function.update_apply] using hv1
      · simpa [Function.update_apply] using hv2
      · simpa [Function.update_apply] using hv3
    · rw [if_neg hB, if_pos hA] at hj ⊢
      dsimp only at hj ⊢
      have hj2 : j = 0 ∨ j = 1 := by omega
      rcases hj2 with rfl | rfl
      · simpa [Function.update_apply] using hv0
      · simpa [Function.update_apply] using hv1
  · by_cases hB : f_nodes M orbit1 orbit2 1 + delta_fs M orbit1 orbit2 threshold 1 > f1
    · rw [if_pos hB, if_neg hA] at hj ⊢
      dsimp only at hj ⊢
      have hj2 : j = 0 ∨ j = 1 := by omega
      rcases hj2 with rfl | rfl
      · simpa [Function.update_apply] using hv2
      · simpa [Function.update_apply] using hv3
    · rw [if_neg hB, if_neg hA] at hj
      dsimp only at hj
      omega

/-- The non-coplanar part of `intersect_orbit` (lines 103-180). -/
lemma intersect_orbit_noncoplanar (M : Libm α) (orbit1 orbit2 : kepler_elements α)
    (threshold : α) (fs : ℕ → α)
    (hpass : ¬ ((orbit1.closed = true ∧ orbit1.apoapsis < orbit2.periapsis - threshold) ∨
      (orbit2.closed = true ∧ orbit2.apoapsis < orbit1.periapsis - threshold)))
    (hcop : ¬ coplanar M orbit1 orbit2 = true) :
    intersect_orbit M orbit1 orbit2 threshold fs =
      if orbit1.closed = true ∧ zero (altitude_f1 M orbit1 orbit2 threshold) = true ∧
          ¬ (altitude_f2 M orbit1 orbit2 threshold < M.M_PI) then
        (2, Function.update (Function.update (Function.update (Function.update fs
          0 (angle_clamp M (f_nodes M orbit1 orbit2 0 - delta_fs M orbit1 orbit2 threshold 0)))
          1 (angle_clamp M (f_nodes M orbit1 orbit2 0 + delta_fs M orbit1 orbit2 threshold 0)))
          2 (angle_clamp M (f_nodes M orbit1 orbit2 1 - delta_fs M orbit1 orbit2 threshold 1)))
          3 (angle_clamp M (f_nodes M orbit1 orbit2 1 + delta_fs M orbit1 orbit2 threshold 1)))
      else if zero (altitude_f1 M orbit1 orbit2 threshold) = true then
        merge_or_count (clip_windows M orbit1 orbit2 threshold
          (-altitude_f2 M orbit1 orbit2 threshold) (altitude_f2 M orbit1 orbit2 threshold)
          (-altitude_f2 M orbit1 orbit2 threshold) (altitude_f2 M orbit1 orbit2 threshold) fs)
      else if orbit1.closed = true ∧ ¬ (altitude_f2 M orbit1 orbit2 threshold < M.M_PI) then
        intersect_apoapsis M orbit1 orbit2 threshold (altitude_f1 M orbit1 orbit2 threshold) fs
      else
        merge_or_count (clip_windows M orbit1 orbit2 threshold
          (-altitude_f2 M orbit1 orbit2 threshold) (-altitude_f1 M orbit1 orbit2 threshold)
          (altitude_f1 M orbit1 orbit2 threshold) (altitude_f2 M orbit1 orbit2 threshold) fs) := by
  unfold intersect_orbit
  rw [if_neg hpass]
  dsimp only
  rw [if_neg hcop]

end branch_ranges

section self_intersection

variable {α : Type} [LinearOrderedField α]

lemma clamp_of_lt_neg_one (x : α) (hx : x < -1) : clamp (-1) 1 x = -1 := by
  unfold clamp
  rw [if_pos hx]

lemma clamp_of_one_lt (x : α) (hx : 1 < x) : clamp (-1) 1 x = 1 := by
  unfold clamp
  rw [if_neg (by linarith), if_pos hx]

/-- On a closed eccentric orbit the radius `r_a + threshold` with
`threshold > 0` is beyond the apoapsis: the cosine `(p/r - 1)/e` is below -1. -/
lemma cos_arg_beyond_apoapsis (p e threshold : α) (hp : 0 < p) (he0 : 0 < e) (he1 : e < 1)
    (hthr : 0 < threshold) : (p / (p / (1 - e) + threshold) - 1) / e < -1 := by
  have h1e : 0 < 1 - e := by linarith
  have hA : 0 < p / (1 - e) + threshold := by positivity
  have hx : p / (p / (1 - e) + threshold) < 1 - e := by
    rw [div_lt_iff₀ hA]
    have : (1 - e) * (p / (1 - e)) = p := by field_simp
    nlinarith
  rw [div_lt_iff₀ he0]
  linarith

/-- A radius `r_p - threshold` with `0 < threshold < r_p` is inside the
periapsis: the cosine `(p/r - 1)/e` is above 1. -/
lemma cos_arg_inside_periapsis (p e threshold : α) (he0 : 0 < e)
    (hthr : 0 < threshold) (hlt : threshold < p / (1 + e)) :
    1 < (p / (p / (1 + e) - threshold) - 1) / e := by
  have h1e : 0 < 1 + e := by linarith
  have hr : 0 < p / (1 + e) - threshold := by linarith
  have hx : 1 + e < p / (p / (1 + e) - threshold) := by
    rw [lt_div_iff₀ hr]
    have : (1 + e) * (p / (1 + e)) = p := by field_simp
    nlinarith
  rw [lt_div_iff₀ he0]
  linarith

variable [FloorRing α]

/-- Where the symmetry of C6 does hold: an eccentric orbit against a coplanar
copy with the same `p` and `e`, when the orbit is closed (`e < 1`) or the
threshold is below the periapsis radius.  `intersect_orbit` returns one
interval with `fs[0] = -fs[1]`. -/
lemma self_intersect_symmetric (M : Libm α)
    (hsqrt : M.sqrt 0 = 0) (hacos1 : M.acos 1 = 0) (hacosm1 : M.acos (-1) = M.M_PI)
    (orbit1 orbit2 : kepler_elements α) (threshold : α) (fs : ℕ → α)
    (hc1 : consistent orbit1) (hc2 : consistent orbit2)
    (hp : orbit2.semi_latus_rectum = orbit1.semi_latus_rectum)
    (he : orbit2.eccentricity = orbit1.eccentricity)
    (hn : orbit2.normal = orbit1.normal)
    (hcirc : orbit1.circular = false)
    (hp0 : 0 < orbit1.semi_latus_rectum) (he0 : 0 < orbit1.eccentricity)
    (hthr : 0 < threshold)
    (hcase : (orbit1.eccentricity < 1 ∧ threshold ≠ orbit1.periapsis) ∨
      threshold < orbit1.periapsis) :
    (intersect_orbit M orbit1 orbit2 threshold fs).1 = 1 ∧
    (intersect_orbit M orbit1 orbit2 threshold fs).2 0 =
      -(intersect_orbit M orbit1 orbit2 threshold fs).2 1 := by
  obtain ⟨hp1, hcl1, hh1, ha1, _⟩ := hc1
  obtain ⟨hp2, hcl2, _, ha2, _⟩ := hc2
  have hperi2 : orbit2.periapsis = orbit1.periapsis := by rw [hp1, hp2, hp, he]
  have hperi_pos : 0 < orbit1.periapsis := by rw [hp1]; positivity
  -- the apsis test passes: on a closed orbit the apoapsis is not below the periapsis
  have hapo : ∀ o : kepler_elements α, o.closed = true →
      o.periapsis = orbit1.periapsis → o.eccentricity = orbit1.eccentricity →
      o.semi_latus_rectum = orbit1.semi_latus_rectum →
      (o.closed = true → o.apoapsis = o.semi_latus_rectum / (1 - o.eccentricity)) →
      (o.closed = true ↔ o.eccentricity < 1) → orbit1.periapsis ≤ o.apoapsis := by
    intro o hcl _ heo hpo hao hclo
    have he1 : orbit1.eccentricity < 1 := by rw [← heo]; exact hclo.mp hcl
    rw [hao hcl, heo, hpo, hp1]
    exact div_le_div_of_nonneg_left hp0.le (by linarith) (by linarith)
  have hpass : ¬ ((orbit1.closed = true ∧ orbit1.apoapsis < orbit2.periapsis - threshold) ∨
      (orbit2.closed = true ∧ orbit2.apoapsis < orbit1.periapsis - threshold)) := by
    rintro (⟨hcl, h⟩ | ⟨hcl, h⟩)
    · have := hapo orbit1 hcl rfl rfl rfl ha1 hcl1
      rw [hperi2] at h
      linarith
    · have := hapo orbit2 hcl hperi2 he hp ha2 hcl2
      linarith
  have hcop := coplanar_of_normal_eq M hsqrt orbit1 orbit2 hn
  rw [intersect_orbit_coplanar M orbit1 orbit2 threshold fs hpass hcop]
  by_cases hz : zero (altitude_f1 M orbit1 orbit2 threshold) = true
  · rw [if_pos hz]
    simp [Function.update_apply]
  · rw [if_neg hz]
    rcases hcase with ⟨he1, _⟩ | hlt
    · -- closed subject: the outer bound is beyond the apoapsis, `f2 = M_PI`
      have hclosed1 : orbit1.closed = true := hcl1.mpr he1
      have hclosed2 : orbit2.closed = true := hcl2.mpr (by rw [he]; exact he1)
      have hhyp : orbit1.hyperbolic = false := by
        cases hb : orbit1.hyperbolic
        · rfl
        · exact absurd (hh1.mp hb) (by linarith)
      have hf2 : altitude_f2 M orbit1 orbit2 threshold = M.M_PI := by
        simp only [altitude_f2, hcirc, hclosed2, hhyp, true_anomaly_from_radius]
        simp only [Bool.not_false, if_true, Bool.false_eq_true, if_false]
        rw [ha2 hclosed2, hp, he,
          clamp_of_lt_neg_one _ (cos_arg_beyond_apoapsis _ _ _ hp0 he0 he1 hthr), hacosm1]
      rw [if_pos ⟨hclosed1, by rw [hf2]; exact lt_irrefl _⟩]
      simp [Function.update_apply]
    · -- threshold below the periapsis radius: `f1 = 0`, excluded by `hz`
      exfalso
      apply hz
      have hf1 : altitude_f1 M orbit1 orbit2 threshold = 0 := by
        simp only [altitude_f1, hcirc, true_anomaly_from_radius]
        simp only [Bool.not_false, if_true]
        rw [hperi2, hp1]
        rw [hp1] at hlt
        rw [clamp_of_one_lt _ (cos_arg_inside_periapsis _ _ _ he0 hthr hlt), hacos1]
      rw [hf1]
      exact zero_zero

end self_intersection

section real_examples

/-- The ellipse `p = 3`, `e = 1/2` and the circular orbit of radius 4 pass the
apsis test at threshold 1. -/
lemma ellipse_circle_pass :
    ¬ (((conic_orbit 3 (1 / 2) false 0 1 1 : kepler_elements ℝ).closed = true ∧
          (conic_orbit 3 (1 / 2) false 0 1 1 : kepler_elements ℝ).apoapsis
            < (circular_orbit 4 0 1 1 : kepler_elements ℝ).periapsis - 1) ∨
        ((circular_orbit 4 0 1 1 : kepler_elements ℝ).closed = true ∧
          (circular_orbit 4 0 1 1 : kepler_elements ℝ).apoapsis
            < (conic_orbit 3 (1 / 2) false 0 1 1 : kepler_elements ℝ).periapsis - 1)) := by
  simp only [conic_orbit, circular_orbit]
  norm_num

lemma ellipse_circle_f1 :
    altitude_f1 ⟨Real.pi, Real.arccos, Real.arcsin, Real.sin, Real.sqrt⟩
      (conic_orbit 3 (1 / 2) false 0 1 1) (circular_orbit 4 0 1 1) (1 : ℝ) = Real.pi / 2 := by
  simp [altitude_f1, true_anomaly_from_radius, conic_orbit, circular_orbit, clamp]
  norm_num

lemma ellipse_circle_f2 :
    altitude_f2 ⟨Real.pi, Real.arccos, Real.arcsin, Real.sin, Real.sqrt⟩
      (conic_orbit 3 (1 / 2) false 0 1 1) (circular_orbit 4 0 1 1) (1 : ℝ)
      = Real.arccos (-(4 / 5)) := by
  simp [altitude_f2, true_anomaly_from_radius, conic_orbit, circular_orbit, clamp]
  norm_num

lemma not_zero_of_one_le (x : ℝ) (hx : 1 ≤ x) : zero x = false := by
  have h1 : (1 : ℝ) / 2 ^ 52 ≤ 1 := by norm_num
  have h2 : 1 ≤ x * x := by nlinarith
  simp only [zero, DBL_EPSILON, decide_eq_false_iff_not, not_lt]
  linarith

lemma ellipse_circle_f1_not_zero :
    zero (altitude_f1 ⟨Real.pi, Real.arccos, Real.arcsin, Real.sin, Real.sqrt⟩
      (conic_orbit 3 (1 / 2) false 0 1 1) (circular_orbit 4 0 1 1) (1 : ℝ)) = false := by
  rw [ellipse_circle_f1]
  exact not_zero_of_one_le _ (by linarith [Real.pi_gt_three])

lemma ellipse_circle_f2_lt_pi :
    altitude_f2 ⟨Real.pi, Real.arccos, Real.arcsin, Real.sin, Real.sqrt⟩
      (conic_orbit 3 (1 / 2) false 0 1 1) (circular_orbit 4 0 1 1) (1 : ℝ) < Real.pi := by
  rw [ellipse_circle_f2]
  refine lt_of_le_of_ne (Real.arccos_le_pi _) (fun h => ?_)
  rw [Real.arccos_eq_pi] at h
  norm_num at h

lemma clamp_nonneg (x : ℝ) (hx : 0 ≤ x) : 0 ≤ clamp (-1) 1 x := by
  unfold clamp
  split_ifs <;> linarith

lemma abs_sign_mul (x y : ℝ) : |sign x * y| = |y| := by
  rcases sign_cases x with h | h <;> rw [h] <;> simp

/-- Over the reals the node half-width is not negative as long as
`0 ≤ threshold / (2 r_p) ≤ pi`. -/
lemma delta_fs_real_nonneg (orbit1 orbit2 : kepler_elements ℝ) (threshold : ℝ)
    (h0 : 0 ≤ threshold / (2 * orbit1.periapsis))
    (h1 : threshold / (2 * orbit1.periapsis) ≤ Real.pi) :
    0 ≤ delta_fs ⟨Real.pi, Real.arccos, Real.arcsin, Real.sin, Real.sqrt⟩
      orbit1 orbit2 threshold 0 := by
  unfold delta_fs
  dsimp only
  rw [Real.arcsin_nonneg]
  apply clamp_nonneg
  apply div_nonneg (Real.sin_nonneg_of_nonneg_of_le_pi h0 h1)
  apply Real.sin_nonneg_of_nonneg_of_le_pi (by positivity)
  unfold rel_incl
  dsimp only
  rw [abs_sign_mul]
  have ha := abs_le.mpr ⟨Real.neg_pi_div_two_le_arcsin
      (clamp (-1) 1 (nodes_mag ⟨Real.pi, Real.arccos, Real.arcsin, Real.sin, Real.sqrt⟩
        orbit1 orbit2)),
    Real.arcsin_le_pi_div_two
      (clamp (-1) 1 (nodes_mag ⟨Real.pi, Real.arccos, Real.arcsin, Real.sin, Real.sqrt⟩
        orbit1 orbit2))⟩
  linarith [Real.pi_pos]

/-- The circular orbit of radius 100 against itself at threshold 1: one
interval, the whole orbit. -/
lemma circles_whole_orbit :
    intersect_orbit ⟨Real.pi, Real.arccos, Real.arcsin, Real.sin, Real.sqrt⟩
      (circular_orbit 100 0 1 1) (circular_orbit 100 5 1 1) (1 : ℝ) (fun _ => 0)
      = (1, Function.update (Function.update (fun _ => 0) 0 (-Real.pi)) 1 Real.pi) := by
  have hpass : ¬ (((circular_orbit 100 0 1 1 : kepler_elements ℝ).closed = true ∧
        (circular_orbit 100 0 1 1 : kepler_elements ℝ).apoapsis
          < (circular_orbit 100 5 1 1 : kepler_elements ℝ).periapsis - 1) ∨
      ((circular_orbit 100 5 1 1 : kepler_elements ℝ).closed = true ∧
        (circular_orbit 100 5 1 1 : kepler_elements ℝ).apoapsis
          < (circular_orbit 100 0 1 1 : kepler_elements ℝ).periapsis - 1)) := by
    simp only [circular_orbit]
    norm_num
  rw [intersect_orbit_coplanar _ _ _ _ _ hpass
    (coplanar_of_normal_eq _ Real.sqrt_zero _ _ rfl)]
  simp [altitude_f1, altitude_f2, circular_orbit, zero_zero]

/-- The equatorial circular orbit of radius 100 against the polar one at
threshold 1: the whole-orbit branch, two intervals. -/
lemma circle_polar_count :
    (intersect_orbit ⟨Real.pi, Real.arccos, Real.arcsin, Real.sin, Real.sqrt⟩
      (circular_orbit 100 0 1 1) (polar_circular_orbit 100 0 1 1) (1 : ℝ) (fun _ => 0)).1
      = 2 := by
  have hpass : ¬ (((circular_orbit 100 0 1 1 : kepler_elements ℝ).closed = true ∧
        (circular_orbit 100 0 1 1 : kepler_elements ℝ).apoapsis
          < (polar_circular_orbit 100 0 1 1 : kepler_elements ℝ).periapsis - 1) ∨
      ((polar_circular_orbit 100 0 1 1 : kepler_elements ℝ).closed = true ∧
        (polar_circular_orbit 100 0 1 1 : kepler_elements ℝ).apoapsis
          < (circular_orbit 100 0 1 1 : kepler_elements ℝ).periapsis - 1)) := by
    simp only [circular_orbit, polar_circular_orbit]
    norm_num
  have hcop : ¬ coplanar ⟨Real.pi, Real.arccos, Real.arcsin, Real.sin, Real.sqrt⟩
      (circular_orbit 100 0 1 1) (polar_circular_orbit 100 0 1 1 : kepler_elements ℝ)
      = true := by
    have hN : nodes_mag ⟨Real.pi, Real.arccos, Real.arcsin, Real.sin, Real.sqrt⟩
        (circular_orbit 100 0 1 1) (polar_circular_orbit 100 0 1 1 : kepler_elements ℝ) = 1 := by
      simp [nodes_mag, mag, nodes, dot, cross, circular_orbit, polar_circular_orbit, e_x, e_z]
    unfold coplanar
    rw [hN, not_zero_of_one_le 1 (le_refl 1)]
    exact Bool.false_ne_true
  rw [intersect_orbit_noncoplanar _ _ _ _ _ hpass hcop, if_pos]
  refine ⟨rfl, ?_, ?_⟩
  · simp [altitude_f1, circular_orbit, zero_zero]
  · simp [altitude_f2, circular_orbit]

lemma hyperbola_not_closed (t_p : ℝ) :
    ¬ (conic_orbit 3 2 false t_p 1 1 : kepler_elements ℝ).closed = true := by
  simp [conic_orbit]

/-- Two coplanar copies of the hyperbola `p = 3`, `e = 2` pass the apsis test
(neither is closed). -/
lemma hyperbola_self_pass (t_p threshold : ℝ) :
    ¬ (((conic_orbit 3 2 false 0 1 1 : kepler_elements ℝ).closed = true ∧
          (conic_orbit 3 2 false 0 1 1 : kepler_elements ℝ).apoapsis
            < (conic_orbit 3 2 false t_p 1 1 : kepler_elements ℝ).periapsis - threshold) ∨
        ((conic_orbit 3 2 false t_p 1 1 : kepler_elements ℝ).closed = true ∧
          (conic_orbit 3 2 false t_p 1 1 : kepler_elements ℝ).apoapsis
            < (conic_orbit 3 2 false 0 1 1 : kepler_elements ℝ).periapsis - threshold)) := by
  rintro (⟨h, _⟩ | ⟨h, _⟩)
  · exact hyperbola_not_closed 0 h
  · exact hyperbola_not_closed t_p h

lemma hyperbola_self_f2 (t_p threshold : ℝ) :
    altitude_f2 ⟨Real.pi, Real.arccos, Real.arcsin, Real.sin, Real.sqrt⟩
      (conic_orbit 3 2 false 0 1 1) (conic_orbit 3 2 false t_p 1 1) threshold
      = Real.arccos (1 / 2) := by
  simp [altitude_f2, conic_orbit]

lemma hyperbola_self_f1_large :
    altitude_f1 ⟨Real.pi, Real.arccos, Real.arcsin, Real.sin, Real.sqrt⟩
      (conic_orbit 3 2 false 0 1 1) (conic_orbit 3 2 false 5 1 1) (2 : ℝ) = Real.pi := by
  simp [altitude_f1, true_anomaly_from_radius, conic_orbit, clamp]
  norm_num

lemma hyperbola_self_f1_small :
    altitude_f1 ⟨Real.pi, Real.arccos, Real.arcsin, Real.sin, Real.sqrt⟩
      (conic_orbit 3 2 false 0 1 1) (conic_orbit 3 2 false 5 1 1) (1 / 2 : ℝ) = 0 := by
  simp [altitude_f1, true_anomaly_from_radius, conic_orbit, clamp]
  norm_num

lemma sin_five_lt : Real.sin 5 < -Real.sin (Real.pi / 4) := by
  have h1 : Real.sin 5 = -Real.sin (2 * Real.pi - 5) := by
    rw [← Real.sin_neg, neg_sub, Real.sin_sub_two_pi]
  have h2 : Real.sin (Real.pi / 4) < Real.sin (2 * Real.pi - 5) :=
    Real.sin_lt_sin_of_lt_of_le_pi_div_two (by linarith [Real.pi_pos])
      (by linarith [Real.pi_lt_d2]) (by linarith [Real.pi_gt_three])
  linarith

lemma arccos_half : Real.arccos (1 / 2) = Real.pi / 3 :=
  Real.arccos_eq_of_eq_cos (by positivity) (by linarith [Real.pi_pos])
    Real.cos_pi_div_three.symm

/-- Why the half-width has to be non-negative in C4: the ellipse `p = 3`,
`e = 1/2` (periapsis radius 2) against a hyperbola of periapsis radius `112/5` in
the perpendicular plane `y = 0`, at threshold 20.  Here
`sin(threshold / (2 r_p)) = sin 5 < 0`, the half-width is `-pi/2`, the nodes are
at `-pi` and `0`, and the apoapsis-only branch returns one interval whose upper
bound `fs[1] = -3 pi/2` is below `-pi`. -/
lemma negative_half_width_below_neg_pi :
    delta_fs ⟨Real.pi, Real.arccos, Real.arcsin, Real.sin, Real.sqrt⟩
      (conic_orbit 3 (1 / 2) false 0 1 1) (tilted_conic_orbit (336 / 5) 2 false 0 1 1)
      (20 : ℝ) 0 = -(Real.pi / 2) ∧
    (intersect_orbit ⟨Real.pi, Real.arccos, Real.arcsin, Real.sin, Real.sqrt⟩
      (conic_orbit 3 (1 / 2) false 0 1 1) (tilted_conic_orbit (336 / 5) 2 false 0 1 1)
      (20 : ℝ) (fun _ => 0)).1 = 1 ∧
    (intersect_orbit ⟨Real.pi, Real.arccos, Real.arcsin, Real.sin, Real.sqrt⟩
      (conic_orbit 3 (1 / 2) false 0 1 1) (tilted_conic_orbit (336 / 5) 2 false 0 1 1)
      (20 : ℝ) (fun _ => 0)).2 1 < -Real.pi := by
  have hpi := Real.pi_pos
  have hN : nodes_mag ⟨Real.pi, Real.arccos, Real.arcsin, Real.sin, Real.sqrt⟩
      (conic_orbit 3 (1 / 2) false 0 1 1 : kepler_elements ℝ)
      (tilted_conic_orbit (336 / 5) 2 false 0 1 1) = 1 := by
    simp [nodes_mag, mag, dot, nodes, cross, conic_orbit, tilted_conic_orbit, e_x, e_y, e_z]
  have hri : rel_incl ⟨Real.pi, Real.arccos, Real.arcsin, Real.sin, Real.sqrt⟩
      (conic_orbit 3 (1 / 2) false 0 1 1 : kepler_elements ℝ)
      (tilted_conic_orbit (336 / 5) 2 false 0 1 1) = Real.pi / 2 := by
    simp [rel_incl, sign, clamp, nodes_mag, mag, dot, nodes, cross, conic_orbit,
      tilted_conic_orbit, e_x, e_y, e_z]
    norm_num
  have hfan : f_an ⟨Real.pi, Real.arccos, Real.arcsin, Real.sin, Real.sqrt⟩
      (conic_orbit 3 (1 / 2) false 0 1 1 : kepler_elements ℝ)
      (tilted_conic_orbit (336 / 5) 2 false 0 1 1) = 0 := by
    simp [f_an, sign, clamp, nodes_mag, mag, dot, nodes, cross, conic_orbit,
      tilted_conic_orbit, e_x, e_y, e_z]
    norm_num
  have hn0 : f_nodes ⟨Real.pi, Real.arccos, Real.arcsin, Real.sin, Real.sqrt⟩
      (conic_orbit 3 (1 / 2) false 0 1 1 : kepler_elements ℝ)
      (tilted_conic_orbit (336 / 5) 2 false 0 1 1) 0 = -Real.pi := by
    unfold f_nodes f_dn
    rw [hfan]
    simp [sign, min, hpi.le]
  have hn1 : f_nodes ⟨Real.pi, Real.arccos, Real.arcsin, Real.sin, Real.sqrt⟩
      (conic_orbit 3 (1 / 2) false 0 1 1 : kepler_elements ℝ)
      (tilted_conic_orbit (336 / 5) 2 false 0 1 1) 1 = 0 := by
    unfold f_nodes f_dn
    rw [hfan]
    simp [sign, max, hpi]
  have hd : ∀ i, delta_fs ⟨Real.pi, Real.arccos, Real.arcsin, Real.sin, Real.sqrt⟩
      (conic_orbit 3 (1 / 2) false 0 1 1) (tilted_conic_orbit (336 / 5) 2 false 0 1 1)
      (20 : ℝ) i = -(Real.pi / 2) := by
    intro i
    have hper : (conic_orbit 3 (1 / 2) false 0 1 1 : kepler_elements ℝ).periapsis = 2 := by
      simp only [conic_orbit]
      norm_num
    have hs4 : 0 < Real.sin (Real.pi / 4) := by
      rw [Real.sin_pi_div_four]
      positivity
    unfold delta_fs
    dsimp only
    rw [hri, hper, abs_of_pos (by positivity), show (20 : ℝ) / (2 * 2) = 5 by norm_num,
      show Real.pi / 2 / 2 = Real.pi / 4 by ring,
      clamp_of_lt_neg_one _ (by rw [div_lt_iff₀ hs4]; linarith [sin_five_lt]),
      Real.arcsin_neg_one]
  have hf1 : altitude_f1 ⟨Real.pi, Real.arccos, Real.arcsin, Real.sin, Real.sqrt⟩
      (conic_orbit 3 (1 / 2) false 0 1 1 : kepler_elements ℝ)
      (tilted_conic_orbit (336 / 5) 2 false 0 1 1) 20 = Real.pi / 3 := by
    rw [← arccos_half]
    simp [altitude_f1, true_anomaly_from_radius, clamp, conic_orbit, tilted_conic_orbit]
    norm_num
  have hf2 : altitude_f2 ⟨Real.pi, Real.arccos, Real.arcsin, Real.sin, Real.sqrt⟩
      (conic_orbit 3 (1 / 2) false 0 1 1 : kepler_elements ℝ)
      (tilted_conic_orbit (336 / 5) 2 false 0 1 1) 20 = Real.pi := by
    simp [altitude_f2, true_anomaly_from_radius, clamp, conic_orbit, tilted_conic_orbit]
    norm_num
  have hz : ¬ zero (altitude_f1 ⟨Real.pi, Real.arccos, Real.arcsin, Real.sin, Real.sqrt⟩
      (conic_orbit 3 (1 / 2) false 0 1 1 : kepler_elements ℝ)
      (tilted_conic_orbit (336 / 5) 2 false 0 1 1) 20) = true := by
    rw [hf1, not_zero_of_one_le _ (by linarith [Real.pi_gt_three])]
    exact Bool.false_ne_true
  have hclosed : (conic_orbit 3 (1 / 2) false 0 1 1 : kepler_elements ℝ).closed = true := by
    simp [conic_orbit]
    norm_num
  have hpass : ¬ (((conic_orbit 3 (1 / 2) false 0 1 1 : kepler_elements ℝ).closed = true ∧
        (conic_orbit 3 (1 / 2) false 0 1 1 : kepler_elements ℝ).apoapsis
          < (tilted_conic_orbit (336 / 5) 2 false 0 1 1 : kepler_elements ℝ).periapsis - 20) ∨
      ((tilted_conic_orbit (336 / 5) 2 false 0 1 1 : kepler_elements ℝ).closed = true ∧
        (tilted_conic_orbit (336 / 5) 2 false 0 1 1 : kepler_elements ℝ).apoapsis
          < (conic_orbit 3 (1 / 2) false 0 1 1 : kepler_elements ℝ).periapsis - 20)) := by
    simp only [conic_orbit, tilted_conic_orbit]
    norm_num
  have hcop : ¬ coplanar ⟨Real.pi, Real.arccos, Real.arcsin, Real.sin, Real.sqrt⟩
      (conic_orbit 3 (1 / 2) false 0 1 1 : kepler_elements ℝ)
      (tilted_conic_orbit (336 / 5) 2 false 0 1 1) = true := by
    unfold coplanar
    rw [hN, not_zero_of_one_le 1 (le_refl 1)]
    exact Bool.false_ne_true
  have hA : -Real.pi - -(Real.pi / 2) < -(Real.pi / 3) := by linarith
  have hA2 : ¬ (-Real.pi - -(Real.pi / 2) < -Real.pi) := by linarith
  have hB : ¬ ((0 : ℝ) + -(Real.pi / 2) > Real.pi / 3) := by
    rw [gt_iff_lt, not_lt]
    linarith
  have hmin : min (-Real.pi + -(Real.pi / 2)) (-(Real.pi / 3)) = -Real.pi + -(Real.pi / 2) := by
    unfold min
    rw [if_pos (by linarith)]
  have hres : intersect_orbit ⟨Real.pi, Real.arccos, Real.arcsin, Real.sin, Real.sqrt⟩
      (conic_orbit 3 (1 / 2) false 0 1 1) (tilted_conic_orbit (336 / 5) 2 false 0 1 1)
      (20 : ℝ) (fun _ => 0) =
      (1, Function.update (Function.update (fun _ => 0) 0 (-Real.pi - -(Real.pi / 2)))
        1 (-Real.pi + -(Real.pi / 2))) := by
    rw [intersect_orbit_noncoplanar _ _ _ _ _ hpass hcop, if_neg (fun h => hz h.2.1),
      if_neg hz, if_pos ⟨hclosed, by rw [hf2]; exact lt_irrefl _⟩, hf1]
    unfold intersect_apoapsis
    dsimp only
    rw [hn0, hn1, hd 0, hd 1, if_pos hA, if_neg hB, if_neg hA2, hmin]
  refine ⟨hd 0, ?_, ?_⟩
  · rw [hres]
  · rw [hres]
    simp only [Function.update_same]
    linarith

end real_examples

section crossing_circles

/-- Inside `[-M_PI, M_PI)` the normalisation `angle_clamp` changes nothing. -/
lemma angle_clamp_id {α : Type} [LinearOrderedField α] [FloorRing α] (M : Libm α)
    (hpi : 0 < M.M_PI) (x : α) (h1 : -M.M_PI ≤ x) (h2 : x < M.M_PI) :
    angle_clamp M x = x := by
  have h2pi : 0 < 2 * M.M_PI := by linarith
  have hfl : ⌊(x + M.M_PI) / (2 * M.M_PI)⌋ = 0 := by
    rw [Int.floor_eq_zero_iff]
    constructor
    · exact div_nonneg (by linarith) h2pi.le
    · rw [div_lt_one h2pi]
      linarith
  unfold angle_clamp
  dsimp only
  rw [hfl]
  field_simp

/-- A circular closed subject whose nodes are a quarter turn either side of its
periapsis direction (`f_an = -pi/2`), against a non-coplanar reference that
passes the apsis test: the whole-orbit branch returns the two node windows
`[-pi/2 - delta, -pi/2 + delta]` and `[pi/2 - delta, pi/2 + delta]` when the
half-width `delta` is in `(0, pi/2)`. -/
lemma quarter_nodes_windows (orbit1 orbit2 : kepler_elements ℝ) (threshold : ℝ) (fs : ℕ → ℝ)
    (hpass : ¬ ((orbit1.closed = true ∧ orbit1.apoapsis < orbit2.periapsis - threshold) ∨
      (orbit2.closed = true ∧ orbit2.apoapsis < orbit1.periapsis - threshold)))
    (hN : nodes_mag ⟨Real.pi, Real.arccos, Real.arcsin, Real.sin, Real.sqrt⟩ orbit1 orbit2 = 1)
    (hcirc : orbit1.circular = true) (hclosed : orbit1.closed = true)
    (hhyp : orbit1.hyperbolic = false)
    (hfan : f_an ⟨Real.pi, Real.arccos, Real.arcsin, Real.sin, Real.sqrt⟩ orbit1 orbit2
      = -(Real.pi / 2))
    (hd0 : 0 < delta_fs ⟨Real.pi, Real.arccos, Real.arcsin, Real.sin, Real.sqrt⟩
      orbit1 orbit2 threshold 0)
    (hd1 : delta_fs ⟨Real.pi, Real.arccos, Real.arcsin, Real.sin, Real.sqrt⟩
      orbit1 orbit2 threshold 0 < Real.pi / 2) :
    intersect_orbit ⟨Real.pi, Real.arccos, Real.arcsin, Real.sin, Real.sqrt⟩
      orbit1 orbit2 threshold fs =
      (2, Function.update (Function.update (Function.update (Function.update fs
        0 (-(Real.pi / 2) - delta_fs ⟨Real.pi, Real.arccos, Real.arcsin, Real.sin, Real.sqrt⟩
          orbit1 orbit2 threshold 0))
        1 (-(Real.pi / 2) + delta_fs ⟨Real.pi, Real.arccos, Real.arcsin, Real.sin, Real.sqrt⟩
          orbit1 orbit2 threshold 0))
        2 (Real.pi / 2 - delta_fs ⟨Real.pi, Real.arccos, Real.arcsin, Real.sin, Real.sqrt⟩
          orbit1 orbit2 threshold 0))
        3 (Real.pi / 2 + delta_fs ⟨Real.pi, Real.arccos, Real.arcsin, Real.sin, Real.sqrt⟩
          orbit1 orbit2 threshold 0)) := by
  have hpi := Real.pi_pos
  have hcop : ¬ coplanar ⟨Real.pi, Real.arccos, Real.arcsin, Real.sin, Real.sqrt⟩
      orbit1 orbit2 = true := by
    unfold coplanar
    rw [hN, not_zero_of_one_le 1 (le_refl 1)]
    exact Bool.false_ne_true
  have hf1 : altitude_f1 ⟨Real.pi, Real.arccos, Real.arcsin, Real.sin, Real.sqrt⟩
      orbit1 orbit2 threshold = 0 := by
    simp [altitude_f1, hcirc]
  have hf2 : altitude_f2 ⟨Real.pi, Real.arccos, Real.arcsin, Real.sin, Real.sqrt⟩
      orbit1 orbit2 threshold = Real.pi := by
    simp [altitude_f2, hcirc, hhyp]
  have hn0 : f_nodes ⟨Real.pi, Real.arccos, Real.arcsin, Real.sin, Real.sqrt⟩
      orbit1 orbit2 0 = -(Real.pi / 2) := by
    unfold f_nodes f_dn
    rw [hfan]
    have : sign (-(Real.pi / 2)) = -1 := by
      unfold sign
      rw [if_pos (by linarith)]
    rw [this, if_pos rfl]
    unfold min
    rw [if_pos (by linarith)]
  have hn1 : f_nodes ⟨Real.pi, Real.arccos, Real.arcsin, Real.sin, Real.sqrt⟩
      orbit1 orbit2 1 = Real.pi / 2 := by
    unfold f_nodes f_dn
    rw [hfan]
    have : sign (-(Real.pi / 2)) = -1 := by
      unfold sign
      rw [if_pos (by linarith)]
    rw [this, if_neg (by norm_num)]
    unfold max
    rw [if_neg (by rw [gt_iff_lt, not_lt]; linarith)]
    ring
  have hd : delta_fs ⟨Real.pi, Real.arccos, Real.arcsin, Real.sin, Real.sqrt⟩
      orbit1 orbit2 threshold 1 =
      delta_fs ⟨Real.pi, Real.arccos, Real.arcsin, Real.sin, Real.sqrt⟩
        orbit1 orbit2 threshold 0 := rfl
  rw [intersect_orbit_noncoplanar _ _ _ _ _ hpass hcop,
    if_pos ⟨hclosed, by rw [hf1]; exact zero_zero, by rw [hf2]; exact lt_irrefl _⟩,
    hn0, hn1, hd]
  have hM : (⟨Real.pi, Real.arccos, Real.arcsin, Real.sin, Real.sqrt⟩ : Libm ℝ).M_PI
      = Real.pi := rfl
  rw [angle_clamp_id _ hpi _ (by rw [hM]; linarith) (by rw [hM]; linarith),
    angle_clamp_id _ hpi _ (by rw [hM]; linarith) (by rw [hM]; linarith),
    angle_clamp_id _ hpi _ (by rw [hM]; linarith) (by rw [hM]; linarith),
    angle_clamp_id _ hpi _ (by rw [hM]; linarith) (by rw [hM]; linarith)]

/-- The half-width of the node windows of two perpendicular circular orbits of
radius 100 at the default threshold `100/1000`. -/
lemma crossing_delta_bounds :
    0 < Real.arcsin (clamp (-1) 1 (Real.sin (1 / 2000) / Real.sin (Real.pi / 4))) ∧
    Real.arcsin (clamp (-1) 1 (Real.sin (1 / 2000) / Real.sin (Real.pi / 4))) < 1 / 4 := by
  have hs4 : (1 : ℝ) / 2 ≤ Real.sin (Real.pi / 4) := by
    rw [Real.sin_pi_div_four]
    have h2 : (1 : ℝ) ≤ Real.sqrt 2 := by
      rw [Real.one_le_sqrt]
      norm_num
    linarith
  have hs4pos : 0 < Real.sin (Real.pi / 4) := by linarith
  have hs0 : 0 < Real.sin (1 / 2000) :=
    Real.sin_pos_of_pos_of_lt_pi (by norm_num) (by linarith [Real.pi_gt_three])
  have hs1 : Real.sin (1 / 2000) < 1 / 2000 := Real.sin_lt (by norm_num)
  have hq0 : 0 < Real.sin (1 / 2000) / Real.sin (Real.pi / 4) := div_pos hs0 hs4pos
  have hq1 : Real.sin (1 / 2000) / Real.sin (Real.pi / 4) < 1 / 1000 := by
    rw [div_lt_iff₀ hs4pos]
    nlinarith
  have hc : clamp (-1) 1 (Real.sin (1 / 2000) / Real.sin (Real.pi / 4))
      = Real.sin (1 / 2000) / Real.sin (Real.pi / 4) := by
    unfold clamp
    rw [if_neg (by linarith), if_neg (by rw [gt_iff_lt, not_lt]; linarith)]
  rw [hc]
  constructor
  · exact Real.arcsin_pos.mpr hq0
  · have hsin : (1 : ℝ) / 1000 < Real.sin (1 / 4) := by
      have := Real.sin_gt_sub_cube (x := 1 / 4) (by norm_num) (by norm_num)
      norm_num at this
      linarith
    rw [Real.arcsin_lt_iff_lt_sin ⟨by linarith, by linarith⟩
      ⟨by linarith [Real.pi_gt_three], by linarith [Real.pi_gt_three]⟩]
    linarith

lemma circle_polar_nodes_mag (t T n t' T' n' : ℝ) :
    nodes_mag ⟨Real.pi, Real.arccos, Real.arcsin, Real.sin, Real.sqrt⟩
      (circular_orbit 100 t T n) (polar_circular_orbit 100 t' T' n') = 1 := by
  simp [nodes_mag, mag, nodes, dot, cross, circular_orbit, polar_circular_orbit, e_x, e_z]

lemma polar_circle_nodes_mag (t T n t' T' n' : ℝ) :
    nodes_mag ⟨Real.pi, Real.arccos, Real.arcsin, Real.sin, Real.sqrt⟩
      (polar_circular_orbit 100 t' T' n') (circular_orbit 100 t T n) = 1 := by
  simp [nodes_mag, mag, nodes, dot, cross, circular_orbit, polar_circular_orbit, e_x, e_z]

lemma circle_polar_f_an (t T n t' T' n' : ℝ) :
    f_an ⟨Real.pi, Real.arccos, Real.arcsin, Real.sin, Real.sqrt⟩
      (circular_orbit 100 t T n) (polar_circular_orbit 100 t' T' n') = -(Real.pi / 2) := by
  simp [f_an, sign, clamp, nodes_mag, mag, nodes, dot, cross, circular_orbit,
    polar_circular_orbit, e_x, e_y, e_z]
  norm_num

lemma polar_circle_f_an (t T n t' T' n' : ℝ) :
    f_an ⟨Real.pi, Real.arccos, Real.arcsin, Real.sin, Real.sqrt⟩
      (polar_circular_orbit 100 t' T' n') (circular_orbit 100 t T n) = -(Real.pi / 2) := by
  simp [f_an, sign, clamp, nodes_mag, mag, nodes, dot, cross, circular_orbit,
    polar_circular_orbit, e_x, e_y, e_z]
  norm_num

lemma circle_polar_delta (t T n t' T' n' : ℝ) (i : ℕ) :
    delta_fs ⟨Real.pi, Real.arccos, Real.arcsin, Real.sin, Real.sqrt⟩
      (circular_orbit 100 t T n) (polar_circular_orbit 100 t' T' n') (1 / 10) i =
      Real.arcsin (clamp (-1) 1 (Real.sin (1 / 2000) / Real.sin (Real.pi / 4))) := by
  have hri : rel_incl ⟨Real.pi, Real.arccos, Real.arcsin, Real.sin, Real.sqrt⟩
      (circular_orbit 100 t T n) (polar_circular_orbit 100 t' T' n') = Real.pi / 2 := by
    unfold rel_incl
    rw [circle_polar_nodes_mag]
    simp [sign, clamp, dot, circular_orbit, polar_circular_orbit, e_x, e_z]
    norm_num
  unfold delta_fs
  dsimp only
  rw [hri, abs_of_pos (by positivity)]
  simp only [circular_orbit]
  rw [show (1 / 10 : ℝ) / (2 * 100) = 1 / 2000 by norm_num,
    show Real.pi / 2 / 2 = Real.pi / 4 by ring]

lemma polar_circle_delta (t T n t' T' n' : ℝ) (i : ℕ) :
    delta_fs ⟨Real.pi, Real.arccos, Real.arcsin, Real.sin, Real.sqrt⟩
      (polar_circular_orbit 100 t' T' n') (circular_orbit 100 t T n) (1 / 10) i =
      Real.arcsin (clamp (-1) 1 (Real.sin (1 / 2000) / Real.sin (Real.pi / 4))) := by
  have hri : rel_incl ⟨Real.pi, Real.arccos, Real.arcsin, Real.sin, Real.sqrt⟩
      (polar_circular_orbit 100 t' T' n') (circular_orbit 100 t T n) = Real.pi / 2 := by
    unfold rel_incl
    rw [polar_circle_nodes_mag]
    simp [sign, clamp, dot, circular_orbit, polar_circular_orbit, e_x, e_z]
    norm_num
  unfold delta_fs
  dsimp only
  rw [hri, abs_of_pos (by positivity)]
  simp only [polar_circular_orbit]
  rw [show (1 / 10 : ℝ) / (2 * 100) = 1 / 2000 by norm_num,
    show Real.pi / 2 / 2 = Real.pi / 4 by ring]

/-- Conversion of two intervals to times on an orbit with periapsis epoch 0 and
mean motion 1, with the identity as anomaly conversion (mean and true anomaly
agree on a circular orbit): the table repeats the angles when the second
interval is not inverted. -/
lemma window_times_unit (orbit : kepler_elements ℝ) (fs times : ℕ → ℝ)
    (htp : orbit.periapsis_time = 0) (hn : orbit.mean_motion = 1) (h23 : fs 2 ≤ fs 3)
    (i : ℕ) (hi : i < 4) :
    window_times (fun _ f => f) orbit 2 fs times i = fs i := by
  unfold window_times
  dsimp only
  rw [if_neg (by
    rintro ⟨-, h⟩
    rw [if_pos (by norm_num), if_pos (by norm_num), htp, hn] at h
    simp at h
    linarith)]
  rw [if_pos (by omega), htp, hn]
  simp

lemma crossing_threshold (t T n t' T' n' : ℝ) :
    intercept_threshold (circular_orbit 100 t T n) (polar_circular_orbit 100 t' T' n')
      = (1 / 10 : ℝ) := by
  simp only [intercept_threshold, min, circular_orbit, polar_circular_orbit]
  norm_num

/-- Either circle of the crossing pair as subject: two node windows of
half-width `arcsin(clamp(sin(1/2000) / sin(pi/4)))` around `-pi/2` and `pi/2`. -/
lemma crossing_intersect_circle (t T n t' T' n' : ℝ) (fs : ℕ → ℝ) :
    intersect_orbit ⟨Real.pi, Real.arccos, Real.arcsin, Real.sin, Real.sqrt⟩
      (circular_orbit 100 t T n) (polar_circular_orbit 100 t' T' n') (1 / 10) fs =
      (2, Function.update (Function.update (Function.update (Function.update fs
        0 (-(Real.pi / 2) -
          Real.arcsin (clamp (-1) 1 (Real.sin (1 / 2000) / Real.sin (Real.pi / 4)))))
        1 (-(Real.pi / 2) +
          Real.arcsin (clamp (-1) 1 (Real.sin (1 / 2000) / Real.sin (Real.pi / 4)))))
        2 (Real.pi / 2 -
          Real.arcsin (clamp (-1) 1 (Real.sin (1 / 2000) / Real.sin (Real.pi / 4)))))
        3 (Real.pi / 2 +
          Real.arcsin (clamp (-1) 1 (Real.sin (1 / 2000) / Real.sin (Real.pi / 4))))) := by
  have hb := crossing_delta_bounds
  rw [quarter_nodes_windows _ _ _ fs
    (by simp only [circular_orbit, polar_circular_orbit]; norm_num)
    (circle_polar_nodes_mag _ _ _ _ _ _) rfl rfl rfl (circle_polar_f_an _ _ _ _ _ _)
    (by rw [circle_polar_delta]; exact hb.1)
    (by rw [circle_polar_delta]; linarith [hb.2, Real.pi_gt_three]),
    circle_polar_delta]

lemma crossing_intersect_polar (t T n t' T' n' : ℝ) (fs : ℕ → ℝ) :
    intersect_orbit ⟨Real.pi, Real.arccos, Real.arcsin, Real.sin, Real.sqrt⟩
      (polar_circular_orbit 100 t' T' n') (circular_orbit 100 t T n) (1 / 10) fs =
      (2, Function.update (Function.update (Function.update (Function.update fs
        0 (-(Real.pi / 2) -
          Real.arcsin (clamp (-1) 1 (Real.sin (1 / 2000) / Real.sin (Real.pi / 4)))))
        1 (-(Real.pi / 2) +
          Real.arcsin (clamp (-1) 1 (Real.sin (1 / 2000) / Real.sin (Real.pi / 4)))))
        2 (Real.pi / 2 -
          Real.arcsin (clamp (-1) 1 (Real.sin (1 / 2000) / Real.sin (Real.pi / 4)))))
        3 (Real.pi / 2 +
          Real.arcsin (clamp (-1) 1 (Real.sin (1 / 2000) / Real.sin (Real.pi / 4))))) := by
  have hb := crossing_delta_bounds
  rw [quarter_nodes_windows _ _ _ fs
    (by simp only [circular_orbit, polar_circular_orbit]; norm_num)
    (polar_circle_nodes_mag _ _ _ _ _ _) rfl rfl rfl (polar_circle_f_an _ _ _ _ _ _)
    (by rw [polar_circle_delta]; exact hb.1)
    (by rw [polar_circle_delta]; linarith [hb.2, Real.pi_gt_three]),
    polar_circle_delta]

end crossing_circles

section scan_bounds

variable {α : Type} [LinearOrderedField α]

/-- The part of C10 that holds: `t_end` never exceeds `t1`. -/
lemma t_end_le_t1 (orbits : ℕ → kepler_elements α) (times : ℕ → ℕ → α) (t1 : α)
    (s : scan_state α) : t_end orbits times t1 s ≤ t1 := by
  unfold t_end
  exact min_le_left_c _ _

/-- The lower bound that the code does enforce on a counted window: the scan
time `t` of the iteration, not `t0`. -/
lemma scan_time_le_t_begin (orbits : ℕ → kepler_elements α) (times : ℕ → ℕ → α)
    (s : scan_state α) : s.t ≤ t_begin orbits times s := by
  unfold t_begin
  exact le_max_left_c _ _

/-- After any iteration the scan time is at most `t1`. -/
lemma scan_step_t_le (orbits : ℕ → kepler_elements α) (intersects : ℕ → ℕ)
    (times : ℕ → ℕ → α) (t1 : α) (s : scan_state α) :
    (scan_step orbits intersects times t1 s).1.t ≤ t1 := by
  have h := t_end_le_t1 orbits times t1 s
  unfold scan_step
  dsimp only
  by_cases hc : Function.update s.isect
      (if trange orbits times s 0 1 < trange orbits times s 1 1 then 0 else 1)
      (s.isect (if trange orbits times s 0 1 < trange orbits times s 1 1 then 0 else 1) + 1)
      (if trange orbits times s 0 1 < trange orbits times s 1 1 then 0 else 1) =
      intersects (if trange orbits times s 0 1 < trange orbits times s 1 1 then 0 else 1)
  · rw [if_pos hc]
    by_cases hb : (!(orbits
        (if trange orbits times s 0 1 < trange orbits times s 1 1 then 0 else 1)).closed) = true
    · rw [if_pos hb]
      exact h
    · rw [if_neg hb]
      exact h
  · rw [if_neg hc]
    exact h

end scan_bounds

section scan_generic

variable {α : Type} [LinearOrderedField α]

/-- First iteration on `node_windows`: both first windows end before `t0`;
the scan time is set back to `-h + d` and orbit 1 advances. -/
lemma node_scan_step1 (orbs : ℕ → kepler_elements α) (times : ℕ → ℕ → α) (h d t0 t1 : α)
    (n0 : ℕ → ℤ) (hw : node_windows orbs times h d) (hn0 : n0 0 = 0) (hn1 : n0 1 = 0)
    (hd0 : 0 < d) (hdh : d < h) (ht0 : h + d < t0) (ht01 : t0 < t1) :
    scan_step orbs (fun _ => 2) times t1 ⟨t0, n0, fun _ => 0, 0⟩ =
      (⟨-h + d, n0, Function.update (fun _ => 0) 1 1, 0⟩, false) := by
  obtain ⟨hc0, hT0, h00, h01, -, -⟩ := hw 0 (by norm_num)
  obtain ⟨hc1, hT1, h10, h11, -, -⟩ := hw 1 (by norm_num)
  have c1 : ¬ (-h - d > -h + d) := by rw [gt_iff_lt, not_lt]; linarith
  have c2 : t0 > -h - d := by linarith
  have c3 : ¬ (t1 < -h + d) := by rw [not_lt]; linarith
  have c4 : ¬ (t0 < -h + d) := by rw [not_lt]; linarith
  simp only [scan_step, t_begin, t_end, trange, min, max, hc0, hc1, hT0, hT1, hn0, hn1,
    h00, h01, h10, h11, Bool.not_true, Bool.false_eq_true, if_false, if_true, Int.cast_zero,
    zero_mul, add_zero, mul_zero, c1, lt_irrefl, c2, c3, c4, zero_add, Function.update_same,
    one_ne_zero, int_add_zero_one]
  rw [if_neg (by norm_num)]

/-- Second iteration: orbit 0 is still on its first window, orbit 1 on its
second; nothing is counted and orbit 0 advances. -/
lemma node_scan_step2 (orbs : ℕ → kepler_elements α) (times : ℕ → ℕ → α) (h d t1 : α)
    (n0 : ℕ → ℤ) (hw : node_windows orbs times h d) (hn0 : n0 0 = 0) (hn1 : n0 1 = 0)
    (hd0 : 0 < d) (hdh : d < h) (ht1 : h + d < t1) :
    scan_step orbs (fun _ => 2) times t1 ⟨-h + d, n0, Function.update (fun _ => 0) 1 1, 0⟩ =
      (⟨-h + d, n0, Function.update (Function.update (fun _ => 0) 1 1) 0 1, 0⟩, false) := by
  obtain ⟨hc0, hT0, h00, h01, -, -⟩ := hw 0 (by norm_num)
  obtain ⟨hc1, hT1, -, -, h12, h13⟩ := hw 1 (by norm_num)
  have c1 : -h + d < h + d := by linarith
  have c2 : ¬ (h + d < h - d) := by rw [not_lt]; linarith
  have c3 : ¬ (-h - d > -h + d) := by rw [gt_iff_lt, not_lt]; linarith
  have c4 : ¬ (h + t1 < d) := by rw [not_lt]; linarith
  have c5 : ¬ (h < 0) := by rw [not_lt]; linarith
  have c6 : ¬ (h + (h - d) < d) := by rw [not_lt]; linarith
  simp [scan_step, t_begin, t_end, trange, min, max, int_add_zero_one, int_add_one_one,
    hc0, hc1, hT0, hT1, hn0, hn1,
    h00, h01, h12, h13, Function.update_apply, c1, c2, c3, c4, c5, c6]

/-- Third iteration: both orbits are on the window `[h - d, h + d]`, which is
counted although it ends before `t0`; orbit 1 moves to its next period. -/
lemma node_scan_step3 (orbs : ℕ → kepler_elements α) (times : ℕ → ℕ → α) (h d t1 : α)
    (n0 : ℕ → ℤ) (hw : node_windows orbs times h d) (hn0 : n0 0 = 0) (hn1 : n0 1 = 0)
    (hd0 : 0 < d) (hdh : d < h) (ht1 : h + d < t1) :
    scan_step orbs (fun _ => 2) times t1
        ⟨-h + d, n0, Function.update (Function.update (fun _ => 0) 1 1) 0 1, 0⟩ =
      (⟨h + d, Function.update n0 1 1,
        Function.update (Function.update (Function.update (Function.update (fun _ => 0) 1 1)
          0 1) 1 2) 1 0, 1⟩, false) := by
  obtain ⟨hc0, hT0, -, -, h02, h03⟩ := hw 0 (by norm_num)
  obtain ⟨hc1, hT1, -, -, h12, h13⟩ := hw 1 (by norm_num)
  have c1 : ¬ (t1 < h + d) := by rw [not_lt]; linarith
  have c2 : ¬ (h + d < h - d) := by rw [not_lt]; linarith
  have c3 : ¬ (h + (h - d) < d) := by rw [not_lt]; linarith
  simp [scan_step, t_begin, t_end, trange, min, max, int_add_zero_one, int_add_one_one,
    hc0, hc1, hT0, hT1, hn0, hn1,
    h02, h03, h12, h13, Function.update_apply, c1, c2, c3]
  linarith

/-- Fourth iteration: orbit 0 is still on `[h - d, h + d]`, orbit 1 on
`[3 h - d, 3 h + d]`; nothing is counted and orbit 0 moves to its next period. -/
lemma node_scan_step4 (orbs : ℕ → kepler_elements α) (times : ℕ → ℕ → α) (h d t1 : α)
    (n0 : ℕ → ℤ) (hw : node_windows orbs times h d) (hn0 : n0 0 = 0)
    (hd0 : 0 < d) (hdh : d < h) (ht1 : h + d < t1) :
    scan_step orbs (fun _ => 2) times t1
        ⟨h + d, Function.update n0 1 1,
          Function.update (Function.update (Function.update (Function.update (fun _ => 0) 1 1)
            0 1) 1 2) 1 0, 1⟩ =
      (⟨h + d, Function.update (Function.update n0 1 1) 0 1,
        Function.update (Function.update (Function.update (Function.update (Function.update
          (Function.update (fun _ => 0) 1 1) 0 1) 1 2) 1 0) 0 2) 0 0, 1⟩, false) := by
  obtain ⟨hc0, hT0, -, -, h02, h03⟩ := hw 0 (by norm_num)
  obtain ⟨hc1, hT1, h10, h11, -, -⟩ := hw 1 (by norm_num)
  have c1 : h + d < -h + d + 4 * h := by linarith
  have c2 : ¬ (-h + d + 4 * h ≤ h + d) := by rw [not_le]; linarith
  have c3 : ¬ (d < h + (-h - d)) := by rw [not_lt]; linarith
  have c4 : ¬ (h + d < h - d) := by rw [not_lt]; linarith
  have c5 : ¬ (-h - d + 4 * h < h - d) := by rw [not_lt]; linarith
  have c6 : ¬ (-h - d + 4 * h < h + d) := by rw [not_lt]; linarith
  have c7 : ¬ (t1 < h + d) := by rw [not_lt]; linarith
  simp [scan_step, t_begin, t_end, trange, min, max, int_add_zero_one, int_add_one_one,
    hc0, hc1, hT0, hT1, hn0,
    h02, h03, h10, h11, Function.update_apply, c1, c2, c3, c4, c5, c6, c7]

/-- Fifth iteration: both orbits are on `[3 h - d, 3 h + d]`, beyond `t1`;
nothing is counted and the scan time reaches `t1`. -/
lemma node_scan_step5 (orbs : ℕ → kepler_elements α) (times : ℕ → ℕ → α) (h d t1 : α)
    (n0 : ℕ → ℤ) (hw : node_windows orbs times h d)
    (hd0 : 0 < d) (hdh : d < h) (ht1u : t1 ≤ 3 * h - d) :
    (scan_step orbs (fun _ => 2) times t1
        ⟨h + d, Function.update (Function.update n0 1 1) 0 1,
          Function.update (Function.update (Function.update (Function.update (Function.update
            (Function.update (fun _ => 0) 1 1) 0 1) 1 2) 1 0) 0 2) 0 0, 1⟩).1.t = t1 ∧
    (scan_step orbs (fun _ => 2) times t1
        ⟨h + d, Function.update (Function.update n0 1 1) 0 1,
          Function.update (Function.update (Function.update (Function.update (Function.update
            (Function.update (fun _ => 0) 1 1) 0 1) 1 2) 1 0) 0 2) 0 0, 1⟩).1.num_intercepts
      = 1 := by
  obtain ⟨hc0, hT0, h00, h01, -, -⟩ := hw 0 (by norm_num)
  obtain ⟨hc1, hT1, h10, h11, -, -⟩ := hw 1 (by norm_num)
  have c1 : t1 < -h + d + 4 * h := by linarith
  have c2 : ¬ (-h + d + 4 * h ≤ t1) := by rw [not_le]; linarith
  have c3 : ¬ (d < h + (-h - d)) := by rw [not_lt]; linarith
  have c6 : ¬ (-h - d + 4 * h < h + d) := by rw [not_lt]; linarith
  simp [scan_step, t_begin, t_end, trange, min, max, int_add_zero_one, int_add_one_one,
    hc0, hc1, hT0, hT1,
    h00, h01, h10, h11, Function.update_apply, c1, c2, c3, c6]
  linarith

/-- On `node_windows` no window of an orbit, in any period, meets `[t0, t1)`
when `h + d < t0` and `t1 ≤ 3 h - d`. -/
lemma node_windows_miss (orbs : ℕ → kepler_elements α) (times : ℕ → ℕ → α) (h d t0 t1 : α)
    (hw : node_windows orbs times h d)
    (hd0 : 0 < d) (hdh : d < h) (ht0 : h + d < t0) (ht1 : t1 ≤ 3 * h - d)
    (s : scan_state α) (o : ℕ) (ho : o < 2) (hi : s.isect o < 2) :
    trange orbs times s o 1 < t0 ∨ t1 ≤ trange orbs times s o 0 := by
  obtain ⟨hc, hT, h0, h1, h2, h3⟩ := hw o ho
  have hh : 0 < h := by linarith
  have c1 : ¬ (-h - d > -h + d) := by rw [gt_iff_lt, not_lt]; linarith
  have c2 : ¬ (h - d > h + d) := by rw [gt_iff_lt, not_lt]; linarith
  have hi2 : s.isect o = 0 ∨ s.isect o = 1 := by omega
  rcases le_or_lt (s.n_orbit o) 0 with hn | hn
  · left
    have hnc : ((s.n_orbit o : ℤ) : α) ≤ 0 := by exact_mod_cast hn
    have hm : ((s.n_orbit o : ℤ) : α) * (4 * h) ≤ 0 :=
      mul_nonpos_of_nonpos_of_nonneg hnc (by linarith)
    rcases hi2 with hi0 | hi1
    · simp only [trange, hc, hT, hi0, h1, Bool.not_true, Bool.false_eq_true, if_false,
        one_ne_zero, mul_zero, zero_add]
      linarith
    · simp only [trange, hc, hT, hi1, h3, Bool.not_true, Bool.false_eq_true, if_false,
        one_ne_zero, mul_one]
      linarith
  · right
    have hnc : (1 : α) ≤ ((s.n_orbit o : ℤ) : α) := by exact_mod_cast hn
    have hm : 4 * h ≤ ((s.n_orbit o : ℤ) : α) * (4 * h) := by nlinarith
    rcases hi2 with hi0 | hi1
    · simp only [trange, hc, hT, hi0, h0, h1, c1, Bool.not_true, Bool.false_eq_true, if_false,
        if_true, mul_zero, zero_add]
      linarith
    · simp only [trange, hc, hT, hi1, h2, h3, c2, Bool.not_true, Bool.false_eq_true, if_false,
        if_true, mul_one]
      linarith

variable [FloorRing α]

/-- The scan on `node_windows`, started at `t0` with `h + d < t0 < t1 ≤ 3 h - d`
and both period counters at 0: after five iterations the loop is left with
`num_intercepts = 1`, the window `[h - d, h + d]` counted at the third
iteration. -/
lemma node_scan_counts (orbs : ℕ → kepler_elements α) (times : ℕ → ℕ → α) (h d t0 t1 : α)
    (hw : node_windows orbs times h d)
    (hn0 : initial_n_orbit (orbs 0) t0 = 0) (hn1 : initial_n_orbit (orbs 1) t0 = 0)
    (hd0 : 0 < d) (hdh : d < h) (ht0 : h + d < t0) (ht01 : t0 < t1) (ht1 : t1 ≤ 3 * h - d) :
    (scan_loop orbs (fun _ => 2) times t1 5 (scan_init orbs t0)).map
      (fun s => decide (s.num_intercepts ≠ 0)) = some true := by
  have e0 : (fun o => if o < 2 then initial_n_orbit (orbs o) t0 else 0) 0 = 0 := by
    simp [hn0]
  have e1 : (fun o => if o < 2 then initial_n_orbit (orbs o) t0 else 0) 1 = 0 := by
    simp [hn1]
  have ht1' : h + d < t1 := by linarith
  have hs5 := node_scan_step5 orbs times h d t1
    (fun o => if o < 2 then initial_n_orbit (orbs o) t0 else 0) hw hd0 hdh ht1
  unfold scan_init
  rw [scan_loop, if_pos (by exact ht01),
    node_scan_step1 orbs times h d t0 t1 _ hw e0 e1 hd0 hdh ht0 ht01]
  dsimp only
  rw [if_neg Bool.false_ne_true, scan_loop, if_pos (by show -h + d < t1; linarith),
    node_scan_step2 orbs times h d t1 _ hw e0 e1 hd0 hdh ht1']
  dsimp only
  rw [if_neg Bool.false_ne_true, scan_loop, if_pos (by show -h + d < t1; linarith),
    node_scan_step3 orbs times h d t1 _ hw e0 e1 hd0 hdh ht1']
  dsimp only
  rw [if_neg Bool.false_ne_true, scan_loop, if_pos (by show h + d < t1; exact ht1'),
    node_scan_step4 orbs times h d t1 _ hw e0 hd0 hdh ht1']
  dsimp only
  rw [if_neg Bool.false_ne_true, scan_loop, if_pos (by show h + d < t1; exact ht1')]
  dsimp only
  split_ifs with hb
  · rw [Option.map_some', hs5.2]
    rfl
  · rw [scan_loop, if_neg (by rw [hs5.1]; exact lt_irrefl _), Option.map_some', hs5.2]
    rfl

end scan_generic

section crossing_scan

lemma crossing_intersects (fs : ℕ → ℕ → ℝ) :
    intercept_intersects ⟨Real.pi, Real.arccos, Real.arcsin, Real.sin, Real.sqrt⟩
      (circular_orbit 100 0 (2 * Real.pi) 1) (polar_circular_orbit 100 0 (2 * Real.pi) 1) fs
      = fun _ => 2 := by
  funext o
  unfold intercept_intersects
  rw [crossing_threshold, crossing_intersect_circle, crossing_intersect_polar]
  split_ifs <;> rfl

/-- The converted tables of the crossing circles are `node_windows` with
`h = pi/2` and the half-width of `crossing_delta_bounds`. -/
lemma crossing_node_windows (fs times : ℕ → ℕ → ℝ) :
    node_windows
      (orbits (circular_orbit 100 0 (2 * Real.pi) 1) (polar_circular_orbit 100 0 (2 * Real.pi) 1))
      (intercept_times ⟨Real.pi, Real.arccos, Real.arcsin, Real.sin, Real.sqrt⟩ (fun _ f => f)
        (circular_orbit 100 0 (2 * Real.pi) 1) (polar_circular_orbit 100 0 (2 * Real.pi) 1)
        fs times)
      (Real.pi / 2)
      (Real.arcsin (clamp (-1) 1 (Real.sin (1 / 2000) / Real.sin (Real.pi / 4)))) := by
  have hb := crossing_delta_bounds
  intro o ho
  have ho2 : o = 0 ∨ o = 1 := by omega
  rcases ho2 with rfl | rfl
  · refine ⟨rfl, ?_, ?_, ?_, ?_, ?_⟩
    · show 2 * Real.pi = 4 * (Real.pi / 2)
      ring
    all_goals
      unfold intercept_times
      rw [if_pos (by norm_num), crossing_intersects]
      unfold intercept_fs
      rw [if_pos rfl, crossing_threshold, crossing_intersect_circle,
        window_times_unit _ _ _ rfl rfl
          (by
            dsimp only
            rw [Function.update_noteq (by norm_num : (2 : ℕ) ≠ 3), Function.update_same,
              Function.update_same]
            linarith) _ (by norm_num)]
      simp [Function.update_apply]
  · refine ⟨rfl, ?_, ?_, ?_, ?_, ?_⟩
    · show 2 * Real.pi = 4 * (Real.pi / 2)
      ring
    all_goals
      unfold intercept_times
      rw [if_pos (by norm_num), crossing_intersects]
      unfold intercept_fs
      rw [if_neg (by norm_num), crossing_threshold, crossing_intersect_polar,
        window_times_unit _ _ _ rfl rfl
          (by
            dsimp only
            rw [Function.update_noteq (by norm_num : (2 : ℕ) ≠ 3), Function.update_same,
              Function.update_same]
            linarith) _ (by norm_num)]
      simp [Function.update_apply]

lemma crossing_initial_n_orbit (o : ℕ) :
    initial_n_orbit
      (orbits (circular_orbit 100 0 (2 * Real.pi) 1)
        (polar_circular_orbit 100 0 (2 * Real.pi) 1) o) (2 : ℝ) = 0 := by
  have hpi := Real.pi_gt_three
  have hx0 : (0 : ℝ) ≤ (2 - 0) / (2 * Real.pi) + 1 / 2 := by positivity
  have hx1 : (2 - 0) / (2 * Real.pi) + 1 / 2 < 1 := by
    have : (2 - 0) / (2 * Real.pi) < 1 / 2 := by
      rw [div_lt_iff₀ (by positivity)]
      linarith
    linarith
  have key : trunc ((2 - 0) / (2 * Real.pi) + 1 / 2) = 0 := by
    unfold trunc
    rw [if_pos hx0, Int.floor_eq_zero_iff]
    exact ⟨hx0, hx1⟩
  have h20 : ¬ ((0 : ℝ) > 2) := by norm_num
  unfold initial_n_orbit orbits
  by_cases ho : o = 0
  · rw [if_pos ho]
    simp only [circular_orbit]
    rw [if_pos trivial, if_neg h20]
    rw [key]
    exact int_of_double_zero
  · rw [if_neg ho]
    simp only [polar_circular_orbit]
    rw [if_pos trivial, if_neg h20]
    rw [key]
    exact int_of_double_zero

end crossing_scan

section flyby

/-- The defect of C10 on a table of rationals that can be traced by hand: two
non-closed orbits with the window table `flyby_times` (orbit 0: `[-8, -6]` and `[6, 8]`; orbit 1: `[-100, 100]`),
scanned over `t0 = 10`, `t1 = 20`.  The first iteration sets the scan time back
to `t = -6`; at the second one `t_begin = 6 < t_end = 8`, so the window `[6, 8]`
is counted although it ends before `t0 = 10`; the loop then ends with
`num_intercepts = 1`, so that `intercept_orbit` returns true. -/
lemma flyby_candidate_before_t0 :
    (scan_after (orbits (conic_orbit 3 2 false 0 1 1) (conic_orbit 3 2 false 0 1 1))
      flyby_intersects flyby_times (10 : ℚ) 20 1).map (fun s => s.t) = some (-6) ∧
    (scan_after (orbits (conic_orbit 3 2 false 0 1 1) (conic_orbit 3 2 false 0 1 1))
      flyby_intersects flyby_times (10 : ℚ) 20 1).map
        (t_begin (orbits (conic_orbit 3 2 false 0 1 1) (conic_orbit 3 2 false 0 1 1))
          flyby_times) = some 6 ∧
    (scan_after (orbits (conic_orbit 3 2 false 0 1 1) (conic_orbit 3 2 false 0 1 1))
      flyby_intersects flyby_times (10 : ℚ) 20 1).map
        (t_end (orbits (conic_orbit 3 2 false 0 1 1) (conic_orbit 3 2 false 0 1 1))
          flyby_times 20) = some 8 ∧
    (scan_loop (orbits (conic_orbit 3 2 false 0 1 1) (conic_orbit 3 2 false 0 1 1))
      flyby_intersects flyby_times (20 : ℚ) 2
      (scan_init (orbits (conic_orbit 3 2 false 0 1 1) (conic_orbit 3 2 false 0 1 1)) 10)).map
        (fun s => decide (s.num_intercepts ≠ 0)) = some true := by
  refine ⟨?_, ?_, ?_, ?_⟩
  · simp [scan_after, scan_init, scan_step, t_begin, t_end, trange, orbits, conic_orbit,
      flyby_times, flyby_intersects, initial_n_orbit, min, max, Function.update_apply,
      int_add_zero_one]
    norm_num [int_add_zero_one]
  · simp [scan_after, scan_init, scan_step, t_begin, t_end, trange, orbits, conic_orbit,
      flyby_times, flyby_intersects, initial_n_orbit, min, max, Function.update_apply,
      int_add_zero_one]
    norm_num [int_add_zero_one]
  · simp [scan_after, scan_init, scan_step, t_begin, t_end, trange, orbits, conic_orbit,
      flyby_times, flyby_intersects, initial_n_orbit, min, max, Function.update_apply,
      int_add_zero_one]
    norm_num [int_add_zero_one]
  · simp [scan_loop, scan_init, scan_step, t_begin, t_end, trange, orbits, conic_orbit,
      flyby_times, flyby_intersects, initial_n_orbit, min, max, Function.update_apply,
      int_add_zero_one]
    norm_num [int_add_zero_one]

end flyby

section claims

variable {α : Type} [LinearOrderedField α] [FloorRing α]

/-- C1. Apsis short-circuit: when `orbit1` is closed and its apoapsis is below
`periapsis(orbit2) - threshold`, or `orbit2` is closed and its apoapsis is below
`periapsis(orbit1) - threshold`, `intersect_orbit` returns 0 and leaves `fs`
untouched, whatever the frames of the two orbits are. -/
theorem C1_apsis_short_circuit (M : Libm α) (orbit1 orbit2 : kepler_elements α)
    (threshold : α) (fs : ℕ → α)
    (h : (orbit1.closed = true ∧ orbit1.apoapsis < orbit2.periapsis - threshold) ∨
      (orbit2.closed = true ∧ orbit2.apoapsis < orbit1.periapsis - threshold)) :
    intersect_orbit M orbit1 orbit2 threshold fs = (0, fs) := by
  unfold intersect_orbit
  rw [if_pos h]

/-- C1, witness: a closed orbit with apoapsis 100 against a closed orbit with
periapsis 200 at threshold 10, over the reals with the functions of analysis. -/
theorem C1_apsis_short_circuit_witness :
    (((circular_orbit 100 0 1 1 : kepler_elements ℝ).closed = true ∧
        (circular_orbit 100 0 1 1 : kepler_elements ℝ).apoapsis
          < (circular_orbit 200 0 1 1 : kepler_elements ℝ).periapsis - 10) ∨
      ((circular_orbit 200 0 1 1 : kepler_elements ℝ).closed = true ∧
        (circular_orbit 200 0 1 1 : kepler_elements ℝ).apoapsis
          < (circular_orbit 100 0 1 1 : kepler_elements ℝ).periapsis - 10)) ∧
    intersect_orbit ⟨Real.pi, Real.arccos, Real.arcsin, Real.sin, Real.sqrt⟩
      (circular_orbit 100 0 1 1) (circular_orbit 200 0 1 1) (10 : ℝ) (fun _ => 0)
      = (0, fun _ => 0) :=
  have h : ((circular_orbit 100 0 1 1 : kepler_elements ℝ).closed = true ∧
        (circular_orbit 100 0 1 1 : kepler_elements ℝ).apoapsis
          < (circular_orbit 200 0 1 1 : kepler_elements ℝ).periapsis - 10) ∨
      ((circular_orbit 200 0 1 1 : kepler_elements ℝ).closed = true ∧
        (circular_orbit 200 0 1 1 : kepler_elements ℝ).apoapsis
          < (circular_orbit 100 0 1 1 : kepler_elements ℝ).periapsis - 10) :=
    Or.inl ⟨rfl, by simp only [circular_orbit]; norm_num⟩
  ⟨h, C1_apsis_short_circuit _ _ _ _ _ h⟩

/-- C2. With `eps = (1/1000) * min(p1, p2)`: when `intersect_orbit(orbit1,
orbit2, eps)` returns 0 or `intersect_orbit(orbit2, orbit1, eps)` returns 0
(on any output buffers), `intercept_orbit(orbit1, orbit2, t0, t1)` returns
false, for every time range and without entering the scan loop. -/
theorem C2_no_interval_no_candidate (M : Libm α) (kepler_anomaly_true_to_mean : α → α → α)
    (orbit1 orbit2 : kepler_elements α) (t0 t1 : α) (fs times : ℕ → ℕ → α) (fuel : ℕ)
    (buf1 buf2 : ℕ → α)
    (h : (intersect_orbit M orbit1 orbit2
            ((1 / 1000) * min orbit1.semi_latus_rectum orbit2.semi_latus_rectum) buf1).1 = 0 ∨
         (intersect_orbit M orbit2 orbit1
            ((1 / 1000) * min orbit1.semi_latus_rectum orbit2.semi_latus_rectum) buf2).1 = 0) :
    intercept_orbit M kepler_anomaly_true_to_mean orbit1 orbit2 t0 t1 fs times fuel
      = some false := by
  unfold intercept_orbit
  rcases h with h | h
  · rw [intersect_orbit_fst_indep M orbit1 orbit2 _ buf1 (fs 0)] at h
    rw [if_pos (by simpa [intercept_intersects, intercept_threshold] using h)]
  · rw [intersect_orbit_fst_indep M orbit2 orbit1 _ buf2 (fs 1)] at h
    by_cases h0 : intercept_intersects M orbit1 orbit2 fs 0 = 0
    · rw [if_pos h0]
    · rw [if_neg h0, if_pos (by simpa [intercept_intersects, intercept_threshold] using h)]

/-- C2, witness: two circular orbits of radius 100 and 200 are separated by the
apsis test at `eps = 100/1000`, so the scan over `[0, 50)` reports nothing. -/
theorem C2_no_interval_no_candidate_witness :
    ((intersect_orbit ⟨Real.pi, Real.arccos, Real.arcsin, Real.sin, Real.sqrt⟩
          (circular_orbit 100 0 1 1) (circular_orbit 200 0 1 1)
          ((1 / 1000) * min (circular_orbit (100 : ℝ) 0 1 1).semi_latus_rectum
            (circular_orbit (200 : ℝ) 0 1 1).semi_latus_rectum) (fun _ => 0)).1 = 0 ∨
      (intersect_orbit ⟨Real.pi, Real.arccos, Real.arcsin, Real.sin, Real.sqrt⟩
          (circular_orbit 200 0 1 1) (circular_orbit 100 0 1 1)
          ((1 / 1000) * min (circular_orbit (100 : ℝ) 0 1 1).semi_latus_rectum
            (circular_orbit (200 : ℝ) 0 1 1).semi_latus_rectum) (fun _ => 0)).1 = 0) ∧
    intercept_orbit ⟨Real.pi, Real.arccos, Real.arcsin, Real.sin, Real.sqrt⟩ (fun _ f => f)
      (circular_orbit 100 0 1 1) (circular_orbit 200 0 1 1) (0 : ℝ) 50
      (fun _ _ => 0) (fun _ _ => 0) 0 = some false :=
  have h : (intersect_orbit ⟨Real.pi, Real.arccos, Real.arcsin, Real.sin, Real.sqrt⟩
          (circular_orbit 100 0 1 1) (circular_orbit 200 0 1 1)
          ((1 / 1000) * min (circular_orbit (100 : ℝ) 0 1 1).semi_latus_rectum
            (circular_orbit (200 : ℝ) 0 1 1).semi_latus_rectum) (fun _ => 0)).1 = 0 ∨
      (intersect_orbit ⟨Real.pi, Real.arccos, Real.arcsin, Real.sin, Real.sqrt⟩
          (circular_orbit 200 0 1 1) (circular_orbit 100 0 1 1)
          ((1 / 1000) * min (circular_orbit (100 : ℝ) 0 1 1).semi_latus_rectum
            (circular_orbit (200 : ℝ) 0 1 1).semi_latus_rectum) (fun _ => 0)).1 = 0 :=
    Or.inl (by
      unfold intersect_orbit
      rw [if_pos]
      left
      refine ⟨rfl, ?_⟩
      simp only [circular_orbit, min]
      norm_num)
  ⟨h, C2_no_interval_no_candidate _ _ _ _ _ _ _ _ _ _ _ h⟩

/-- C3. The count returned by `intersect_orbit` is 0, 1 or 2 on every branch,
for all orbits, thresholds and initial contents of `fs`. -/
theorem C3_count_range (M : Libm α) (orbit1 orbit2 : kepler_elements α)
    (threshold : α) (fs : ℕ → α) :
    (intersect_orbit M orbit1 orbit2 threshold fs).1 = 0 ∨
    (intersect_orbit M orbit1 orbit2 threshold fs).1 = 1 ∨
    (intersect_orbit M orbit1 orbit2 threshold fs).1 = 2 := by
  have key : (intersect_orbit M orbit1 orbit2 threshold fs).1 ≤ 2 := by
    unfold intersect_orbit
    dsimp only
    split_ifs
    all_goals first
      | exact merge_or_count_le _
      | exact intersect_apoapsis_le _ _ _ _ _ _
      | simp
  omega

/-- C4 (as amended). When `acos` takes its values in `[0, M_PI]` and the node
half-width `delta_fs` is not negative, every boundary angle that
`intersect_orbit` returns, `fs[j]` with `j < 2n` for the returned count `n`,
lies in the closed range `[-M_PI, M_PI]`. -/
theorem C4_returned_angles_in_closed_range (M : Libm α) (orbit1 orbit2 : kepler_elements α)
    (threshold : α) (fs : ℕ → α)
    (hacos : ∀ x, 0 ≤ M.acos x ∧ M.acos x ≤ M.M_PI)
    (hdelta : 0 ≤ delta_fs M orbit1 orbit2 threshold 0)
    (j : ℕ) (hj : j < 2 * (intersect_orbit M orbit1 orbit2 threshold fs).1) :
    -M.M_PI ≤ (intersect_orbit M orbit1 orbit2 threshold fs).2 j ∧
      (intersect_orbit M orbit1 orbit2 threshold fs).2 j ≤ M.M_PI := by
  have hpi : 0 ≤ M.M_PI := le_trans (hacos 0).1 (hacos 0).2
  obtain ⟨hf1l, hf1u⟩ := altitude_f1_range M hacos orbit1 orbit2 threshold
  obtain ⟨hf2l, hf2u⟩ := altitude_f2_range M hacos orbit1 orbit2 threshold
  by_cases hsc : (orbit1.closed = true ∧ orbit1.apoapsis < orbit2.periapsis - threshold) ∨
      (orbit2.closed = true ∧ orbit2.apoapsis < orbit1.periapsis - threshold)
  · unfold intersect_orbit at hj
    rw [if_pos hsc] at hj
    simp at hj
  by_cases hcop : coplanar M orbit1 orbit2 = true
  · rw [intersect_orbit_coplanar M orbit1 orbit2 threshold fs hsc hcop] at hj ⊢
    by_cases hz : zero (altitude_f1 M orbit1 orbit2 threshold) = true
    · rw [if_pos hz] at hj ⊢
      have hj2 : j = 0 ∨ j = 1 := by dsimp only at hj; omega
      rcases hj2 with rfl | rfl
      · simp only [Function.update_apply]; norm_num; exact ⟨hf2u, by linarith⟩
      · simp only [Function.update_apply]; norm_num; exact ⟨by linarith, hf2u⟩
    · rw [if_neg hz] at hj ⊢
      by_cases hw : orbit1.closed = true ∧ ¬ (altitude_f2 M orbit1 orbit2 threshold < M.M_PI)
      · rw [if_pos hw] at hj ⊢
        have hj2 : j = 0 ∨ j = 1 := by dsimp only at hj; omega
        rcases hj2 with rfl | rfl
        · simp only [Function.update_apply]; norm_num; exact ⟨by linarith, hf1u⟩
        · simp only [Function.update_apply]; norm_num; exact ⟨hf1u, by linarith⟩
      · rw [if_neg hw] at hj ⊢
        have hj4 : j = 0 ∨ j = 1 ∨ j = 2 ∨ j = 3 := by dsimp only at hj; omega
        rcases hj4 with rfl | rfl | rfl | rfl
        · simp only [Function.update_apply]; norm_num; exact ⟨hf2u, by linarith⟩
        · simp only [Function.update_apply]; norm_num; exact ⟨hf1u, by linarith⟩
        · simp only [Function.update_apply]; norm_num; exact ⟨by linarith, hf1u⟩
        · simp only [Function.update_apply]; norm_num; exact ⟨by linarith, hf2u⟩
  · rw [intersect_orbit_noncoplanar M orbit1 orbit2 threshold fs hsc hcop] at hj ⊢
    by_cases hall : orbit1.closed = true ∧ zero (altitude_f1 M orbit1 orbit2 threshold) = true ∧
        ¬ (altitude_f2 M orbit1 orbit2 threshold < M.M_PI)
    · rw [if_pos hall] at hj ⊢
      have hj4 : j = 0 ∨ j = 1 ∨ j = 2 ∨ j = 3 := by dsimp only at hj; omega
      rcases hj4 with rfl | rfl | rfl | rfl
      · simpa [Function.update_apply] using angle_clamp_range M hpi _
      · simpa [Function.update_apply] using angle_clamp_range M hpi _
      · simpa [Function.update_apply] using angle_clamp_range M hpi _
      · simpa [Function.update_apply] using angle_clamp_range M hpi _
    · rw [if_neg hall] at hj ⊢
      by_cases hz : zero (altitude_f1 M orbit1 orbit2 threshold) = true
      · rw [if_pos hz] at hj ⊢
        exact clipped_windows_range M hacos orbit1 orbit2 threshold _ _ _ _ fs hdelta
          ⟨by linarith, by linarith⟩ hf2u (by linarith) ⟨by linarith, hf2u⟩ j hj
      · rw [if_neg hz] at hj ⊢
        by_cases hw : orbit1.closed = true ∧ ¬ (altitude_f2 M orbit1 orbit2 threshold < M.M_PI)
        · rw [if_pos hw] at hj ⊢
          exact intersect_apoapsis_range M hacos orbit1 orbit2 threshold _ fs
            ⟨hf1l, hf1u⟩ hdelta j hj
        · rw [if_neg hw] at hj ⊢
          exact clipped_windows_range M hacos orbit1 orbit2 threshold _ _ _ _ fs hdelta
            ⟨by linarith, by linarith⟩ (by linarith) (by linarith) ⟨by linarith, hf2u⟩ j hj

/-- C4, witness: the equatorial circular orbit of radius 100 against the polar
one at threshold 1 over the reals: `acos` is `Real.arccos`, the half-width is not
negative, two intervals are returned and `fs[0]` is in `[-pi, pi]`. -/
theorem C4_returned_angles_in_closed_range_witness :
    (∀ x, 0 ≤ Real.arccos x ∧ Real.arccos x ≤ Real.pi) ∧
    0 ≤ delta_fs ⟨Real.pi, Real.arccos, Real.arcsin, Real.sin, Real.sqrt⟩
      (circular_orbit 100 0 1 1) (polar_circular_orbit 100 0 1 1) (1 : ℝ) 0 ∧
    0 < 2 * (intersect_orbit ⟨Real.pi, Real.arccos, Real.arcsin, Real.sin, Real.sqrt⟩
      (circular_orbit 100 0 1 1) (polar_circular_orbit 100 0 1 1) (1 : ℝ) (fun _ => 0)).1 ∧
    (-Real.pi ≤ (intersect_orbit ⟨Real.pi, Real.arccos, Real.arcsin, Real.sin, Real.sqrt⟩
        (circular_orbit 100 0 1 1) (polar_circular_orbit 100 0 1 1) (1 : ℝ) (fun _ => 0)).2 0 ∧
      (intersect_orbit ⟨Real.pi, Real.arccos, Real.arcsin, Real.sin, Real.sqrt⟩
        (circular_orbit 100 0 1 1) (polar_circular_orbit 100 0 1 1) (1 : ℝ) (fun _ => 0)).2 0
        ≤ Real.pi) :=
  have hacos : ∀ x, 0 ≤ Real.arccos x ∧ Real.arccos x ≤ Real.pi :=
    fun x => ⟨Real.arccos_nonneg x, Real.arccos_le_pi x⟩
  have hdelta : 0 ≤ delta_fs ⟨Real.pi, Real.arccos, Real.arcsin, Real.sin, Real.sqrt⟩
      (circular_orbit 100 0 1 1) (polar_circular_orbit 100 0 1 1) (1 : ℝ) 0 :=
    delta_fs_real_nonneg _ _ _
      (by simp only [circular_orbit]; norm_num)
      (by simp only [circular_orbit]; linarith [Real.pi_gt_three])
  have hj : 0 < 2 * (intersect_orbit ⟨Real.pi, Real.arccos, Real.arcsin, Real.sin, Real.sqrt⟩
      (circular_orbit 100 0 1 1) (polar_circular_orbit 100 0 1 1) (1 : ℝ) (fun _ => 0)).1 := by
    rw [circle_polar_count]; norm_num
  ⟨hacos, hdelta, hj,
    C4_returned_angles_in_closed_range ⟨Real.pi, Real.arccos, Real.arcsin, Real.sin, Real.sqrt⟩
      (circular_orbit 100 0 1 1) (polar_circular_orbit 100 0 1 1) 1 (fun _ => 0)
      hacos hdelta 0 hj⟩

/-- C4, counterexample to the claim as stated: for the circular orbit of radius
100 against itself at threshold 1, `intersect_orbit` returns one interval whose
lower bound `fs[0]` is `-pi`, which is not in `(-pi, pi]`. -/
theorem C4_counterexample :
    0 < 2 * (intersect_orbit ⟨Real.pi, Real.arccos, Real.arcsin, Real.sin, Real.sqrt⟩
      (circular_orbit 100 0 1 1) (circular_orbit 100 5 1 1) (1 : ℝ) (fun _ => 0)).1 ∧
    ¬ (-Real.pi < (intersect_orbit ⟨Real.pi, Real.arccos, Real.arcsin, Real.sin, Real.sqrt⟩
      (circular_orbit 100 0 1 1) (circular_orbit 100 5 1 1) (1 : ℝ) (fun _ => 0)).2 0) := by
  rw [circles_whole_orbit]
  simp [Function.update_apply]

/-- C5. Two identical circular coplanar orbits (accessor values consistent with
`e = 0` and the same `p`, same normal) at any threshold `> 0`: `intersect_orbit`
returns 1 and the interval is the whole orbit, `fs[0] = -M_PI`, `fs[1] = M_PI`
(the altitude bounds stay at `f1 = 0`, `f2 = M_PI`).  The only fact used about
`<math.h>` is `sqrt(0) = 0`. -/
theorem C5_identical_circular_whole_orbit (M : Libm α) (orbit1 orbit2 : kepler_elements α)
    (threshold : α) (fs : ℕ → α)
    (hsqrt : M.sqrt 0 = 0)
    (hc1 : consistent orbit1) (hc2 : consistent orbit2)
    (he1 : orbit1.eccentricity = 0) (he2 : orbit2.eccentricity = 0)
    (hp : orbit2.semi_latus_rectum = orbit1.semi_latus_rectum)
    (hn : orbit2.normal = orbit1.normal)
    (hthr : 0 < threshold) :
    altitude_f1 M orbit1 orbit2 threshold = 0 ∧
    altitude_f2 M orbit1 orbit2 threshold = M.M_PI ∧
    (intersect_orbit M orbit1 orbit2 threshold fs).1 = 1 ∧
    (intersect_orbit M orbit1 orbit2 threshold fs).2 0 = -M.M_PI ∧
    (intersect_orbit M orbit1 orbit2 threshold fs).2 1 = M.M_PI := by
  obtain ⟨hp1, hcl1, hh1, ha1, hci1⟩ := hc1
  obtain ⟨hp2, hcl2, _, ha2, _⟩ := hc2
  have hclosed1 : orbit1.closed = true := hcl1.mpr (by rw [he1]; exact zero_lt_one)
  have hclosed2 : orbit2.closed = true := hcl2.mpr (by rw [he2]; exact zero_lt_one)
  have hcirc : orbit1.circular = true := hci1 he1
  have hhyp : orbit1.hyperbolic = false := by
    cases hb : orbit1.hyperbolic
    · rfl
    · have := hh1.mp hb
      rw [he1] at this
      exact absurd this (by norm_num)
  have hperi1 : orbit1.periapsis = orbit1.semi_latus_rectum := by rw [hp1, he1]; simp
  have hapo1 : orbit1.apoapsis = orbit1.semi_latus_rectum := by
    rw [ha1 hclosed1, he1]; simp
  have hperi2 : orbit2.periapsis = orbit1.semi_latus_rectum := by rw [hp2, he2, hp]; simp
  have hapo2 : orbit2.apoapsis = orbit1.semi_latus_rectum := by
    rw [ha2 hclosed2, he2, hp]; simp
  have hpass : ¬ ((orbit1.closed = true ∧ orbit1.apoapsis < orbit2.periapsis - threshold) ∨
      (orbit2.closed = true ∧ orbit2.apoapsis < orbit1.periapsis - threshold)) := by
    rw [hperi1, hapo1, hperi2, hapo2]
    rintro (⟨_, h⟩ | ⟨_, h⟩) <;> linarith
  have hf1 : altitude_f1 M orbit1 orbit2 threshold = 0 := by
    simp [altitude_f1, hcirc]
  have hf2 : altitude_f2 M orbit1 orbit2 threshold = M.M_PI := by
    simp [altitude_f2, hcirc, hhyp]
  refine ⟨hf1, hf2, ?_⟩
  rw [intersect_orbit_coplanar M orbit1 orbit2 threshold fs hpass
    (coplanar_of_normal_eq M hsqrt orbit1 orbit2 hn), hf1, hf2, if_pos zero_zero]
  simp [Function.update_apply]

/-- C5, witness: the circular orbit of radius 100 against itself at threshold
1, over the reals with the square root of analysis. -/
theorem C5_identical_circular_whole_orbit_witness :
    altitude_f1 ⟨Real.pi, Real.arccos, Real.arcsin, Real.sin, Real.sqrt⟩
      (circular_orbit 100 0 1 1) (circular_orbit 100 5 1 1) (1 : ℝ) = 0 ∧
    altitude_f2 ⟨Real.pi, Real.arccos, Real.arcsin, Real.sin, Real.sqrt⟩
      (circular_orbit 100 0 1 1) (circular_orbit 100 5 1 1) (1 : ℝ) = Real.pi ∧
    (intersect_orbit ⟨Real.pi, Real.arccos, Real.arcsin, Real.sin, Real.sqrt⟩
      (circular_orbit 100 0 1 1) (circular_orbit 100 5 1 1) (1 : ℝ) (fun _ => 0)).1 = 1 ∧
    (intersect_orbit ⟨Real.pi, Real.arccos, Real.arcsin, Real.sin, Real.sqrt⟩
      (circular_orbit 100 0 1 1) (circular_orbit 100 5 1 1) (1 : ℝ) (fun _ => 0)).2 0
        = -Real.pi ∧
    (intersect_orbit ⟨Real.pi, Real.arccos, Real.arcsin, Real.sin, Real.sqrt⟩
      (circular_orbit 100 0 1 1) (circular_orbit 100 5 1 1) (1 : ℝ) (fun _ => 0)).2 1
        = Real.pi :=
  C5_identical_circular_whole_orbit ⟨Real.pi, Real.arccos, Real.arcsin, Real.sin, Real.sqrt⟩
    (circular_orbit 100 0 1 1) (circular_orbit 100 5 1 1) 1 (fun _ => 0)
    Real.sqrt_zero (consistent_circular_orbit _ _ _ _) (consistent_circular_orbit _ _ _ _)
    rfl rfl rfl rfl one_pos

/-- C6, evaluation at the failing input: the hyperbola `p = 3`, `e = 2`
(periapsis radius 1) against a coplanar copy that differs in the periapsis epoch
only, at threshold 2.  The inner bound is asked at the negative radius `1 - 2`,
the clamp turns it into `f1 = acos(-1) = pi`, and `intersect_orbit` returns two
inverted intervals `[-acos(1/2), -pi]` and `[pi, acos(1/2)]` instead of one
interval symmetric about 0. -/
theorem C6_hyperbola_large_threshold :
    (intersect_orbit ⟨Real.pi, Real.arccos, Real.arcsin, Real.sin, Real.sqrt⟩
      (conic_orbit 3 2 false 0 1 1) (conic_orbit 3 2 false 5 1 1) (2 : ℝ) (fun _ => 0)).1 = 2 ∧
    (intersect_orbit ⟨Real.pi, Real.arccos, Real.arcsin, Real.sin, Real.sqrt⟩
      (conic_orbit 3 2 false 0 1 1) (conic_orbit 3 2 false 5 1 1) (2 : ℝ) (fun _ => 0)).2 0
      = -Real.arccos (1 / 2) ∧
    (intersect_orbit ⟨Real.pi, Real.arccos, Real.arcsin, Real.sin, Real.sqrt⟩
      (conic_orbit 3 2 false 0 1 1) (conic_orbit 3 2 false 5 1 1) (2 : ℝ) (fun _ => 0)).2 1
      = -Real.pi ∧
    (intersect_orbit ⟨Real.pi, Real.arccos, Real.arcsin, Real.sin, Real.sqrt⟩
      (conic_orbit 3 2 false 0 1 1) (conic_orbit 3 2 false 5 1 1) (2 : ℝ) (fun _ => 0)).2 2
      = Real.pi ∧
    (intersect_orbit ⟨Real.pi, Real.arccos, Real.arcsin, Real.sin, Real.sqrt⟩
      (conic_orbit 3 2 false 0 1 1) (conic_orbit 3 2 false 5 1 1) (2 : ℝ) (fun _ => 0)).2 3
      = Real.arccos (1 / 2) := by
  have hf1 := hyperbola_self_f1_large
  have hf2 := hyperbola_self_f2 5 2
  have hz : ¬ zero (altitude_f1 ⟨Real.pi, Real.arccos, Real.arcsin, Real.sin, Real.sqrt⟩
      (conic_orbit 3 2 false 0 1 1) (conic_orbit 3 2 false 5 1 1) (2 : ℝ)) = true := by
    rw [hf1, not_zero_of_one_le _ (by linarith [Real.pi_gt_three])]
    exact Bool.false_ne_true
  rw [intersect_orbit_coplanar _ _ _ _ _ (hyperbola_self_pass 5 2)
    (coplanar_of_normal_eq _ Real.sqrt_zero _ _ rfl), if_neg hz,
    if_neg (fun h => hyperbola_not_closed 0 h.1), hf1, hf2]
  simp [Function.update_apply]

/-- C7 (as amended). Coplanar classification: for two coplanar orbits that
pass the apsis short-circuit, with `f_peri = altitude_f1` and
`f_apo = altitude_f2`, `intersect_orbit` returns (i) the single interval
`[-f_apo, f_apo]` when `zero(f_peri)`; (ii) otherwise, when the subject is closed
and `f_apo` reaches `M_PI` (not `f_apo < M_PI`), the single wrapping interval
`[f_peri, -f_peri]`; (iii) otherwise the two intervals `[-f_apo, -f_peri]` and
`[f_peri, f_apo]`. -/
theorem C7_coplanar_classification (M : Libm α) (orbit1 orbit2 : kepler_elements α)
    (threshold : α) (fs : ℕ → α)
    (hpass : ¬ ((orbit1.closed = true ∧ orbit1.apoapsis < orbit2.periapsis - threshold) ∨
      (orbit2.closed = true ∧ orbit2.apoapsis < orbit1.periapsis - threshold)))
    (hcop : coplanar M orbit1 orbit2 = true) :
    (zero (altitude_f1 M orbit1 orbit2 threshold) = true →
      intersect_orbit M orbit1 orbit2 threshold fs =
        (1, Function.update (Function.update fs 0 (-altitude_f2 M orbit1 orbit2 threshold))
          1 (altitude_f2 M orbit1 orbit2 threshold))) ∧
    (zero (altitude_f1 M orbit1 orbit2 threshold) = false →
      orbit1.closed = true → ¬ (altitude_f2 M orbit1 orbit2 threshold < M.M_PI) →
      intersect_orbit M orbit1 orbit2 threshold fs =
        (1, Function.update (Function.update fs 0 (altitude_f1 M orbit1 orbit2 threshold))
          1 (-altitude_f1 M orbit1 orbit2 threshold))) ∧
    (zero (altitude_f1 M orbit1 orbit2 threshold) = false →
      ¬ (orbit1.closed = true ∧ ¬ (altitude_f2 M orbit1 orbit2 threshold < M.M_PI)) →
      intersect_orbit M orbit1 orbit2 threshold fs =
        (2, Function.update (Function.update (Function.update (Function.update fs
          0 (-altitude_f2 M orbit1 orbit2 threshold))
          1 (-altitude_f1 M orbit1 orbit2 threshold))
          2 (altitude_f1 M orbit1 orbit2 threshold))
          3 (altitude_f2 M orbit1 orbit2 threshold))) := by
  rw [intersect_orbit_coplanar M orbit1 orbit2 threshold fs hpass hcop]
  refine ⟨fun hz => ?_, fun hz hc hf => ?_, fun hz hn => ?_⟩
  · rw [if_pos hz]
  · rw [if_neg (by rw [hz]; exact Bool.false_ne_true), if_pos ⟨hc, hf⟩]
  · rw [if_neg (by rw [hz]; exact Bool.false_ne_true), if_neg hn]

/-- C7, witness: the ellipse `p = 3`, `e = 1/2` against the coplanar circular
orbit of radius 4 at threshold 1, over the reals with the functions of
analysis. -/
theorem C7_coplanar_classification_witness :
    (zero (altitude_f1 ⟨Real.pi, Real.arccos, Real.arcsin, Real.sin, Real.sqrt⟩
        (conic_orbit 3 (1 / 2) false 0 1 1) (circular_orbit 4 0 1 1) (1 : ℝ)) = true →
      intersect_orbit ⟨Real.pi, Real.arccos, Real.arcsin, Real.sin, Real.sqrt⟩
        (conic_orbit 3 (1 / 2) false 0 1 1) (circular_orbit 4 0 1 1) (1 : ℝ) (fun _ => 0) =
        (1, Function.update (Function.update (fun _ => 0)
          0 (-altitude_f2 ⟨Real.pi, Real.arccos, Real.arcsin, Real.sin, Real.sqrt⟩
            (conic_orbit 3 (1 / 2) false 0 1 1) (circular_orbit 4 0 1 1) (1 : ℝ)))
          1 (altitude_f2 ⟨Real.pi, Real.arccos, Real.arcsin, Real.sin, Real.sqrt⟩
            (conic_orbit 3 (1 / 2) false 0 1 1) (circular_orbit 4 0 1 1) (1 : ℝ)))) ∧
    (zero (altitude_f1 ⟨Real.pi, Real.arccos, Real.arcsin, Real.sin, Real.sqrt⟩
        (conic_orbit 3 (1 / 2) false 0 1 1) (circular_orbit 4 0 1 1) (1 : ℝ)) = false →
      (conic_orbit 3 (1 / 2) false 0 1 1 : kepler_elements ℝ).closed = true →
      ¬ (altitude_f2 ⟨Real.pi, Real.arccos, Real.arcsin, Real.sin, Real.sqrt⟩
        (conic_orbit 3 (1 / 2) false 0 1 1) (circular_orbit 4 0 1 1) (1 : ℝ) < Real.pi) →
      intersect_orbit ⟨Real.pi, Real.arccos, Real.arcsin, Real.sin, Real.sqrt⟩
        (conic_orbit 3 (1 / 2) false 0 1 1) (circular_orbit 4 0 1 1) (1 : ℝ) (fun _ => 0) =
        (1, Function.update (Function.update (fun _ => 0)
          0 (altitude_f1 ⟨Real.pi, Real.arccos, Real.arcsin, Real.sin, Real.sqrt⟩
            (conic_orbit 3 (1 / 2) false 0 1 1) (circular_orbit 4 0 1 1) (1 : ℝ)))
          1 (-altitude_f1 ⟨Real.pi, Real.arccos, Real.arcsin, Real.sin, Real.sqrt⟩
            (conic_orbit 3 (1 / 2) false 0 1 1) (circular_orbit 4 0 1 1) (1 : ℝ)))) ∧
    (zero (altitude_f1 ⟨Real.pi, Real.arccos, Real.arcsin, Real.sin, Real.sqrt⟩
        (conic_orbit 3 (1 / 2) false 0 1 1) (circular_orbit 4 0 1 1) (1 : ℝ)) = false →
      ¬ ((conic_orbit 3 (1 / 2) false 0 1 1 : kepler_elements ℝ).closed = true ∧
        ¬ (altitude_f2 ⟨Real.pi, Real.arccos, Real.arcsin, Real.sin, Real.sqrt⟩
          (conic_orbit 3 (1 / 2) false 0 1 1) (circular_orbit 4 0 1 1) (1 : ℝ) < Real.pi)) →
      intersect_orbit ⟨Real.pi, Real.arccos, Real.arcsin, Real.sin, Real.sqrt⟩
        (conic_orbit 3 (1 / 2) false 0 1 1) (circular_orbit 4 0 1 1) (1 : ℝ) (fun _ => 0) =
        (2, Function.update (Function.update (Function.update (Function.update (fun _ => 0)
          0 (-altitude_f2 ⟨Real.pi, Real.arccos, Real.arcsin, Real.sin, Real.sqrt⟩
            (conic_orbit 3 (1 / 2) false 0 1 1) (circular_orbit 4 0 1 1) (1 : ℝ)))
          1 (-altitude_f1 ⟨Real.pi, Real.arccos, Real.arcsin, Real.sin, Real.sqrt⟩
            (conic_orbit 3 (1 / 2) false 0 1 1) (circular_orbit 4 0 1 1) (1 : ℝ)))
          2 (altitude_f1 ⟨Real.pi, Real.arccos, Real.arcsin, Real.sin, Real.sqrt⟩
            (conic_orbit 3 (1 / 2) false 0 1 1) (circular_orbit 4 0 1 1) (1 : ℝ)))
          3 (altitude_f2 ⟨Real.pi, Real.arccos, Real.arcsin, Real.sin, Real.sqrt⟩
            (conic_orbit 3 (1 / 2) false 0 1 1) (circular_orbit 4 0 1 1) (1 : ℝ)))) :=
  C7_coplanar_classification ⟨Real.pi, Real.arccos, Real.arcsin, Real.sin, Real.sqrt⟩
    (conic_orbit 3 (1 / 2) false 0 1 1) (circular_orbit 4 0 1 1) (1 : ℝ) (fun _ => 0)
    ellipse_circle_pass
    (coplanar_of_normal_eq _ Real.sqrt_zero _ _ rfl)

/-- C7, counterexample to the claim as stated: for the ellipse `p = 3`,
`e = 1/2` against the coplanar circular orbit of radius 4 at threshold 1 the
apsis test passes, `f_peri = pi/2` is not approximately 0, the subject is closed
and `f_apo = acos(-4/5) < pi`, and yet `intersect_orbit` returns two intervals,
not one wrapping interval. -/
theorem C7_counterexample :
    ¬ (((conic_orbit 3 (1 / 2) false 0 1 1 : kepler_elements ℝ).closed = true ∧
          (conic_orbit 3 (1 / 2) false 0 1 1 : kepler_elements ℝ).apoapsis
            < (circular_orbit 4 0 1 1 : kepler_elements ℝ).periapsis - 1) ∨
        ((circular_orbit 4 0 1 1 : kepler_elements ℝ).closed = true ∧
          (circular_orbit 4 0 1 1 : kepler_elements ℝ).apoapsis
            < (conic_orbit 3 (1 / 2) false 0 1 1 : kepler_elements ℝ).periapsis - 1)) ∧
    coplanar ⟨Real.pi, Real.arccos, Real.arcsin, Real.sin, Real.sqrt⟩
      (conic_orbit 3 (1 / 2) false 0 1 1) (circular_orbit 4 0 1 1 : kepler_elements ℝ) = true ∧
    zero (altitude_f1 ⟨Real.pi, Real.arccos, Real.arcsin, Real.sin, Real.sqrt⟩
      (conic_orbit 3 (1 / 2) false 0 1 1) (circular_orbit 4 0 1 1) (1 : ℝ)) = false ∧
    (conic_orbit 3 (1 / 2) false 0 1 1 : kepler_elements ℝ).closed = true ∧
    altitude_f2 ⟨Real.pi, Real.arccos, Real.arcsin, Real.sin, Real.sqrt⟩
      (conic_orbit 3 (1 / 2) false 0 1 1) (circular_orbit 4 0 1 1) (1 : ℝ) < Real.pi ∧
    (intersect_orbit ⟨Real.pi, Real.arccos, Real.arcsin, Real.sin, Real.sqrt⟩
      (conic_orbit 3 (1 / 2) false 0 1 1) (circular_orbit 4 0 1 1) (1 : ℝ) (fun _ => 0)).1
      = 2 := by
  have hcop := coplanar_of_normal_eq ⟨Real.pi, Real.arccos, Real.arcsin, Real.sin, Real.sqrt⟩
    Real.sqrt_zero (conic_orbit 3 (1 / 2) false 0 1 1) (circular_orbit 4 0 1 1) rfl
  have hz := ellipse_circle_f1_not_zero
  have hf2 := ellipse_circle_f2_lt_pi
  refine ⟨ellipse_circle_pass, hcop, hz, by simp [conic_orbit]; norm_num, hf2, ?_⟩
  rw [intersect_orbit_coplanar _ _ _ _ _ ellipse_circle_pass hcop,
    if_neg (by rw [hz]; exact Bool.false_ne_true), if_neg (fun h => h.2 hf2)]

/-- C8, evaluation at the failing input: the hyperbola `p = 3`, `e = 2` against
a coplanar hyperbola (a non-closed reference) at threshold 1/2, where
`f_peri = 0`.  The outer angle is `f2 = acos(1/e) = acos(1/2)`, the returned
interval is `[-acos(1/2), acos(1/2)]`, and `acos(1/2)` is strictly below
`min(M_PI, acos(-1/e))`, the altitude angle `M_PI` clamped to the asymptote
`acos(-1/2)` as the claim has it. -/
theorem C8_hyperbolic_outer_angle :
    altitude_f2 ⟨Real.pi, Real.arccos, Real.arcsin, Real.sin, Real.sqrt⟩
      (conic_orbit 3 2 false 0 1 1) (conic_orbit 3 2 false 5 1 1) (1 / 2 : ℝ)
      = Real.arccos (1 / 2) ∧
    intersect_orbit ⟨Real.pi, Real.arccos, Real.arcsin, Real.sin, Real.sqrt⟩
      (conic_orbit 3 2 false 0 1 1) (conic_orbit 3 2 false 5 1 1) (1 / 2 : ℝ) (fun _ => 0)
      = (1, Function.update (Function.update (fun _ => 0) 0 (-Real.arccos (1 / 2)))
          1 (Real.arccos (1 / 2))) ∧
    Real.arccos (1 / 2) < min Real.pi (Real.arccos (-(1 / 2))) := by
  have hf2 := hyperbola_self_f2 5 (1 / 2)
  have hz : zero (altitude_f1 ⟨Real.pi, Real.arccos, Real.arcsin, Real.sin, Real.sqrt⟩
      (conic_orbit 3 2 false 0 1 1) (conic_orbit 3 2 false 5 1 1) (1 / 2 : ℝ)) = true := by
    rw [hyperbola_self_f1_small]
    exact zero_zero
  refine ⟨hf2, ?_, ?_⟩
  · rw [intersect_orbit_coplanar _ _ _ _ _ (hyperbola_self_pass 5 (1 / 2))
      (coplanar_of_normal_eq _ Real.sqrt_zero _ _ rfl), if_pos hz, hf2]
  · have h1 : Real.arccos (1 / 2) < Real.pi / 2 := Real.arccos_lt_pi_div_two.mpr (by norm_num)
    have h2 : ¬ Real.arccos (-(1 / 2)) ≤ Real.pi / 2 := by
      rw [Real.arccos_le_pi_div_two]
      norm_num
    exact lt_of_lt_of_le (by linarith [not_le.mp h2])
      (le_min_c (Real.arccos_le_pi _) (le_refl _))

end claims

section refinement

variable {α : Type}

/-- C9 (as amended). `intercept_minimize` returns false for every pair of
orbits, every threshold and every window: the refinement is not implemented and
no intercept is ever reported. -/
theorem C9_intercept_minimize_never_reports (orbit1 orbit2 : kepler_elements α)
    (threshold t0 t1 : α) :
    intercept_minimize orbit1 orbit2 threshold t0 t1 = false :=
  rfl

/-- C9, counterexample to the claim as stated: a circular orbit of radius 100
and itself are at separation 0 at every time of the window `[0, 10]`, and
`intercept_minimize` at threshold 1 does not return true. -/
theorem C9_counterexample :
    intercept_minimize (circular_orbit 100 0 1 1) (circular_orbit 100 0 1 1) (1 : ℚ) 0 10
      ≠ true := by
  simp [intercept_minimize]

end refinement

section scan

/-- C10, evaluation at the failing input: two circular orbits of radius 100 in
perpendicular planes, each with periapsis epoch 0, period `2 pi` and mean motion
1 (on a circular orbit the mean anomaly is the true anomaly, so the conversion
is the identity), scanned over `t0 = 2`, `t1 = 3`.  Each orbit has the node
windows `[-pi/2 - d, -pi/2 + d]` and `[pi/2 - d, pi/2 + d]` with `0 < d < 1/4`,
repeated every `2 pi`.  `intercept_orbit` returns true, although every window
of either orbit, in any period, ends before `t0` or starts at or after `t1`:
the window counted is `[pi/2 - d, pi/2 + d]`, before `t0`. -/
theorem C10_window_before_t0_reported :
    intercept_orbit ⟨Real.pi, Real.arccos, Real.arcsin, Real.sin, Real.sqrt⟩ (fun _ f => f)
      (circular_orbit 100 0 (2 * Real.pi) 1) (polar_circular_orbit 100 0 (2 * Real.pi) 1)
      2 3 (fun _ _ => 0) (fun _ _ => 0) 5 = some true ∧
    ∀ (s : scan_state ℝ) (o : ℕ), o < 2 → s.isect o < 2 →
      trange
        (orbits (circular_orbit 100 0 (2 * Real.pi) 1)
          (polar_circular_orbit 100 0 (2 * Real.pi) 1))
        (intercept_times ⟨Real.pi, Real.arccos, Real.arcsin, Real.sin, Real.sqrt⟩
          (fun _ f => f) (circular_orbit 100 0 (2 * Real.pi) 1)
          (polar_circular_orbit 100 0 (2 * Real.pi) 1) (fun _ _ => 0) (fun _ _ => 0))
        s o 1 < 2 ∨
      3 ≤ trange
        (orbits (circular_orbit 100 0 (2 * Real.pi) 1)
          (polar_circular_orbit 100 0 (2 * Real.pi) 1))
        (intercept_times ⟨Real.pi, Real.arccos, Real.arcsin, Real.sin, Real.sqrt⟩
          (fun _ f => f) (circular_orbit 100 0 (2 * Real.pi) 1)
          (polar_circular_orbit 100 0 (2 * Real.pi) 1) (fun _ _ => 0) (fun _ _ => 0))
        s o 0 := by
  have hb := crossing_delta_bounds
  have hpi3 := Real.pi_gt_three
  have hpi4 := Real.pi_lt_d2
  have hw := crossing_node_windows (fun _ _ => 0) (fun _ _ => 0)
  constructor
  · unfold intercept_orbit
    rw [crossing_intersects, if_neg (by norm_num), if_neg (by norm_num)]
    exact node_scan_counts _ _ _ _ 2 3 hw (crossing_initial_n_orbit 0)
      (crossing_initial_n_orbit 1) hb.1 (by linarith) (by linarith) (by norm_num)
      (by linarith)
  · intro s o ho hi
    exact node_windows_miss _ _ _ _ 2 3 hw hb.1 (by linarith) (by linarith) (by linarith)
      s o ho hi

end scan

section scan_order

/-- C11, evaluation at the failing input (that of C10): two circular orbits of
radius 100 in perpendicular planes, periapsis epoch 0, period `2 pi`, scanned
over `t0 = 2`, `t1 = 3`.  The loop is entered with `t = t0 = 2`; after its first
iteration the scan time is `-pi/2 + d`, the end of the first node window, which
is below 2: the scan time has decreased. -/
theorem C11_scan_time_decreases :
    (scan_after
      (orbits (circular_orbit 100 0 (2 * Real.pi) 1) (polar_circular_orbit 100 0 (2 * Real.pi) 1))
      (intercept_intersects ⟨Real.pi, Real.arccos, Real.arcsin, Real.sin, Real.sqrt⟩
        (circular_orbit 100 0 (2 * Real.pi) 1) (polar_circular_orbit 100 0 (2 * Real.pi) 1)
        (fun _ _ => 0))
      (intercept_times ⟨Real.pi, Real.arccos, Real.arcsin, Real.sin, Real.sqrt⟩
        (fun _ f => f) (circular_orbit 100 0 (2 * Real.pi) 1)
        (polar_circular_orbit 100 0 (2 * Real.pi) 1) (fun _ _ => 0) (fun _ _ => 0))
      2 3 0).map (fun s => s.t) = some 2 ∧
    (scan_after
      (orbits (circular_orbit 100 0 (2 * Real.pi) 1) (polar_circular_orbit 100 0 (2 * Real.pi) 1))
      (intercept_intersects ⟨Real.pi, Real.arccos, Real.arcsin, Real.sin, Real.sqrt⟩
        (circular_orbit 100 0 (2 * Real.pi) 1) (polar_circular_orbit 100 0 (2 * Real.pi) 1)
        (fun _ _ => 0))
      (intercept_times ⟨Real.pi, Real.arccos, Real.arcsin, Real.sin, Real.sqrt⟩
        (fun _ f => f) (circular_orbit 100 0 (2 * Real.pi) 1)
        (polar_circular_orbit 100 0 (2 * Real.pi) 1) (fun _ _ => 0) (fun _ _ => 0))
      2 3 1).map (fun s => s.t) =
      some (-(Real.pi / 2) +
        Real.arcsin (clamp (-1) 1 (Real.sin (1 / 2000) / Real.sin (Real.pi / 4)))) ∧
    -(Real.pi / 2) +
      Real.arcsin (clamp (-1) 1 (Real.sin (1 / 2000) / Real.sin (Real.pi / 4))) < 2 := by
  have hb := crossing_delta_bounds
  have hpi3 := Real.pi_gt_three
  have hpi4 := Real.pi_lt_d2
  have hw := crossing_node_windows (fun _ _ => 0) (fun _ _ => 0)
  refine ⟨rfl, ?_, by linarith⟩
  have e0 : (fun o => if o < 2 then initial_n_orbit
      (orbits (circular_orbit 100 0 (2 * Real.pi) 1)
        (polar_circular_orbit 100 0 (2 * Real.pi) 1) o) (2 : ℝ) else 0) 0 = 0 := by
    simp [crossing_initial_n_orbit]
  have e1 : (fun o => if o < 2 then initial_n_orbit
      (orbits (circular_orbit 100 0 (2 * Real.pi) 1)
        (polar_circular_orbit 100 0 (2 * Real.pi) 1) o) (2 : ℝ) else 0) 1 = 0 := by
    simp [crossing_initial_n_orbit]
  rw [crossing_intersects, scan_after, scan_after]
  dsimp only
  unfold scan_init
  rw [if_pos (by norm_num),
    node_scan_step1 _ _ (Real.pi / 2) _ 2 3 _ hw e0 e1 hb.1 (by linarith) (by linarith)
      (by norm_num)]
  rfl

end scan_order

section variant_count

variable {α : Type}

lemma scan_left_other (orbits : ℕ → kepler_elements α) (intersects : ℕ → ℕ)
    (B : ℕ → ℤ) (K : ℕ → ℕ) (s s' : scan_state α) (o : ℕ)
    (hn : s'.n_orbit o = s.n_orbit o) (hi : s'.isect o = s.isect o) :
    scan_left orbits intersects B K s' o = scan_left orbits intersects B K s o := by
  unfold scan_left
  rw [hn, hi]

lemma scan_variant_lt (orbits : ℕ → kepler_elements α) (intersects : ℕ → ℕ)
    (B : ℕ → ℤ) (K : ℕ → ℕ) (s s' : scan_state α) (a : ℕ) (ha : a = 0 ∨ a = 1)
    (hother : ∀ o, o ≠ a →
      scan_left orbits intersects B K s' o = scan_left orbits intersects B K s o)
    (hdec : scan_left orbits intersects B K s' a + 1 ≤ scan_left orbits intersects B K s a) :
    scan_variant orbits intersects B K s' + 1 ≤ scan_variant orbits intersects B K s := by
  unfold scan_variant
  rcases ha with rfl | rfl
  · have := hother 1 (by norm_num)
    omega
  · have := hother 0 (by norm_num)
    omega

end variant_count

section termination

variable {α : Type} [LinearOrderedField α]

lemma scan_advance_lt (orbits : ℕ → kepler_elements α) (times : ℕ → ℕ → α)
    (s : scan_state α) : scan_advance orbits times s = 0 ∨ scan_advance orbits times s = 1 := by
  unfold scan_advance
  split_ifs
  · exact Or.inl rfl
  · exact Or.inr rfl

/-- The loop body in terms of `scan_advance`. -/
lemma scan_step_eq (orbits : ℕ → kepler_elements α) (intersects : ℕ → ℕ)
    (times : ℕ → ℕ → α) (t1 : α) (s : scan_state α) :
    scan_step orbits intersects times t1 s =
      if s.isect (scan_advance orbits times s) + 1 = intersects (scan_advance orbits times s) then
        if (orbits (scan_advance orbits times s)).closed = true then
          (⟨t_end orbits times t1 s,
            Function.update s.n_orbit (scan_advance orbits times s)
              (int_add (s.n_orbit (scan_advance orbits times s)) 1),
            Function.update s.isect (scan_advance orbits times s) 0,
            if t_begin orbits times s < t_end orbits times t1 s then
              int_add s.num_intercepts 1
            else s.num_intercepts⟩, false)
        else
          (⟨t_end orbits times t1 s, s.n_orbit,
            Function.update s.isect (scan_advance orbits times s)
              (s.isect (scan_advance orbits times s) + 1),
            if t_begin orbits times s < t_end orbits times t1 s then
              int_add s.num_intercepts 1
            else s.num_intercepts⟩, true)
      else
        (⟨t_end orbits times t1 s, s.n_orbit,
          Function.update s.isect (scan_advance orbits times s)
            (s.isect (scan_advance orbits times s) + 1),
          if t_begin orbits times s < t_end orbits times t1 s then
              int_add s.num_intercepts 1
          else s.num_intercepts⟩, false) := by
  unfold scan_step scan_advance
  simp only [Function.update_same, Function.update_idem]
  split_ifs <;> simp_all

/-- When the window that ends first ends at or after `t1`, the scan time is
set to `t1`. -/
lemma t_end_eq_t1 (orbits : ℕ → kepler_elements α) (times : ℕ → ℕ → α) (t1 : α)
    (s : scan_state α)
    (h : t1 ≤ trange orbits times s (scan_advance orbits times s) 1) :
    t_end orbits times t1 s = t1 := by
  unfold t_end
  have hm : min (trange orbits times s 0 1) (trange orbits times s 1 1) =
      trange orbits times s (scan_advance orbits times s) 1 := by
    unfold min scan_advance
    split_ifs <;> rfl
  rw [hm]
  unfold min
  split_ifs with h1
  · rfl
  · exact le_antisymm (not_lt.mp h1) h

/-- A loop that is entered with the scan time at or after `t1` is left at
once, whatever the fuel. -/
lemma scan_loop_done (orbits : ℕ → kepler_elements α) (intersects : ℕ → ℕ)
    (times : ℕ → ℕ → α) (t1 : α) (fuel : ℕ) (s : scan_state α) (h : ¬ s.t < t1) :
    scan_loop orbits intersects times t1 fuel s = some s := by
  cases fuel <;> rw [scan_loop, if_neg h]

/-- At its target, window `K o` of the period `B o`, a closed orbit is on a
window that ends at or after `t1`. -/
lemma trange_target_ge (orbits : ℕ → kepler_elements α) (times : ℕ → ℕ → α) (t1 : α)
    (B : ℕ → ℤ) (K : ℕ → ℕ) (s : scan_state α) (o : ℕ) (hc : (orbits o).closed = true)
    (hg : t1 ≤ times o (2 * K o + 1) + (B o : α) * (orbits o).period)
    (hn : s.n_orbit o = B o) (hi : s.isect o = K o) :
    t1 ≤ trange orbits times s o 1 := by
  have htr : trange orbits times s o 1 =
      times o (2 * s.isect o + 1) + (s.n_orbit o : α) * (orbits o).period := by
    unfold trange
    simp [hc]
  rw [htr, hn, hi]
  exact hg

/-- One iteration of the loop body leaves the loop through `break`, or sets
the scan time to `t1`, or uses up one of the windows counted by
`scan_variant`.  Each closed orbit has a target, window `K o` of a period
`B o <= INT_MAX`, that ends at or after `t1`; as long as an orbit is before its
target its period counter is incremented without overflow, and at its target
it is advanced only by an iteration that sets the scan time to `t1`. -/
lemma scan_step_progress (orbits : ℕ → kepler_elements α) (intersects : ℕ → ℕ)
    (times : ℕ → ℕ → α) (t1 : α) (B : ℕ → ℤ) (K : ℕ → ℕ) (s : scan_state α)
    (hI : ∀ o, o < 2 → intersects o = 1 ∨ intersects o = 2)
    (hG : ∀ o, o < 2 → (orbits o).closed = true →
      B o ≤ 2 ^ 31 - 1 ∧ K o < intersects o ∧
      t1 ≤ times o (2 * K o + 1) + (B o : α) * (orbits o).period)
    (hinv : ∀ o, o < 2 → s.isect o < intersects o ∧ -2 ^ 31 ≤ s.n_orbit o ∧
      ((orbits o).closed = true →
        s.n_orbit o < B o ∨ (s.n_orbit o = B o ∧ s.isect o ≤ K o))) :
    (scan_step orbits intersects times t1 s).2 = true ∨
    (scan_step orbits intersects times t1 s).1.t = t1 ∨
    ((∀ o, o < 2 → (scan_step orbits intersects times t1 s).1.isect o < intersects o ∧
        -2 ^ 31 ≤ (scan_step orbits intersects times t1 s).1.n_orbit o ∧
        ((orbits o).closed = true →
          (scan_step orbits intersects times t1 s).1.n_orbit o < B o ∨
          ((scan_step orbits intersects times t1 s).1.n_orbit o = B o ∧
            (scan_step orbits intersects times t1 s).1.isect o ≤ K o))) ∧
      scan_variant orbits intersects B K (scan_step orbits intersects times t1 s).1 + 1 ≤
        scan_variant orbits intersects B K s) := by
  have ha := scan_advance_lt orbits times s
  have ha2 : scan_advance orbits times s < 2 := by omega
  obtain ⟨hia, hna, hpa⟩ := hinv _ ha2
  have hIa := hI _ ha2
  by_cases hc : (orbits (scan_advance orbits times s)).closed = true
  · obtain ⟨hB, hK, hg⟩ := hG _ ha2 hc
    have hp := hpa hc
    by_cases htgt : s.n_orbit (scan_advance orbits times s) = B (scan_advance orbits times s) ∧
        s.isect (scan_advance orbits times s) = K (scan_advance orbits times s)
    · right
      left
      have hte := t_end_eq_t1 _ _ _ _ (trange_target_ge _ _ _ B K _ _ hc hg htgt.1 htgt.2)
      rw [scan_step_eq]
      split_ifs <;> exact hte
    · have hXa : s.n_orbit (scan_advance orbits times s) < B (scan_advance orbits times s) →
          (intersects (scan_advance orbits times s) : ℤ) ≤
            (B (scan_advance orbits times s) - s.n_orbit (scan_advance orbits times s)) *
              (intersects (scan_advance orbits times s) : ℤ) := by
        intro hlt
        have := mul_le_mul_of_nonneg_right
          (show (1 : ℤ) ≤ B (scan_advance orbits times s) -
            s.n_orbit (scan_advance orbits times s) by omega)
          (show (0 : ℤ) ≤ (intersects (scan_advance orbits times s) : ℤ) by omega)
        rw [one_mul] at this
        exact this
      have hXb : s.n_orbit (scan_advance orbits times s) = B (scan_advance orbits times s) →
          (B (scan_advance orbits times s) - s.n_orbit (scan_advance orbits times s)) *
            (intersects (scan_advance orbits times s) : ℤ) = 0 := by
        intro heq
        rw [heq, sub_self, zero_mul]
      rw [scan_step_eq]
      by_cases h1 : s.isect (scan_advance orbits times s) + 1 =
          intersects (scan_advance orbits times s)
      · have hlt : s.n_orbit (scan_advance orbits times s) < B (scan_advance orbits times s) := by
          rcases hp with h | h
          · exact h
          · omega
        have hadd : int_add (s.n_orbit (scan_advance orbits times s)) 1 =
            s.n_orbit (scan_advance orbits times s) + 1 :=
          int_add_one _ hna (by omega)
        rw [if_pos h1, if_pos hc]
        right
        right
        constructor
        · intro o ho
          dsimp only
          by_cases hoa : o = scan_advance orbits times s
          · rw [hoa, Function.update_same, Function.update_same, hadd]
            exact ⟨by omega, by omega, fun _ => by omega⟩
          · rw [Function.update_noteq hoa, Function.update_noteq hoa]
            exact hinv o ho
        · refine scan_variant_lt _ _ _ _ _ _ _ ha ?_ ?_
          · intro o hoa
            exact scan_left_other _ _ _ _ _ _ _ (Function.update_noteq hoa _ _)
              (Function.update_noteq hoa _ _)
          · unfold scan_left
            rw [if_pos hc, if_pos hc]
            dsimp only
            rw [Function.update_same, Function.update_same, hadd]
            have hX := hXa hlt
            have hY : (B (scan_advance orbits times s) -
                (s.n_orbit (scan_advance orbits times s) + 1)) *
                (intersects (scan_advance orbits times s) : ℤ) =
                (B (scan_advance orbits times s) -
                  s.n_orbit (scan_advance orbits times s)) *
                  (intersects (scan_advance orbits times s) : ℤ) -
                (intersects (scan_advance orbits times s) : ℤ) := by ring
            rw [hY]
            generalize (B (scan_advance orbits times s) -
              s.n_orbit (scan_advance orbits times s)) *
              (intersects (scan_advance orbits times s) : ℤ) = X at hX ⊢
            push_cast
            omega
      · rw [if_neg h1]
        right
        right
        constructor
        · intro o ho
          dsimp only
          by_cases hoa : o = scan_advance orbits times s
          · rw [hoa, Function.update_same]
            exact ⟨by omega, hna, fun _ => by omega⟩
          · rw [Function.update_noteq hoa]
            exact hinv o ho
        · refine scan_variant_lt _ _ _ _ _ _ _ ha ?_ ?_
          · intro o hoa
            exact scan_left_other _ _ _ _ _ _ _ rfl (Function.update_noteq hoa _ _)
          · unfold scan_left
            rw [if_pos hc, if_pos hc]
            dsimp only
            rw [Function.update_same]
            have hX1 := hXa
            have hX2 := hXb
            generalize (B (scan_advance orbits times s) -
              s.n_orbit (scan_advance orbits times s)) *
              (intersects (scan_advance orbits times s) : ℤ) = X at hX1 hX2 ⊢
            have hcase : (s.n_orbit (scan_advance orbits times s) <
                  B (scan_advance orbits times s) ∧
                  (intersects (scan_advance orbits times s) : ℤ) ≤ X) ∨
                (s.n_orbit (scan_advance orbits times s) = B (scan_advance orbits times s) ∧
                  X = 0) := by
              rcases hp with h | h
              · exact Or.inl ⟨h, hX1 h⟩
              · exact Or.inr ⟨h.1, hX2 h.1⟩
            push_cast
            omega
  · rw [scan_step_eq]
    by_cases h1 : s.isect (scan_advance orbits times s) + 1 =
        intersects (scan_advance orbits times s)
    · rw [if_pos h1, if_neg hc]
      left
      rfl
    · rw [if_neg h1]
      right
      right
      constructor
      · intro o ho
        dsimp only
        by_cases hoa : o = scan_advance orbits times s
        · rw [hoa, Function.update_same]
          exact ⟨by omega, hna, fun h => absurd h hc⟩
        · rw [Function.update_noteq hoa]
          exact hinv o ho
      · refine scan_variant_lt _ _ _ _ _ _ _ ha ?_ ?_
        · intro o hoa
          exact scan_left_other _ _ _ _ _ _ _ rfl (Function.update_noteq hoa _ _)
        · unfold scan_left
          rw [if_neg hc, if_neg hc]
          dsimp only
          rw [Function.update_same]
          omega

/-- Fuel for the loop: one more than the variant is enough. -/
lemma scan_loop_total (orbits : ℕ → kepler_elements α) (intersects : ℕ → ℕ)
    (times : ℕ → ℕ → α) (t1 : α) (B : ℕ → ℤ) (K : ℕ → ℕ)
    (hI : ∀ o, o < 2 → intersects o = 1 ∨ intersects o = 2)
    (hG : ∀ o, o < 2 → (orbits o).closed = true →
      B o ≤ 2 ^ 31 - 1 ∧ K o < intersects o ∧
      t1 ≤ times o (2 * K o + 1) + (B o : α) * (orbits o).period) :
    ∀ (n : ℕ) (s : scan_state α),
      (∀ o, o < 2 → s.isect o < intersects o ∧ -2 ^ 31 ≤ s.n_orbit o ∧
        ((orbits o).closed = true →
          s.n_orbit o < B o ∨ (s.n_orbit o = B o ∧ s.isect o ≤ K o))) →
      scan_variant orbits intersects B K s ≤ n →
      ∃ r, scan_loop orbits intersects times t1 (n + 1) s = some r := by
  intro n
  induction n with
  | zero =>
    intro s hinv hv
    rw [scan_loop]
    by_cases ht : s.t < t1
    · rw [if_pos ht]
      dsimp only
      by_cases hb : (scan_step orbits intersects times t1 s).2 = true
      · rw [if_pos hb]
        exact ⟨_, rfl⟩
      · rw [if_neg hb]
        rcases scan_step_progress orbits intersects times t1 B K s hI hG hinv with h | h | h
        · exact absurd h hb
        · exact ⟨_, scan_loop_done _ _ _ _ _ _ (by rw [h]; exact lt_irrefl _)⟩
        · omega
    · rw [if_neg ht]
      exact ⟨_, rfl⟩
  | succ n ih =>
    intro s hinv hv
    rw [scan_loop]
    by_cases ht : s.t < t1
    · rw [if_pos ht]
      dsimp only
      by_cases hb : (scan_step orbits intersects times t1 s).2 = true
      · rw [if_pos hb]
        exact ⟨_, rfl⟩
      · rw [if_neg hb]
        rcases scan_step_progress orbits intersects times t1 B K s hI hG hinv with h | h | h
        · exact absurd h hb
        · exact ⟨_, scan_loop_done _ _ _ _ _ _ (by rw [h]; exact lt_irrefl _)⟩
        · exact ih _ h.1 (by omega)
    · rw [if_neg ht]
      exact ⟨_, rfl⟩

variable [FloorRing α]

/-- The variables of the loop on entry are in range: the window cursors are 0
and the period counters are values of `int`. -/
lemma scan_init_range (orbits : ℕ → kepler_elements α) (intersects : ℕ → ℕ) (t0 : α)
    (hI : ∀ o, o < 2 → intersects o = 1 ∨ intersects o = 2) (o : ℕ) (ho : o < 2) :
    (scan_init orbits t0).isect o < intersects o ∧
    -2 ^ 31 ≤ (scan_init orbits t0).n_orbit o ∧ (scan_init orbits t0).n_orbit o < 2 ^ 31 := by
  have := hI o ho
  refine ⟨by show 0 < intersects o; omega, ?_⟩
  show -2 ^ 31 ≤ (if o < 2 then initial_n_orbit (orbits o) t0 else 0) ∧
    (if o < 2 then initial_n_orbit (orbits o) t0 else 0) < 2 ^ 31
  rw [if_pos ho]
  unfold initial_n_orbit
  by_cases hc : (orbits o).closed = true
  · rw [if_pos hc]
    exact int_of_double_range _
  · rw [if_neg hc]
    norm_num

/-- The loop started from the initial variables is left when each closed orbit
has a period `> 0` and a window that, in the period `INT_MAX`, ends at or after
`t1`: the target of the orbit is that window, in the first period from which it
ends at or after `t1`, or in the initial period if that is later. -/
lemma scan_loop_init_total (orbits : ℕ → kepler_elements α) (intersects : ℕ → ℕ)
    (times : ℕ → ℕ → α) (t0 t1 : α)
    (hT : ∀ o, o < 2 → (orbits o).closed = true → 0 < (orbits o).period)
    (hI : ∀ o, o < 2 → intersects o = 1 ∨ intersects o = 2)
    (hW : ∀ o, o < 2 → (orbits o).closed = true → ∃ k, k < intersects o ∧
      t1 ≤ times o (2 * k + 1) + (2 ^ 31 - 1) * (orbits o).period) :
    ∃ (fuel : ℕ) (r : scan_state α),
      scan_loop orbits intersects times t1 fuel (scan_init orbits t0) = some r := by
  classical
  have hK : ∀ o, ∃ k, o < 2 → (orbits o).closed = true → k < intersects o ∧
      t1 ≤ times o (2 * k + 1) + (2 ^ 31 - 1) * (orbits o).period := by
    intro o
    by_cases h : o < 2 ∧ (orbits o).closed = true
    · obtain ⟨k, hk⟩ := hW o h.1 h.2
      exact ⟨k, fun _ _ => hk⟩
    · exact ⟨0, fun h1 h2 => absurd ⟨h1, h2⟩ h⟩
  choose K hKp using hK
  have hG : ∀ o, o < 2 → (orbits o).closed = true →
      (⌈(t1 - times o (2 * K o + 1)) / (orbits o).period⌉ ⊔ (scan_init orbits t0).n_orbit o)
        ≤ 2 ^ 31 - 1 ∧ K o < intersects o ∧
      t1 ≤ times o (2 * K o + 1) +
        ((⌈(t1 - times o (2 * K o + 1)) / (orbits o).period⌉ ⊔
          (scan_init orbits t0).n_orbit o : ℤ) : α) * (orbits o).period := by
    intro o ho hc
    obtain ⟨hk1, hk2⟩ := hKp o ho hc
    have hTo := hT o ho hc
    have hr := (scan_init_range orbits intersects t0 hI o ho).2.2
    refine ⟨sup_le ?_ (by omega), hk1, ?_⟩
    · rw [Int.ceil_le, div_le_iff₀ hTo]
      push_cast
      linarith
    · have h1 : (t1 - times o (2 * K o + 1)) / (orbits o).period ≤
          ((⌈(t1 - times o (2 * K o + 1)) / (orbits o).period⌉ ⊔
            (scan_init orbits t0).n_orbit o : ℤ) : α) :=
        le_trans (Int.le_ceil _) (by exact_mod_cast le_sup_left)
      rw [div_le_iff₀ hTo] at h1
      linarith
  obtain ⟨r, hr⟩ := scan_loop_total orbits intersects times t1
    (fun o => ⌈(t1 - times o (2 * K o + 1)) / (orbits o).period⌉ ⊔
      (scan_init orbits t0).n_orbit o) K hI hG _ (scan_init orbits t0)
    (fun o ho => ⟨(scan_init_range orbits intersects t0 hI o ho).1,
      (scan_init_range orbits intersects t0 hI o ho).2.1, fun _ => by
        have hle : (scan_init orbits t0).n_orbit o ≤
            ⌈(t1 - times o (2 * K o + 1)) / (orbits o).period⌉ ⊔
              (scan_init orbits t0).n_orbit o := le_sup_right
        have h0 : (scan_init orbits t0).isect o = 0 := rfl
        rcases lt_or_eq_of_le hle with h | h
        · exact Or.inl h
        · exact Or.inr ⟨h, by rw [h0]; exact Nat.zero_le _⟩⟩)
    (le_refl _)
  exact ⟨_, r, hr⟩

lemma intersect_orbit_fst_le (M : Libm α) (orbit1 orbit2 : kepler_elements α)
    (threshold : α) (fs : ℕ → α) :
    (intersect_orbit M orbit1 orbit2 threshold fs).1 ≤ 2 := by
  unfold intersect_orbit
  dsimp only
  split_ifs
  all_goals first
    | exact merge_or_count_le _
    | exact intersect_apoapsis_le _ _ _ _ _ _
    | simp

/-- The function `intercept_orbit` returns: when each closed one of the two
orbits has a period `> 0` and a window that can reach `t1` within the range of
the period counter, some fuel gives a result. -/
lemma intercept_orbit_total (M : Libm α) (kepler_anomaly_true_to_mean : α → α → α)
    (orbit1 orbit2 : kepler_elements α) (t0 t1 : α) (fs times : ℕ → ℕ → α)
    (h1 : orbit1.closed = true → 0 < orbit1.period)
    (h2 : orbit2.closed = true → 0 < orbit2.period)
    (hW : ∀ o, o < 2 → (orbits orbit1 orbit2 o).closed = true →
      ∃ k, k < intercept_intersects M orbit1 orbit2 fs o ∧
        t1 ≤ intercept_times M kepler_anomaly_true_to_mean orbit1 orbit2 fs times o (2 * k + 1) +
          (2 ^ 31 - 1) * (orbits orbit1 orbit2 o).period) :
    ∃ (fuel : ℕ) (b : Bool),
      intercept_orbit M kepler_anomaly_true_to_mean orbit1 orbit2 t0 t1 fs times fuel
        = some b := by
  by_cases c0 : intercept_intersects M orbit1 orbit2 fs 0 = 0
  · exact ⟨0, false, by unfold intercept_orbit; rw [if_pos c0]⟩
  · by_cases c1 : intercept_intersects M orbit1 orbit2 fs 1 = 0
    · exact ⟨0, false, by unfold intercept_orbit; rw [if_neg c0, if_pos c1]⟩
    · have hT : ∀ o, o < 2 → (orbits orbit1 orbit2 o).closed = true →
          0 < (orbits orbit1 orbit2 o).period := by
        intro o _
        unfold orbits
        split_ifs
        · exact h1
        · exact h2
      have hI : ∀ o, o < 2 → intercept_intersects M orbit1 orbit2 fs o = 1 ∨
          intercept_intersects M orbit1 orbit2 fs o = 2 := by
        intro o ho
        have hle : intercept_intersects M orbit1 orbit2 fs o ≤ 2 := by
          unfold intercept_intersects
          split_ifs <;> exact intersect_orbit_fst_le _ _ _ _ _
        have hne : intercept_intersects M orbit1 orbit2 fs o ≠ 0 := by
          have : o = 0 ∨ o = 1 := by omega
          rcases this with rfl | rfl
          · exact c0
          · exact c1
        omega
      obtain ⟨fuel, r, hr⟩ := scan_loop_init_total (orbits orbit1 orbit2)
        (intercept_intersects M orbit1 orbit2 fs)
        (intercept_times M kepler_anomaly_true_to_mean orbit1 orbit2 fs times) t0 t1 hT hI hW
      exact ⟨fuel, decide (r.num_intercepts ≠ 0), by
        unfold intercept_orbit
        rw [if_neg c0, if_neg c1, hr]
        rfl⟩

end termination

section termination_example

end termination_example

section normalisation

variable {α : Type} [LinearOrderedField α] [FloorRing α]

/-- C13 (as amended). For `M_PI > 0` and every `x`, `angle_clamp x` lies in the
half-open range `[-M_PI, M_PI)`, closed at `-M_PI` and open at `M_PI`, and
`angle_clamp x - x` is an integer multiple of `2 * M_PI`. -/
theorem C13_angle_clamp_half_open (M : Libm α) (hpi : 0 < M.M_PI) (x : α) :
    -M.M_PI ≤ angle_clamp M x ∧ angle_clamp M x < M.M_PI ∧
    ∃ k : ℤ, angle_clamp M x - x = (k : α) * (2 * M.M_PI) := by
  have h2pi : 0 < 2 * M.M_PI := by linarith
  have h0 := Int.fract_nonneg ((x + M.M_PI) / (2 * M.M_PI))
  have h1 := Int.fract_lt_one ((x + M.M_PI) / (2 * M.M_PI))
  rw [Int.fract] at h0 h1
  unfold angle_clamp
  dsimp only
  refine ⟨by nlinarith, by nlinarith, -⌊(x + M.M_PI) / (2 * M.M_PI)⌋, ?_⟩
  rw [mul_sub, mul_div_cancel₀ _ h2pi.ne']
  push_cast
  ring

/-- C13, witness: the libm of the reals at `x = 7`. -/
theorem C13_angle_clamp_half_open_witness :
    (0 : ℝ) < Real.pi ∧
    (-Real.pi ≤ angle_clamp ⟨Real.pi, Real.arccos, Real.arcsin, Real.sin, Real.sqrt⟩ 7 ∧
      angle_clamp ⟨Real.pi, Real.arccos, Real.arcsin, Real.sin, Real.sqrt⟩ 7 < Real.pi ∧
      ∃ k : ℤ, angle_clamp ⟨Real.pi, Real.arccos, Real.arcsin, Real.sin, Real.sqrt⟩ 7 - 7 =
        (k : ℝ) * (2 * Real.pi)) :=
  ⟨Real.pi_pos,
    C13_angle_clamp_half_open ⟨Real.pi, Real.arccos, Real.arcsin, Real.sin, Real.sqrt⟩
      Real.pi_pos 7⟩

/-- C13, counterexample to the claim as stated: `angle_clamp(pi) = -pi`, which
is outside `(-pi, pi]`; the angle `pi` itself, which is in `(-pi, pi]`, is moved. -/
theorem C13_counterexample :
    angle_clamp ⟨Real.pi, Real.arccos, Real.arcsin, Real.sin, Real.sqrt⟩ Real.pi = -Real.pi ∧
    ¬ (-Real.pi < angle_clamp ⟨Real.pi, Real.arccos, Real.arcsin, Real.sin, Real.sqrt⟩ Real.pi ∧
      angle_clamp ⟨Real.pi, Real.arccos, Real.arcsin, Real.sin, Real.sqrt⟩ Real.pi ≤ Real.pi) := by
  have hpi := Real.pi_pos
  have key : angle_clamp ⟨Real.pi, Real.arccos, Real.arcsin, Real.sin, Real.sqrt⟩ Real.pi
      = -Real.pi := by
    unfold angle_clamp
    dsimp only
    rw [show (Real.pi + Real.pi) / (2 * Real.pi) = ((1 : ℤ) : ℝ) by
      rw [Int.cast_one]; field_simp; ring, Int.floor_intCast]
    ring
  refine ⟨key, ?_⟩
  rw [key]
  intro h
  exact lt_irrefl _ h.1

end normalisation

section radius

variable {α : Type} [LinearOrderedField α]

lemma clamp_of_mem (x : α) (h1 : -1 ≤ x) (h2 : x ≤ 1) : clamp (-1) 1 x = x := by
  unfold clamp
  rw [if_neg (not_lt.mpr h1), if_neg (not_lt.mpr h2)]

/-- The argument of `acos` in `true_anomaly_from_radius` is in `[-1, 1]` at a
radius attained by the orbit. -/
lemma cos_arg_attained (p e r : α) (hp : 0 < p) (he : 0 < e)
    (h1 : p / (1 + e) ≤ r) (h2 : e < 1 → r ≤ p / (1 - e)) :
    0 < r ∧ -1 ≤ (p / r - 1) / e ∧ (p / r - 1) / e ≤ 1 := by
  have h1e : 0 < 1 + e := by linarith
  have hr : 0 < r := lt_of_lt_of_le (div_pos hp h1e) h1
  refine ⟨hr, ?_, ?_⟩
  · rw [le_div_iff₀ he]
    by_cases he1 : e < 1
    · have h3 := h2 he1
      have h1me : 0 < 1 - e := by linarith
      rw [le_div_iff₀ h1me] at h3
      have : 1 - e ≤ p / r := by
        rw [le_div_iff₀ hr]
        linarith
      linarith
    · have : 0 < p / r := div_pos hp hr
      linarith
  · rw [div_le_iff₀ he]
    rw [div_le_iff₀ h1e] at h1
    have : p / r ≤ 1 + e := by
      rw [div_le_iff₀ hr]
      linarith
    linarith

/-- The part of C14 that holds.  For an orbit with `p > 0` and `e > 0`, with
`acos` the inverse of `cos` on `[-1, 1]` that takes its values in `[0, M_PI]`:
at every radius `r` attained by the orbit (`p/(1+e) <= r`, and `r <= p/(1-e)`
when `e < 1`) the angle `f = true_anomaly_from_radius(orbit, r)` is
`acos(clamp(-1, 1, (p/r - 1)/e))`, lies in `[0, M_PI]` and gives the radius
back, `p / (1 + e cos f) = r`; at a radius `0 < r` below the periapsis radius
the angle is 0, and on a closed orbit (`e < 1`) at a radius above the apoapsis
radius it is `M_PI`. -/
lemma radius_round_trip (M : Libm α) (cos : α → α)
    (hacos : ∀ x, 0 ≤ M.acos x ∧ M.acos x ≤ M.M_PI)
    (hcos : ∀ x, -1 ≤ x → x ≤ 1 → cos (M.acos x) = x)
    (hacos1 : M.acos 1 = 0) (hacosm1 : M.acos (-1) = M.M_PI)
    (elements : kepler_elements α) (r : α)
    (hp : 0 < elements.semi_latus_rectum) (he : 0 < elements.eccentricity) :
    (elements.semi_latus_rectum / (1 + elements.eccentricity) ≤ r →
      (elements.eccentricity < 1 →
        r ≤ elements.semi_latus_rectum / (1 - elements.eccentricity)) →
      true_anomaly_from_radius M elements r =
        M.acos (clamp (-1) 1
          ((elements.semi_latus_rectum / r - 1) / elements.eccentricity)) ∧
      0 ≤ true_anomaly_from_radius M elements r ∧
      true_anomaly_from_radius M elements r ≤ M.M_PI ∧
      true_radius cos elements.semi_latus_rectum elements.eccentricity
        (true_anomaly_from_radius M elements r) = r) ∧
    (0 < r → r < elements.semi_latus_rectum / (1 + elements.eccentricity) →
      true_anomaly_from_radius M elements r = 0) ∧
    (elements.eccentricity < 1 →
      elements.semi_latus_rectum / (1 - elements.eccentricity) < r →
      true_anomaly_from_radius M elements r = M.M_PI) := by
  refine ⟨?_, ?_, ?_⟩
  · intro h1 h2
    obtain ⟨hr, c1, c2⟩ := cos_arg_attained _ _ r hp he h1 h2
    refine ⟨rfl, (hacos _).1, (hacos _).2, ?_⟩
    unfold true_radius true_anomaly_from_radius
    dsimp only
    rw [clamp_of_mem _ c1 c2, hcos _ c1 c2, mul_div_cancel₀ _ he.ne']
    have hpr : elements.semi_latus_rectum / r ≠ 0 := (div_pos hp hr).ne'
    rw [add_sub_cancel, div_div_cancel₀ hp.ne']
  · intro hr h1
    have h1e : 0 < 1 + elements.eccentricity := by linarith
    rw [lt_div_iff₀ h1e] at h1
    have h3 : 1 + elements.eccentricity < elements.semi_latus_rectum / r := by
      rw [lt_div_iff₀ hr]
      linarith
    have h4 : 1 < (elements.semi_latus_rectum / r - 1) / elements.eccentricity := by
      rw [lt_div_iff₀ he]
      linarith
    unfold true_anomaly_from_radius
    dsimp only
    rw [clamp_of_one_lt _ h4, hacos1]
  · intro he1 h1
    have h1me : 0 < 1 - elements.eccentricity := by linarith
    have hr : 0 < r := lt_trans (div_pos hp h1me) h1
    rw [div_lt_iff₀ h1me] at h1
    have h3 : elements.semi_latus_rectum / r < 1 - elements.eccentricity := by
      rw [div_lt_iff₀ hr]
      linarith
    have h4 : (elements.semi_latus_rectum / r - 1) / elements.eccentricity < -1 := by
      rw [div_lt_iff₀ he]
      linarith
    unfold true_anomaly_from_radius
    dsimp only
    rw [clamp_of_lt_neg_one _ h4, hacosm1]

/-- C14, evaluation at the failing input: the ellipse `p = 3`, `e = 1/2`
(periapsis radius 2) at `r = -1`, which is below the periapsis radius.  The
argument `(p/r - 1)/e = -8` is clamped to `-1` and the function returns
`acos(-1) = pi`, not 0.  This is the value `intersect_orbit` asks for when the
reference has periapsis radius 1 and the threshold is 2: `f1 = pi`. -/
theorem C14_negative_radius_returns_pi :
    (-1 : ℝ) < (conic_orbit 3 (1 / 2) false 0 1 1 : kepler_elements ℝ).semi_latus_rectum /
      (1 + (conic_orbit 3 (1 / 2) false 0 1 1 : kepler_elements ℝ).eccentricity) ∧
    true_anomaly_from_radius ⟨Real.pi, Real.arccos, Real.arcsin, Real.sin, Real.sqrt⟩
      (conic_orbit 3 (1 / 2) false 0 1 1) (-1 : ℝ) = Real.pi ∧
    true_anomaly_from_radius ⟨Real.pi, Real.arccos, Real.arcsin, Real.sin, Real.sqrt⟩
      (conic_orbit 3 (1 / 2) false 0 1 1) (-1 : ℝ) ≠ 0 ∧
    altitude_f1 ⟨Real.pi, Real.arccos, Real.arcsin, Real.sin, Real.sqrt⟩
      (conic_orbit 3 (1 / 2) false 0 1 1) (circular_orbit 1 0 1 1) (2 : ℝ) = Real.pi := by
  have hv : true_anomaly_from_radius ⟨Real.pi, Real.arccos, Real.arcsin, Real.sin, Real.sqrt⟩
      (conic_orbit 3 (1 / 2) false 0 1 1) (-1 : ℝ) = Real.pi := by
    unfold true_anomaly_from_radius
    simp only [conic_orbit]
    rw [clamp_of_lt_neg_one _ (by norm_num)]
    exact Real.arccos_neg_one
  refine ⟨?_, hv, ?_, ?_⟩
  · simp only [conic_orbit]
    norm_num
  · rw [hv]
    exact Real.pi_ne_zero
  · have hr : (circular_orbit 1 0 1 1 : kepler_elements ℝ).periapsis - 2 = -1 := by
      simp only [circular_orbit]
      norm_num
    unfold altitude_f1
    rw [if_pos (show (!(conic_orbit 3 (1 / 2) false 0 1 1 : kepler_elements ℝ).circular) = true
      from rfl), hr]
    exact hv

end radius

section first_window

variable {α : Type} [LinearOrderedField α] [FloorRing α]

/-- The initial period counter of a closed orbit with period `T > 0` is
`(t0 - t_p)/T` rounded to the nearest integer, a tie away from zero, when that
integer is in the range of `int`, that is when
`-2^31 - 1/2 < (t0 - t_p)/T < 2^31 - 1/2`. -/
lemma initial_n_orbit_nearest (orbit : kepler_elements α) (t0 : α)
    (hT : 0 < orbit.period) (hc : orbit.closed = true)
    (hlo : -2 ^ 31 - 1 / 2 < (t0 - orbit.periapsis_time) / orbit.period)
    (hhi : (t0 - orbit.periapsis_time) / orbit.period < 2 ^ 31 - 1 / 2) :
    |(initial_n_orbit orbit t0 : α) - (t0 - orbit.periapsis_time) / orbit.period| ≤ 1 / 2 ∧
    (orbit.periapsis_time ≤ t0 →
      (t0 - orbit.periapsis_time) / orbit.period - 1 / 2 < (initial_n_orbit orbit t0 : α)) ∧
    (t0 < orbit.periapsis_time →
      (initial_n_orbit orbit t0 : α) < (t0 - orbit.periapsis_time) / orbit.period + 1 / 2) := by
  unfold initial_n_orbit trunc
  rw [if_pos hc]
  by_cases hp : orbit.periapsis_time > t0
  · rw [if_pos hp]
    have hx : (t0 - orbit.periapsis_time) / orbit.period < 0 :=
      div_neg_of_neg_of_pos (by linarith) hT
    rw [if_neg (by rw [not_le]; linarith)]
    have c1 := Int.le_ceil ((t0 - orbit.periapsis_time) / orbit.period + -(1 / 2))
    have c2 := Int.ceil_lt_add_one ((t0 - orbit.periapsis_time) / orbit.period + -(1 / 2))
    have hlo' : -2 ^ 31 ≤ ⌈(t0 - orbit.periapsis_time) / orbit.period + -(1 / 2)⌉ := by
      by_contra hcon
      have h1 : ⌈(t0 - orbit.periapsis_time) / orbit.period + -(1 / 2)⌉ ≤ -2 ^ 31 - 1 := by
        omega
      have h2 : (⌈(t0 - orbit.periapsis_time) / orbit.period + -(1 / 2)⌉ : α) ≤
          -2 ^ 31 - 1 := by exact_mod_cast h1
      linarith
    have hhi' : ⌈(t0 - orbit.periapsis_time) / orbit.period + -(1 / 2)⌉ < 2 ^ 31 := by
      have : ⌈(t0 - orbit.periapsis_time) / orbit.period + -(1 / 2)⌉ ≤ 0 := by
        rw [Int.ceil_le]
        push_cast
        linarith
      exact lt_of_le_of_lt this (by norm_num)
    rw [int_of_double_of_mem _ hlo' hhi']
    refine ⟨?_, fun h => absurd hp (not_lt.mpr h), fun _ => by linarith⟩
    rw [abs_le]
    constructor <;> linarith
  · rw [if_neg hp]
    have hx : 0 ≤ (t0 - orbit.periapsis_time) / orbit.period :=
      div_nonneg (by linarith [not_lt.mp hp]) hT.le
    rw [if_pos (by linarith)]
    have c1 := Int.floor_le ((t0 - orbit.periapsis_time) / orbit.period + 1 / 2)
    have c2 := Int.lt_floor_add_one ((t0 - orbit.periapsis_time) / orbit.period + 1 / 2)
    have hlo' : -2 ^ 31 ≤ ⌊(t0 - orbit.periapsis_time) / orbit.period + 1 / 2⌋ := by
      have : 0 ≤ ⌊(t0 - orbit.periapsis_time) / orbit.period + 1 / 2⌋ :=
        Int.floor_nonneg.mpr (by linarith)
      exact le_trans (by norm_num) this
    have hhi' : ⌊(t0 - orbit.periapsis_time) / orbit.period + 1 / 2⌋ < 2 ^ 31 := by
      rw [Int.floor_lt]
      push_cast
      linarith
    rw [int_of_double_of_mem _ hlo' hhi']
    refine ⟨?_, fun _ => by linarith, fun h => absurd h hp⟩
    rw [abs_le]
    constructor <;> linarith

/-- The range condition of `initial_n_orbit_nearest` is necessary: when the
initial period counter of a closed orbit with period `T > 0` is `(t0 - t_p)/T`
rounded to the nearest integer, a tie away from zero, that number of periods
is in `(-2^31 - 1/2, 2^31 - 1/2)`. -/
lemma initial_n_orbit_nearest_range (orbit : kepler_elements α) (t0 : α)
    (hT : 0 < orbit.period) (hc : orbit.closed = true)
    (h1 : |(initial_n_orbit orbit t0 : α) - (t0 - orbit.periapsis_time) / orbit.period| ≤ 1 / 2)
    (h3 : t0 < orbit.periapsis_time →
      (initial_n_orbit orbit t0 : α) < (t0 - orbit.periapsis_time) / orbit.period + 1 / 2) :
    -2 ^ 31 - 1 / 2 < (t0 - orbit.periapsis_time) / orbit.period ∧
    (t0 - orbit.periapsis_time) / orbit.period < 2 ^ 31 - 1 / 2 := by
  have hn1 : -2 ^ 31 ≤ initial_n_orbit orbit t0 := by
    unfold initial_n_orbit
    rw [if_pos hc]
    exact (int_of_double_range _).1
  have hn1' : (-2 ^ 31 : α) ≤ (initial_n_orbit orbit t0 : α) := by exact_mod_cast hn1
  constructor
  · by_contra hcon
    rw [not_lt] at hcon
    have hx : (t0 - orbit.periapsis_time) / orbit.period < 0 := by
      have : (0 : α) < 2 ^ 31 := by positivity
      linarith
    have hp : t0 < orbit.periapsis_time := by
      by_contra hge
      rw [not_lt] at hge
      have := div_nonneg (sub_nonneg.mpr hge) hT.le
      linarith
    have := h3 hp
    linarith
  · by_contra hcon
    rw [not_lt] at hcon
    have hx : 0 ≤ (t0 - orbit.periapsis_time) / orbit.period := by
      have : (1 : α) ≤ 2 ^ 31 := one_le_pow₀ (by norm_num)
      linarith
    have hp : ¬ orbit.periapsis_time > t0 := by
      intro hgt
      have := div_neg_of_neg_of_pos (show t0 - orbit.periapsis_time < 0 by linarith) hT
      linarith
    have hfl : (2 : ℤ) ^ 31 ≤ ⌊(t0 - orbit.periapsis_time) / orbit.period + 1 / 2⌋ := by
      rw [Int.le_floor]
      push_cast
      linarith
    have hx0 : 0 ≤ (t0 - orbit.periapsis_time) / orbit.period + 1 / 2 := by linarith
    have hn : initial_n_orbit orbit t0 = -2 ^ 31 := by
      unfold initial_n_orbit trunc int_of_double
      rw [if_pos hc, if_neg hp, if_pos hx0]
      exact if_neg (fun h => absurd h.2 (not_lt.mpr hfl))
    rw [hn] at h1
    have h2 := (abs_le.mp h1).1
    push_cast at h2
    have : (0 : α) < 2 ^ 31 := by positivity
    linarith

/-- C15 (as amended). For a closed orbit `o` with period `T > 0` and every
`t0` whose nearest period count is in the range of `int`
(`-2^31 - 1/2 < (t0 - t_p)/T < 2^31 - 1/2`): the periapsis passage `t_p + n_orbit * T` of
the period the scan starts with is within `T / 2` of `t0`; the first window
considered starts at `times[o][0] + n_orbit * T`, less `T` when it wraps
(`times[o][0] > times[o][1]`); so it starts at or before
`t0 + T/2 + (times[o][0] - t_p)`. -/
theorem C15_first_window_within_half_period (orbs : ℕ → kepler_elements α)
    (times : ℕ → ℕ → α) (t0 : α) (o : ℕ) (ho : o < 2)
    (hc : (orbs o).closed = true) (hT : 0 < (orbs o).period)
    (hlo : -2 ^ 31 - 1 / 2 < (t0 - (orbs o).periapsis_time) / (orbs o).period)
    (hhi : (t0 - (orbs o).periapsis_time) / (orbs o).period < 2 ^ 31 - 1 / 2) :
    |(orbs o).periapsis_time + ((scan_init orbs t0).n_orbit o : α) * (orbs o).period - t0|
      ≤ (orbs o).period / 2 ∧
    trange orbs times (scan_init orbs t0) o 0 =
      times o 0 + ((scan_init orbs t0).n_orbit o : α) * (orbs o).period -
        (if times o 0 > times o 1 then (orbs o).period else 0) ∧
    trange orbs times (scan_init orbs t0) o 0 ≤
      t0 + (orbs o).period / 2 + (times o 0 - (orbs o).periapsis_time) := by
  obtain ⟨h1, -, -⟩ := initial_n_orbit_nearest (orbs o) t0 hT hc hlo hhi
  have hn : (scan_init orbs t0).n_orbit o = initial_n_orbit (orbs o) t0 := by
    unfold scan_init
    dsimp only
    rw [if_pos ho]
  have hd : (initial_n_orbit (orbs o) t0 : α) * (orbs o).period -
      (t0 - (orbs o).periapsis_time) =
      ((initial_n_orbit (orbs o) t0 : α) - (t0 - (orbs o).periapsis_time) / (orbs o).period) *
        (orbs o).period := by
    field_simp
  have h2 : |(initial_n_orbit (orbs o) t0 : α) * (orbs o).period -
      (t0 - (orbs o).periapsis_time)| ≤ (orbs o).period / 2 := by
    rw [hd, abs_mul, abs_of_pos hT]
    calc |(initial_n_orbit (orbs o) t0 : α) -
          (t0 - (orbs o).periapsis_time) / (orbs o).period| * (orbs o).period
        ≤ 1 / 2 * (orbs o).period := mul_le_mul_of_nonneg_right h1 hT.le
      _ = (orbs o).period / 2 := by ring
  have h3 := abs_le.mp h2
  have htr : trange orbs times (scan_init orbs t0) o 0 =
      times o 0 + ((scan_init orbs t0).n_orbit o : α) * (orbs o).period -
        (if times o 0 > times o 1 then (orbs o).period else 0) := by
    unfold trange
    have hi : (scan_init orbs t0).isect o = 0 := rfl
    simp only [hi, hc, Bool.not_true, Bool.false_eq_true, if_false, if_true, mul_zero, zero_add]
    split_ifs <;> ring
  refine ⟨?_, htr, ?_⟩
  · rw [hn, abs_le]
    constructor <;> linarith [h3.1, h3.2]
  · rw [htr, hn]
    split_ifs <;> linarith [h3.1, h3.2]

/-- C15, witness: the closed orbit of period 10 with periapsis epoch 0 and a
window that starts at `times[0][0] = -1`, at `t0 = 8`. -/
theorem C15_first_window_within_half_period_witness :
    (0 : ℕ) < 2 ∧
    (orbits (circular_orbit (100 : ℚ) 0 10 1) (circular_orbit 100 0 10 1) 0).closed = true ∧
    0 < (orbits (circular_orbit (100 : ℚ) 0 10 1) (circular_orbit 100 0 10 1) 0).period ∧
    -2 ^ 31 - 1 / 2 <
      (8 - (orbits (circular_orbit (100 : ℚ) 0 10 1) (circular_orbit 100 0 10 1) 0).periapsis_time) /
        (orbits (circular_orbit (100 : ℚ) 0 10 1) (circular_orbit 100 0 10 1) 0).period ∧
    (8 - (orbits (circular_orbit (100 : ℚ) 0 10 1) (circular_orbit 100 0 10 1) 0).periapsis_time) /
      (orbits (circular_orbit (100 : ℚ) 0 10 1) (circular_orbit 100 0 10 1) 0).period
      < 2 ^ 31 - 1 / 2 ∧
    trange (orbits (circular_orbit (100 : ℚ) 0 10 1) (circular_orbit 100 0 10 1))
        (fun _ i => if i = 0 then -1 else 1)
        (scan_init (orbits (circular_orbit (100 : ℚ) 0 10 1) (circular_orbit 100 0 10 1)) 8)
        0 0 ≤
      8 + (orbits (circular_orbit (100 : ℚ) 0 10 1) (circular_orbit 100 0 10 1) 0).period / 2 +
        ((fun (_ : ℕ) (i : ℕ) => if i = 0 then (-1 : ℚ) else 1) 0 0 -
          (orbits (circular_orbit (100 : ℚ) 0 10 1)
            (circular_orbit 100 0 10 1) 0).periapsis_time) :=
  have hlo : -2 ^ 31 - 1 / 2 <
      (8 - (orbits (circular_orbit (100 : ℚ) 0 10 1)
        (circular_orbit 100 0 10 1) 0).periapsis_time) /
        (orbits (circular_orbit (100 : ℚ) 0 10 1) (circular_orbit 100 0 10 1) 0).period := by
    simp only [orbits, circular_orbit, if_true]
    norm_num
  have hhi : (8 - (orbits (circular_orbit (100 : ℚ) 0 10 1)
        (circular_orbit 100 0 10 1) 0).periapsis_time) /
      (orbits (circular_orbit (100 : ℚ) 0 10 1) (circular_orbit 100 0 10 1) 0).period
      < 2 ^ 31 - 1 / 2 := by
    simp only [orbits, circular_orbit, if_true]
    norm_num
  ⟨by norm_num, rfl, by simp [orbits, circular_orbit], hlo, hhi,
    (C15_first_window_within_half_period
      (orbits (circular_orbit (100 : ℚ) 0 10 1) (circular_orbit 100 0 10 1))
      (fun _ i => if i = 0 then -1 else 1) 8 0 (by norm_num) rfl
      (by simp [orbits, circular_orbit]) hlo hhi).2.2⟩

end first_window

section first_window_example

lemma crossing_initial_n_orbit_four (o : ℕ) :
    initial_n_orbit
      (orbits (circular_orbit 100 0 (2 * Real.pi) 1)
        (polar_circular_orbit 100 0 (2 * Real.pi) 1) o) (4 : ℝ) = 1 := by
  have hpi := Real.pi_gt_three
  have hpi4 := Real.pi_lt_d2
  have hq1 : (1 : ℝ) / 2 ≤ (4 - 0) / (2 * Real.pi) := by
    rw [le_div_iff₀ (by positivity)]
    linarith
  have hq2 : (4 - 0) / (2 * Real.pi) < 1 := by
    rw [div_lt_one (by positivity)]
    linarith
  have hx0 : (0 : ℝ) ≤ (4 - 0) / (2 * Real.pi) + 1 / 2 := by linarith
  have key : trunc ((4 - 0) / (2 * Real.pi) + 1 / 2) = 1 := by
    unfold trunc
    rw [if_pos hx0, Int.floor_eq_iff]
    constructor
    · push_cast
      linarith
    · push_cast
      linarith
  have h40 : ¬ ((0 : ℝ) > 4) := by norm_num
  unfold initial_n_orbit orbits
  by_cases ho : o = 0
  · rw [if_pos ho]
    simp only [circular_orbit]
    rw [if_pos trivial, if_neg h40]
    rw [key]
    exact int_of_double_one
  · rw [if_neg ho]
    simp only [polar_circular_orbit]
    rw [if_pos trivial, if_neg h40]
    rw [key]
    exact int_of_double_one

/-- At `t0 = 2e10` the period count `trunc(2e10 / (2 pi) + 1/2)` of the crossing
circular orbits is above `INT_MAX`, and the cast to `int` gives `INT_MIN`. -/
lemma crossing_initial_n_orbit_far (o : ℕ) :
    initial_n_orbit
      (orbits (circular_orbit 100 0 (2 * Real.pi) 1)
        (polar_circular_orbit 100 0 (2 * Real.pi) 1) o) (20000000000 : ℝ) = -2 ^ 31 := by
  have hpi := Real.pi_pos
  have hpi4 := Real.pi_lt_d2
  have hq : (2 : ℝ) ^ 31 ≤ (20000000000 - 0) / (2 * Real.pi) := by
    rw [le_div_iff₀ (by positivity)]
    norm_num
    linarith
  have hx0 : (0 : ℝ) ≤ (20000000000 - 0) / (2 * Real.pi) + 1 / 2 := by positivity
  have hfl : (2 : ℤ) ^ 31 ≤ ⌊(20000000000 - 0) / (2 * Real.pi) + 1 / 2⌋ := by
    rw [Int.le_floor]
    push_cast
    linarith
  have key : int_of_double (trunc ((20000000000 - 0) / (2 * Real.pi) + 1 / 2)) = -2 ^ 31 := by
    unfold trunc int_of_double
    rw [if_pos hx0, if_neg (fun h => absurd h.2 (not_lt.mpr hfl))]
  have h40 : ¬ ((0 : ℝ) > 20000000000) := by norm_num
  unfold initial_n_orbit orbits
  by_cases ho : o = 0
  · rw [if_pos ho]
    simp only [circular_orbit]
    rw [if_pos trivial, if_neg h40]
    exact key
  · rw [if_neg ho]
    simp only [polar_circular_orbit]
    rw [if_pos trivial, if_neg h40]
    exact key

/-- C15, counterexample to the claim as stated: the two circular orbits of
radius 100 in perpendicular planes (periapsis epoch 0, period `2 pi`), scanned
from `t0 = 4`.  The period counter of orbit 0 starts at 1 and the first window
the scan considers for it is `[3 pi/2 - d, 3 pi/2 + d]`, which starts after
`t0 = 4`.  From `t0 = 2e10` the number of periods is above `INT_MAX`, the
counter starts at `INT_MIN`, and the periapsis passage of the period the scan
starts with is not within `T / 2` of `t0`. -/
theorem C15_counterexample :
    (scan_init
      (orbits (circular_orbit 100 0 (2 * Real.pi) 1) (polar_circular_orbit 100 0 (2 * Real.pi) 1))
      (4 : ℝ)).n_orbit 0 = 1 ∧
    trange
      (orbits (circular_orbit 100 0 (2 * Real.pi) 1) (polar_circular_orbit 100 0 (2 * Real.pi) 1))
      (intercept_times ⟨Real.pi, Real.arccos, Real.arcsin, Real.sin, Real.sqrt⟩
        (fun _ f => f) (circular_orbit 100 0 (2 * Real.pi) 1)
        (polar_circular_orbit 100 0 (2 * Real.pi) 1) (fun _ _ => 0) (fun _ _ => 0))
      (scan_init
        (orbits (circular_orbit 100 0 (2 * Real.pi) 1)
          (polar_circular_orbit 100 0 (2 * Real.pi) 1)) 4) 0 0 =
      3 * Real.pi / 2 -
        Real.arcsin (clamp (-1) 1 (Real.sin (1 / 2000) / Real.sin (Real.pi / 4))) ∧
    (4 : ℝ) < 3 * Real.pi / 2 -
      Real.arcsin (clamp (-1) 1 (Real.sin (1 / 2000) / Real.sin (Real.pi / 4))) ∧
    (scan_init
      (orbits (circular_orbit 100 0 (2 * Real.pi) 1) (polar_circular_orbit 100 0 (2 * Real.pi) 1))
      (20000000000 : ℝ)).n_orbit 0 = -2 ^ 31 ∧
    ¬ |(circular_orbit 100 0 (2 * Real.pi) 1 : kepler_elements ℝ).periapsis_time +
        (((scan_init
          (orbits (circular_orbit 100 0 (2 * Real.pi) 1)
            (polar_circular_orbit 100 0 (2 * Real.pi) 1))
          (20000000000 : ℝ)).n_orbit 0 : ℤ) : ℝ) *
          (circular_orbit 100 0 (2 * Real.pi) 1 : kepler_elements ℝ).period - 20000000000|
      ≤ (circular_orbit 100 0 (2 * Real.pi) 1 : kepler_elements ℝ).period / 2 := by
  have hb := crossing_delta_bounds
  have hpi3 := Real.pi_gt_three
  have hw := crossing_node_windows (fun _ _ => 0) (fun _ _ => 0)
  obtain ⟨hc0, hT0, h00, h01, -, -⟩ := hw 0 (by norm_num)
  have hn : (scan_init
      (orbits (circular_orbit 100 0 (2 * Real.pi) 1) (polar_circular_orbit 100 0 (2 * Real.pi) 1))
      (4 : ℝ)).n_orbit 0 = 1 := by
    unfold scan_init
    dsimp only
    rw [if_pos (by norm_num)]
    exact crossing_initial_n_orbit_four 0
  have hfar : (scan_init
      (orbits (circular_orbit 100 0 (2 * Real.pi) 1) (polar_circular_orbit 100 0 (2 * Real.pi) 1))
      (20000000000 : ℝ)).n_orbit 0 = -2 ^ 31 := by
    unfold scan_init
    dsimp only
    rw [if_pos (by norm_num)]
    exact crossing_initial_n_orbit_far 0
  have hfar2 : ¬ |(circular_orbit 100 0 (2 * Real.pi) 1 : kepler_elements ℝ).periapsis_time +
        (((scan_init
          (orbits (circular_orbit 100 0 (2 * Real.pi) 1)
            (polar_circular_orbit 100 0 (2 * Real.pi) 1))
          (20000000000 : ℝ)).n_orbit 0 : ℤ) : ℝ) *
          (circular_orbit 100 0 (2 * Real.pi) 1 : kepler_elements ℝ).period - 20000000000|
      ≤ (circular_orbit 100 0 (2 * Real.pi) 1 : kepler_elements ℝ).period / 2 := by
    rw [hfar]
    intro habs
    have h := (abs_le.mp habs).1
    have hp0 : (circular_orbit 100 0 (2 * Real.pi) 1 : kepler_elements ℝ).periapsis_time = 0 :=
      rfl
    have hpT : (circular_orbit 100 0 (2 * Real.pi) 1 : kepler_elements ℝ).period
        = 2 * Real.pi := rfl
    rw [hp0, hpT] at h
    push_cast at h
    have hpos : (0 : ℝ) ≤ 2 ^ 31 * (2 * Real.pi) := by positivity
    linarith
  refine ⟨hn, ?_, by linarith, hfar, hfar2⟩
  unfold trange
  have hi : (scan_init
      (orbits (circular_orbit 100 0 (2 * Real.pi) 1) (polar_circular_orbit 100 0 (2 * Real.pi) 1))
      (4 : ℝ)).isect 0 = 0 := rfl
  have c1 : ¬ (-(Real.pi / 2) -
      Real.arcsin (clamp (-1) 1 (Real.sin (1 / 2000) / Real.sin (Real.pi / 4))) >
      -(Real.pi / 2) +
      Real.arcsin (clamp (-1) 1 (Real.sin (1 / 2000) / Real.sin (Real.pi / 4)))) := by
    rw [gt_iff_lt, not_lt]
    linarith
  simp only [hi, hn, hc0, hT0, Bool.not_true, Bool.false_eq_true, if_false, if_true, mul_zero,
    zero_add, h00, h01, Int.cast_one, one_mul, c1]
  ring

end first_window_example

section coplanar_order

lemma arccos_quarter_gt : Real.arccos (1 / 2) < Real.arccos (1 / 4) :=
  Real.strictAntiOn_arccos ⟨by norm_num, by norm_num⟩ ⟨by norm_num, by norm_num⟩ (by norm_num)

lemma hyperbola_circle_pass :
    ¬ (((conic_orbit 3 2 false 0 1 1 : kepler_elements ℝ).closed = true ∧
          (conic_orbit 3 2 false 0 1 1 : kepler_elements ℝ).apoapsis
            < (circular_orbit (21 / 10) 0 1 1 : kepler_elements ℝ).periapsis - 1 / 10) ∨
        ((circular_orbit (21 / 10) 0 1 1 : kepler_elements ℝ).closed = true ∧
          (circular_orbit (21 / 10) 0 1 1 : kepler_elements ℝ).apoapsis
            < (conic_orbit 3 2 false 0 1 1 : kepler_elements ℝ).periapsis - 1 / 10)) := by
  rintro (⟨h, _⟩ | ⟨_, h⟩)
  · exact hyperbola_not_closed 0 h
  · simp only [conic_orbit, circular_orbit] at h
    norm_num at h

lemma hyperbola_circle_f1 :
    altitude_f1 ⟨Real.pi, Real.arccos, Real.arcsin, Real.sin, Real.sqrt⟩
      (conic_orbit 3 2 false 0 1 1) (circular_orbit (21 / 10) 0 1 1) (1 / 10 : ℝ)
      = Real.arccos (1 / 4) := by
  simp [altitude_f1, true_anomaly_from_radius, conic_orbit, circular_orbit, clamp]
  norm_num

lemma hyperbola_circle_f2 :
    altitude_f2 ⟨Real.pi, Real.arccos, Real.arcsin, Real.sin, Real.sqrt⟩
      (conic_orbit 3 2 false 0 1 1) (circular_orbit (21 / 10) 0 1 1) (1 / 10 : ℝ)
      = Real.arccos (1 / 2) := by
  simp [altitude_f2, conic_orbit]

/-- C16, evaluation at the failing input: the hyperbola `p = 3`, `e = 2`
(periapsis radius 1) as subject against a coplanar circular orbit of radius
`21/10`, at threshold `1/10`.  The inner angle is `f1 = acos(1/4)`, the outer
one is `f2 = acos(1/e) = acos(1/2)`, which is below `f1`; the coplanar branch
returns two intervals `[-acos(1/2), -acos(1/4)]` and `[acos(1/4), acos(1/2)]`,
each with its lower bound above its upper bound: `fs[1] < fs[0]` and
`fs[3] < fs[2]`. -/
theorem C16_coplanar_intervals_inverted :
    intersect_orbit ⟨Real.pi, Real.arccos, Real.arcsin, Real.sin, Real.sqrt⟩
      (conic_orbit 3 2 false 0 1 1) (circular_orbit (21 / 10) 0 1 1) (1 / 10 : ℝ) (fun _ => 0)
      = (2, Function.update (Function.update (Function.update (Function.update (fun _ => 0)
          0 (-Real.arccos (1 / 2))) 1 (-Real.arccos (1 / 4))) 2 (Real.arccos (1 / 4)))
          3 (Real.arccos (1 / 2))) ∧
    -Real.arccos (1 / 4) < -Real.arccos (1 / 2) ∧
    Real.arccos (1 / 2) < Real.arccos (1 / 4) := by
  have hlt := arccos_quarter_gt
  have hz : zero (altitude_f1 ⟨Real.pi, Real.arccos, Real.arcsin, Real.sin, Real.sqrt⟩
      (conic_orbit 3 2 false 0 1 1) (circular_orbit (21 / 10) 0 1 1) (1 / 10 : ℝ)) = false := by
    rw [hyperbola_circle_f1]
    apply not_zero_of_one_le
    rw [arccos_half] at hlt
    linarith [Real.pi_gt_three]
  refine ⟨?_, by linarith, hlt⟩
  rw [intersect_orbit_coplanar _ _ _ _ _ hyperbola_circle_pass
      (coplanar_of_normal_eq _ Real.sqrt_zero _ _ rfl),
    if_neg (by rw [hz]; exact Bool.false_ne_true),
    if_neg (fun h => hyperbola_not_closed 0 h.1), hyperbola_circle_f1, hyperbola_circle_f2]

end coplanar_order

section single_window

/-- The tail of the two clipping branches when the first window is a single
point and the second one is a proper interval after it: no merge, no exchange,
count 1, and the cells are left as they are. -/
lemma merge_or_count_point_window {α : Type} [LinearOrderedField α] (fs : ℕ → α)
    (h01 : fs 0 = fs 1) (h12 : fs 1 < fs 2) (h23 : fs 2 < fs 3) :
    merge_or_count fs = (1, fs) := by
  unfold merge_or_count
  rw [if_neg (by rw [ge_iff_le, not_le]; exact h12)]
  have hsw : ¬ (fs 0 > fs 1 ∧ ¬ (fs 2 > fs 3)) :=
    fun h => absurd h.1 (by rw [h01]; exact lt_irrefl _)
  unfold intersect_orbit_count
  dsimp only
  rw [if_neg hsw, if_neg (by rw [h01]; exact lt_irrefl _), if_pos h23]

/-- The tail of the two clipping branches when the windows do not merge and
exactly one of them is a proper interval, the other one being inverted or, if
it is the second one, a point: the count is 1 and the proper interval is in
`fs[0], fs[1]`. -/
lemma merge_or_count_single_window {α : Type} [LinearOrderedField α] (fs : ℕ → α)
    (h12 : fs 1 < fs 2) :
    (fs 0 < fs 1 → ¬ (fs 2 < fs 3) → merge_or_count fs = (1, fs)) ∧
    (fs 1 < fs 0 → fs 2 < fs 3 →
      (merge_or_count fs).1 = 1 ∧ (merge_or_count fs).2 0 = fs 2 ∧
        (merge_or_count fs).2 1 = fs 3) := by
  have hm : merge_or_count fs = intersect_orbit_count fs := by
    unfold merge_or_count
    rw [if_neg (by rw [ge_iff_le, not_le]; exact h12)]
  rw [hm]
  unfold intersect_orbit_count
  dsimp only
  constructor
  · intro h01 h23
    have hsw : ¬ (fs 0 > fs 1 ∧ ¬ (fs 2 > fs 3)) := fun h => absurd h.1 (not_lt.mpr h01.le)
    rw [if_neg hsw, if_pos h01, if_neg h23]
  · intro h01 h23
    have hsw : fs 0 > fs 1 ∧ ¬ (fs 2 > fs 3) := ⟨h01, not_lt.mpr h23.le⟩
    rw [if_pos hsw, swap_swap_0, swap_swap_1, swap_swap_2, swap_swap_3, if_pos h23,
      if_neg (not_lt.mpr h01.le)]
    exact ⟨rfl, rfl, rfl⟩

lemma clamp_of_one_le {α : Type} [LinearOrderedField α] (x : α) (hx : 1 ≤ x) :
    clamp (-1) 1 x = 1 := by
  rcases eq_or_lt_of_le hx with h | h
  · rw [← h]
    unfold clamp
    rw [if_neg (by norm_num), if_neg (lt_irrefl _)]
  · exact clamp_of_one_lt x h

lemma inclined_pass :
    ¬ (((conic_orbit 3 (1 / 2) false 0 1 1 : kepler_elements ℝ).closed = true ∧
          (conic_orbit 3 (1 / 2) false 0 1 1 : kepler_elements ℝ).apoapsis
            < (inclined_conic_orbit (130 / 51) (1 / 51) false 0 1 1 (28 / 197) (195 / 197) :
                kepler_elements ℝ).periapsis - 2 / 5) ∨
        ((inclined_conic_orbit (130 / 51) (1 / 51) false 0 1 1 (28 / 197) (195 / 197) :
            kepler_elements ℝ).closed = true ∧
          (inclined_conic_orbit (130 / 51) (1 / 51) false 0 1 1 (28 / 197) (195 / 197) :
            kepler_elements ℝ).apoapsis
            < (conic_orbit 3 (1 / 2) false 0 1 1 : kepler_elements ℝ).periapsis - 2 / 5)) := by
  rintro (⟨_, h⟩ | ⟨_, h⟩)
  · simp only [conic_orbit, inclined_conic_orbit] at h
    norm_num at h
  · simp only [conic_orbit, inclined_conic_orbit] at h
    norm_num at h

lemma inclined_nodes_mag :
    nodes_mag ⟨Real.pi, Real.arccos, Real.arcsin, Real.sin, Real.sqrt⟩
      (conic_orbit 3 (1 / 2) false 0 1 1)
      (inclined_conic_orbit (130 / 51) (1 / 51) false 0 1 1 (28 / 197) (195 / 197)) = 28 / 197 := by
  have h : Real.sqrt ((28 / 197 : ℝ) * (28 / 197)) = 28 / 197 :=
    Real.sqrt_mul_self (by norm_num)
  simp only [nodes_mag, mag, nodes, dot, cross, conic_orbit, inclined_conic_orbit, e_z]
  convert h using 2
  norm_num

lemma inclined_not_coplanar :
    ¬ coplanar ⟨Real.pi, Real.arccos, Real.arcsin, Real.sin, Real.sqrt⟩
      (conic_orbit 3 (1 / 2) false 0 1 1)
      (inclined_conic_orbit (130 / 51) (1 / 51) false 0 1 1 (28 / 197) (195 / 197)) = true := by
  unfold coplanar
  rw [inclined_nodes_mag]
  unfold zero DBL_EPSILON
  rw [decide_eq_true_eq]
  norm_num

lemma inclined_f1 :
    altitude_f1 ⟨Real.pi, Real.arccos, Real.arcsin, Real.sin, Real.sqrt⟩
      (conic_orbit 3 (1 / 2) false 0 1 1)
      (inclined_conic_orbit (130 / 51) (1 / 51) false 0 1 1 (28 / 197) (195 / 197)) (2 / 5 : ℝ)
      = Real.arccos (6 / 7) := by
  simp [altitude_f1, true_anomaly_from_radius, conic_orbit, inclined_conic_orbit, clamp]
  norm_num

lemma inclined_f2 :
    altitude_f2 ⟨Real.pi, Real.arccos, Real.arcsin, Real.sin, Real.sqrt⟩
      (conic_orbit 3 (1 / 2) false 0 1 1)
      (inclined_conic_orbit (130 / 51) (1 / 51) false 0 1 1 (28 / 197) (195 / 197)) (2 / 5 : ℝ)
      = Real.pi / 2 := by
  simp [altitude_f2, true_anomaly_from_radius, conic_orbit, inclined_conic_orbit, clamp]
  norm_num

/-- The inner angle `acos(6/7)` of the example is in `[1/2, pi/2)`. -/
lemma arccos_six_sevenths :
    1 / 2 ≤ Real.arccos (6 / 7) ∧ Real.arccos (6 / 7) < Real.pi / 2 := by
  constructor
  · have hc : (6 : ℝ) / 7 ≤ Real.cos (1 / 2) := by
      have := Real.one_sub_sq_div_two_le_cos (x := 1 / 2)
      norm_num at this
      linarith
    have h := Real.strictAntiOn_arccos.antitoneOn ⟨by norm_num, by norm_num⟩
      ⟨Real.neg_one_le_cos _, Real.cos_le_one _⟩ hc
    rw [Real.arccos_cos (by norm_num) (by linarith [Real.pi_gt_three])] at h
    exact h
  · rw [Real.arccos_lt_pi_div_two]
    norm_num

lemma inclined_f_an :
    f_an ⟨Real.pi, Real.arccos, Real.arcsin, Real.sin, Real.sqrt⟩
      (conic_orbit 3 (1 / 2) false 0 1 1)
      (inclined_conic_orbit (130 / 51) (1 / 51) false 0 1 1 (28 / 197) (195 / 197)) = 0 := by
  unfold f_an
  rw [inclined_nodes_mag]
  simp [sign, clamp, nodes, dot, cross, conic_orbit, inclined_conic_orbit, e_x, e_y, e_z]
  norm_num

lemma inclined_f_nodes :
    f_nodes ⟨Real.pi, Real.arccos, Real.arcsin, Real.sin, Real.sqrt⟩
      (conic_orbit 3 (1 / 2) false 0 1 1)
      (inclined_conic_orbit (130 / 51) (1 / 51) false 0 1 1 (28 / 197) (195 / 197)) 0
      = -Real.pi ∧
    f_nodes ⟨Real.pi, Real.arccos, Real.arcsin, Real.sin, Real.sqrt⟩
      (conic_orbit 3 (1 / 2) false 0 1 1)
      (inclined_conic_orbit (130 / 51) (1 / 51) false 0 1 1 (28 / 197) (195 / 197)) 1
      = 0 := by
  have hpi := Real.pi_pos
  have hs : sign (0 : ℝ) = 1 := by
    unfold sign
    rw [if_neg (lt_irrefl _)]
  constructor
  · unfold f_nodes f_dn
    rw [inclined_f_an, hs, if_pos rfl]
    unfold min
    rw [if_neg (by rw [not_lt]; dsimp only; linarith)]
    dsimp only
    ring
  · unfold f_nodes f_dn
    rw [inclined_f_an, hs, if_neg (by norm_num)]
    unfold max
    rw [if_pos (by dsimp only; linarith)]

/-- The half-width of the node windows of the example saturates at `pi/2`:
the planes are inclined by `asin(28/197)`, less than `1/5`, and
`sin(threshold / (2 r_p)) = sin(1/10)`. -/
lemma inclined_delta (i : ℕ) :
    delta_fs ⟨Real.pi, Real.arccos, Real.arcsin, Real.sin, Real.sqrt⟩
      (conic_orbit 3 (1 / 2) false 0 1 1)
      (inclined_conic_orbit (130 / 51) (1 / 51) false 0 1 1 (28 / 197) (195 / 197)) (2 / 5) i
      = Real.pi / 2 := by
  have hpi := Real.pi_gt_three
  have hri : rel_incl ⟨Real.pi, Real.arccos, Real.arcsin, Real.sin, Real.sqrt⟩
      (conic_orbit 3 (1 / 2) false 0 1 1)
      (inclined_conic_orbit (130 / 51) (1 / 51) false 0 1 1 (28 / 197) (195 / 197))
      = Real.arcsin (28 / 197) := by
    unfold rel_incl
    rw [inclined_nodes_mag]
    simp [sign, clamp, dot, conic_orbit, inclined_conic_orbit, e_z]
    norm_num
  have ha0 : 0 < Real.arcsin (28 / 197) := Real.arcsin_pos.mpr (by norm_num)
  have ha1 : Real.arcsin (28 / 197) ≤ 1 / 5 := by
    have hsin : (28 : ℝ) / 197 ≤ Real.sin (1 / 5) := by
      have := Real.sin_gt_sub_cube (x := 1 / 5) (by norm_num) (by norm_num)
      norm_num at this
      linarith
    rw [Real.arcsin_le_iff_le_sin ⟨by norm_num, by norm_num⟩
      ⟨by linarith, by linarith⟩]
    exact hsin
  have hs0 : 0 < Real.sin (Real.arcsin (28 / 197) / 2) :=
    Real.sin_pos_of_pos_of_lt_pi (by linarith) (by linarith)
  have hs1 : Real.sin (Real.arcsin (28 / 197) / 2) ≤ Real.sin (1 / 10) :=
    Real.sin_le_sin_of_le_of_le_pi_div_two (by linarith) (by linarith) (by linarith)
  unfold delta_fs
  dsimp only
  rw [hri, abs_of_pos ha0]
  simp only [conic_orbit]
  rw [show (2 / 5 : ℝ) / (2 * (3 / (1 + 1 / 2))) = 1 / 10 by norm_num,
    clamp_of_one_le _ ((one_le_div hs0).mpr hs1), Real.arcsin_one]

/-- C17, evaluation at the failing input: the ellipse `p = 3`, `e = 1/2` in
the plane `z = 0` as subject, against the closed orbit with periapsis radius
`5/2` and apoapsis radius `13/5` in the plane of normal `(0, 28/197, 195/197)`,
at threshold `2/5`.  The two-sided branch clips the node windows to
`(fs[0], fs[1]) = (-pi/2, -pi/2)`, which is empty, and
`(fs[2], fs[3]) = (acos(6/7), pi/2)`, which is not.  The function returns 1 and
leaves the empty window in `fs[0], fs[1]`: the test for the exchange is
`fs[0] > fs[1]`, the count uses `fs[0] < fs[1]`. -/
theorem C17_point_window_not_exchanged :
    (intersect_orbit ⟨Real.pi, Real.arccos, Real.arcsin, Real.sin, Real.sqrt⟩
      (conic_orbit 3 (1 / 2) false 0 1 1)
      (inclined_conic_orbit (130 / 51) (1 / 51) false 0 1 1 (28 / 197) (195 / 197))
      (2 / 5 : ℝ) (fun _ => 0)).1 = 1 ∧
    (intersect_orbit ⟨Real.pi, Real.arccos, Real.arcsin, Real.sin, Real.sqrt⟩
      (conic_orbit 3 (1 / 2) false 0 1 1)
      (inclined_conic_orbit (130 / 51) (1 / 51) false 0 1 1 (28 / 197) (195 / 197))
      (2 / 5 : ℝ) (fun _ => 0)).2 0 = -(Real.pi / 2) ∧
    (intersect_orbit ⟨Real.pi, Real.arccos, Real.arcsin, Real.sin, Real.sqrt⟩
      (conic_orbit 3 (1 / 2) false 0 1 1)
      (inclined_conic_orbit (130 / 51) (1 / 51) false 0 1 1 (28 / 197) (195 / 197))
      (2 / 5 : ℝ) (fun _ => 0)).2 1 = -(Real.pi / 2) ∧
    (intersect_orbit ⟨Real.pi, Real.arccos, Real.arcsin, Real.sin, Real.sqrt⟩
      (conic_orbit 3 (1 / 2) false 0 1 1)
      (inclined_conic_orbit (130 / 51) (1 / 51) false 0 1 1 (28 / 197) (195 / 197))
      (2 / 5 : ℝ) (fun _ => 0)).2 2 = Real.arccos (6 / 7) ∧
    (intersect_orbit ⟨Real.pi, Real.arccos, Real.arcsin, Real.sin, Real.sqrt⟩
      (conic_orbit 3 (1 / 2) false 0 1 1)
      (inclined_conic_orbit (130 / 51) (1 / 51) false 0 1 1 (28 / 197) (195 / 197))
      (2 / 5 : ℝ) (fun _ => 0)).2 3 = Real.pi / 2 ∧
    Real.arccos (6 / 7) < Real.pi / 2 := by
  have hpi := Real.pi_gt_three
  obtain ⟨ha0, ha1⟩ := arccos_six_sevenths
  obtain ⟨hn0, hn1⟩ := inclined_f_nodes
  have hz : zero (altitude_f1 ⟨Real.pi, Real.arccos, Real.arcsin, Real.sin, Real.sqrt⟩
      (conic_orbit 3 (1 / 2) false 0 1 1)
      (inclined_conic_orbit (130 / 51) (1 / 51) false 0 1 1 (28 / 197) (195 / 197))
      (2 / 5 : ℝ)) = false := by
    rw [inclined_f1]
    unfold zero DBL_EPSILON
    rw [decide_eq_false_iff_not, not_lt]
    have : (1 : ℝ) / 2 ^ 52 ≤ 1 / 2 * (1 / 2) := by norm_num
    nlinarith
  have hM : (⟨Real.pi, Real.arccos, Real.arcsin, Real.sin, Real.sqrt⟩ : Libm ℝ).M_PI
      = Real.pi := rfl
  have c0 : clip_windows ⟨Real.pi, Real.arccos, Real.arcsin, Real.sin, Real.sqrt⟩
      (conic_orbit 3 (1 / 2) false 0 1 1)
      (inclined_conic_orbit (130 / 51) (1 / 51) false 0 1 1 (28 / 197) (195 / 197)) (2 / 5)
      (-(Real.pi / 2)) (-Real.arccos (6 / 7)) (Real.arccos (6 / 7)) (Real.pi / 2)
      (fun _ => 0) 0 = -(Real.pi / 2) := by
    rw [clip_windows_0, hn0, inclined_delta]
    unfold max
    rw [if_neg (by rw [gt_iff_lt, not_lt]; linarith)]
  have c1 : clip_windows ⟨Real.pi, Real.arccos, Real.arcsin, Real.sin, Real.sqrt⟩
      (conic_orbit 3 (1 / 2) false 0 1 1)
      (inclined_conic_orbit (130 / 51) (1 / 51) false 0 1 1 (28 / 197) (195 / 197)) (2 / 5)
      (-(Real.pi / 2)) (-Real.arccos (6 / 7)) (Real.arccos (6 / 7)) (Real.pi / 2)
      (fun _ => 0) 1 = -(Real.pi / 2) := by
    rw [clip_windows_1, hn0, inclined_delta]
    unfold min
    rw [if_pos (by linarith)]
    ring
  have c2 : clip_windows ⟨Real.pi, Real.arccos, Real.arcsin, Real.sin, Real.sqrt⟩
      (conic_orbit 3 (1 / 2) false 0 1 1)
      (inclined_conic_orbit (130 / 51) (1 / 51) false 0 1 1 (28 / 197) (195 / 197)) (2 / 5)
      (-(Real.pi / 2)) (-Real.arccos (6 / 7)) (Real.arccos (6 / 7)) (Real.pi / 2)
      (fun _ => 0) 2 = Real.arccos (6 / 7) := by
    rw [clip_windows_2, hn1, inclined_delta]
    unfold max
    rw [if_neg (by rw [gt_iff_lt, not_lt]; linarith)]
  have c3 : clip_windows ⟨Real.pi, Real.arccos, Real.arcsin, Real.sin, Real.sqrt⟩
      (conic_orbit 3 (1 / 2) false 0 1 1)
      (inclined_conic_orbit (130 / 51) (1 / 51) false 0 1 1 (28 / 197) (195 / 197)) (2 / 5)
      (-(Real.pi / 2)) (-Real.arccos (6 / 7)) (Real.arccos (6 / 7)) (Real.pi / 2)
      (fun _ => 0) 3 = Real.pi / 2 := by
    rw [clip_windows_3, hn1, inclined_delta]
    unfold min
    rw [if_neg (by rw [not_lt]; linarith)]
  rw [intersect_orbit_noncoplanar _ _ _ _ _ inclined_pass inclined_not_coplanar,
    if_neg (fun h => by rw [hz] at h; exact Bool.false_ne_true h.2.1),
    if_neg (by rw [hz]; exact Bool.false_ne_true),
    if_neg (fun h => h.2 (by rw [inclined_f2, hM]; linarith)),
    inclined_f1, inclined_f2,
    merge_or_count_point_window _ (by rw [c0, c1]) (by rw [c1, c2]; linarith)
      (by rw [c2, c3]; exact ha1)]
  exact ⟨rfl, c0, c1, c2, c3, ha1⟩

end single_window

section period_counter

variable {α : Type} [LinearOrderedField α] [FloorRing α]

end period_counter

section period_counter_example

end period_counter_example

section nodal

variable {α : Type} [LinearOrderedField α]

/-- C19. With `acos` taking its values in `[0, M_PI]`, for every pair of
orbits: `f_an` lies in `[-M_PI, M_PI]`; `f_dn = f_an - sign(f_an) * M_PI`; the
sorted nodes satisfy `-M_PI <= f_nodes[0] <= 0 <= f_nodes[1] <= M_PI` and
`f_nodes[1] - f_nodes[0] = M_PI`. -/
theorem C19_nodal_anomalies (M : Libm α) (hacos : ∀ x, 0 ≤ M.acos x ∧ M.acos x ≤ M.M_PI)
    (orbit1 orbit2 : kepler_elements α) :
    (-M.M_PI ≤ f_an M orbit1 orbit2 ∧ f_an M orbit1 orbit2 ≤ M.M_PI) ∧
    f_dn M orbit1 orbit2 = f_an M orbit1 orbit2 - sign (f_an M orbit1 orbit2) * M.M_PI ∧
    (-M.M_PI ≤ f_nodes M orbit1 orbit2 0 ∧ f_nodes M orbit1 orbit2 0 ≤ 0) ∧
    (0 ≤ f_nodes M orbit1 orbit2 1 ∧ f_nodes M orbit1 orbit2 1 ≤ M.M_PI) ∧
    f_nodes M orbit1 orbit2 1 - f_nodes M orbit1 orbit2 0 = M.M_PI := by
  have hpi : 0 ≤ M.M_PI := le_trans (hacos 0).1 (hacos 0).2
  refine ⟨f_an_range M hacos orbit1 orbit2, rfl, f_nodes_0_range M hacos orbit1 orbit2,
    f_nodes_1_range M hacos orbit1 orbit2, ?_⟩
  unfold f_nodes f_dn sign min max
  rw [if_pos rfl, if_neg (by norm_num)]
  split_ifs <;> linarith

/-- C19, witness: the libm of the reals, an ellipse in the plane `y = 0`
against a circle in the plane `z = 0`. -/
theorem C19_nodal_anomalies_witness :
    (∀ x : ℝ, 0 ≤ Real.arccos x ∧ Real.arccos x ≤ Real.pi) ∧
    ((-Real.pi ≤ f_an ⟨Real.pi, Real.arccos, Real.arcsin, Real.sin, Real.sqrt⟩
        (tilted_conic_orbit 3 (1 / 2) false 0 1 1) (circular_orbit 4 0 1 1) ∧
      f_an ⟨Real.pi, Real.arccos, Real.arcsin, Real.sin, Real.sqrt⟩
        (tilted_conic_orbit 3 (1 / 2) false 0 1 1) (circular_orbit 4 0 1 1) ≤ Real.pi) ∧
    f_dn ⟨Real.pi, Real.arccos, Real.arcsin, Real.sin, Real.sqrt⟩
        (tilted_conic_orbit 3 (1 / 2) false 0 1 1) (circular_orbit 4 0 1 1) =
      f_an ⟨Real.pi, Real.arccos, Real.arcsin, Real.sin, Real.sqrt⟩
        (tilted_conic_orbit 3 (1 / 2) false 0 1 1) (circular_orbit 4 0 1 1) -
      sign (f_an ⟨Real.pi, Real.arccos, Real.arcsin, Real.sin, Real.sqrt⟩
        (tilted_conic_orbit 3 (1 / 2) false 0 1 1) (circular_orbit 4 0 1 1)) * Real.pi ∧
    (-Real.pi ≤ f_nodes ⟨Real.pi, Real.arccos, Real.arcsin, Real.sin, Real.sqrt⟩
        (tilted_conic_orbit 3 (1 / 2) false 0 1 1) (circular_orbit 4 0 1 1) 0 ∧
      f_nodes ⟨Real.pi, Real.arccos, Real.arcsin, Real.sin, Real.sqrt⟩
        (tilted_conic_orbit 3 (1 / 2) false 0 1 1) (circular_orbit 4 0 1 1) 0 ≤ 0) ∧
    (0 ≤ f_nodes ⟨Real.pi, Real.arccos, Real.arcsin, Real.sin, Real.sqrt⟩
        (tilted_conic_orbit 3 (1 / 2) false 0 1 1) (circular_orbit 4 0 1 1) 1 ∧
      f_nodes ⟨Real.pi, Real.arccos, Real.arcsin, Real.sin, Real.sqrt⟩
        (tilted_conic_orbit 3 (1 / 2) false 0 1 1) (circular_orbit 4 0 1 1) 1 ≤ Real.pi) ∧
    f_nodes ⟨Real.pi, Real.arccos, Real.arcsin, Real.sin, Real.sqrt⟩
        (tilted_conic_orbit 3 (1 / 2) false 0 1 1) (circular_orbit 4 0 1 1) 1 -
      f_nodes ⟨Real.pi, Real.arccos, Real.arcsin, Real.sin, Real.sqrt⟩
        (tilted_conic_orbit 3 (1 / 2) false 0 1 1) (circular_orbit 4 0 1 1) 0 = Real.pi) :=
  ⟨fun x => ⟨Real.arccos_nonneg x, Real.arccos_le_pi x⟩,
    C19_nodal_anomalies ⟨Real.pi, Real.arccos, Real.arcsin, Real.sin, Real.sqrt⟩
      (fun x => ⟨Real.arccos_nonneg x, Real.arccos_le_pi x⟩) _ _⟩

end nodal

section test_pattern_range

lemma to_double_of_lt (n : ℕ) (h : n < 2 ^ 53) : to_double n = n := by
  unfold to_double
  rw [if_pos h]

lemma to_double_two_pow (k : ℕ) : to_double (2 ^ k) = 2 ^ k := by
  by_cases h : 2 ^ k < 2 ^ 53
  · exact to_double_of_lt _ h
  · have hk : 53 ≤ k := by
      by_contra hc
      exact h (Nat.pow_lt_pow_right (by norm_num) (by omega))
    unfold to_double
    rw [if_neg h, Nat.log2_two_pow]
    dsimp only
    have h1 : 2 ^ k = 2 ^ 52 * 2 ^ (k - 52) := by
      rw [← pow_add]
      congr 1
      omega
    have hpos : 0 < 2 ^ (k - 52) := by positivity
    have hq : 2 ^ k / 2 ^ (k - 52) = 2 ^ 52 := by
      rw [h1]
      exact Nat.mul_div_cancel _ hpos
    have hr : 2 ^ k % 2 ^ (k - 52) = 0 := by
      rw [h1]
      exact Nat.mul_mod_left _ _
    rw [hq, hr, if_pos (Or.inl (by simp))]
    exact h1.symm

/-- Rounding to `double` does not pass a power of two. -/
lemma to_double_le_two_pow (n L : ℕ) (h : n < 2 ^ L) : to_double n ≤ 2 ^ L := by
  by_cases h53 : n < 2 ^ 53
  · rw [to_double_of_lt _ h53]
    exact h.le
  · have hn0 : n ≠ 0 := by
      intro h0
      rw [h0] at h53
      exact h53 (by positivity)
    have hk : 53 ≤ Nat.log2 n := (Nat.le_log2 hn0).2 (not_lt.mp h53)
    have hkL : Nat.log2 n < L := (Nat.log2_lt hn0).2 h
    have hlt : n < 2 ^ (Nat.log2 n + 1) := Nat.lt_log2_self
    have hsplit : 2 ^ (Nat.log2 n + 1) = 2 ^ 53 * 2 ^ (Nat.log2 n - 52) := by
      rw [← pow_add]
      congr 1
      omega
    have hpos : 0 < 2 ^ (Nat.log2 n - 52) := by positivity
    have hq : n / 2 ^ (Nat.log2 n - 52) < 2 ^ 53 := by
      rw [Nat.div_lt_iff_lt_mul hpos, ← hsplit]
      exact hlt
    have hub : (n / 2 ^ (Nat.log2 n - 52) + 1) * 2 ^ (Nat.log2 n - 52) ≤ 2 ^ L := by
      calc (n / 2 ^ (Nat.log2 n - 52) + 1) * 2 ^ (Nat.log2 n - 52)
          ≤ 2 ^ 53 * 2 ^ (Nat.log2 n - 52) := Nat.mul_le_mul_right _ hq
        _ = 2 ^ (Nat.log2 n + 1) := hsplit.symm
        _ ≤ 2 ^ L := Nat.pow_le_pow_right (by norm_num) hkL
    unfold to_double
    rw [if_neg h53]
    dsimp only
    split_ifs
    · exact le_trans (Nat.mul_le_mul_right _ (Nat.le_succ _)) hub
    · exact hub

/-- The value of `test_pattern_1d` for `2 <= seed <= 2^63`, with `k` the
position of the top bit of `seed - 1`: the numerator
`1 + 2 (seed - 1 - 2^k)` is odd and below `2^(k+1)`, and the result is its
conversion to `double` over `2^(k+1)`. -/
lemma test_pattern_1d_eq (seed : ℕ) (h2 : 2 ≤ seed) (h : seed ≤ 2 ^ 63) :
    2 ^ Nat.log2 (seed - 1) ≤ seed - 1 ∧
    1 + (seed - 1 - 2 ^ Nat.log2 (seed - 1)) * 2 < 2 ^ (Nat.log2 (seed - 1) + 1) ∧
    test_pattern_1d seed =
      (to_double (1 + (seed - 1 - 2 ^ Nat.log2 (seed - 1)) * 2) : ℚ) /
        2 ^ (Nat.log2 (seed - 1) + 1) := by
  have hs0 : seed - 1 ≠ 0 := by omega
  have hlo : 2 ^ Nat.log2 (seed - 1) ≤ seed - 1 := Nat.log2_self_le hs0
  have hhi : seed - 1 < 2 ^ (Nat.log2 (seed - 1) + 1) := Nat.lt_log2_self
  have hk : Nat.log2 (seed - 1) < 63 := (Nat.log2_lt hs0).2 (by omega)
  have hnum : 1 + (seed - 1 - 2 ^ Nat.log2 (seed - 1)) * 2 < 2 ^ (Nat.log2 (seed - 1) + 1) := by
    rw [pow_succ] at hhi ⊢
    omega
  have hpk : 2 ^ Nat.log2 (seed - 1) < 2 ^ 64 :=
    Nat.pow_lt_pow_right (by norm_num) (by omega)
  have hpk1 : 2 ^ (Nat.log2 (seed - 1) + 1) < 2 ^ 64 :=
    Nat.pow_lt_pow_right (by norm_num) (by omega)
  refine ⟨hlo, hnum, ?_⟩
  unfold test_pattern_1d clzl
  rw [if_neg (by omega)]
  dsimp only
  have hl : 64 - (63 - Nat.log2 (seed - 1)) = Nat.log2 (seed - 1) + 1 := by omega
  rw [hl, Nat.add_sub_cancel, Nat.mod_eq_of_lt hpk, Nat.mod_eq_of_lt (lt_trans hnum hpk1),
    Nat.mod_eq_of_lt hpk1, to_double_two_pow]
  push_cast
  rfl

/-- The range of `test_pattern_1d` on the seeds `0 .. 2^63`. -/
lemma test_pattern_1d_range (seed : ℕ) (h : seed ≤ 2 ^ 63) :
    0 ≤ test_pattern_1d seed ∧ test_pattern_1d seed ≤ 1 := by
  by_cases h2 : seed < 2
  · have hv : test_pattern_1d seed = (seed : ℚ) := by
      unfold test_pattern_1d
      rw [if_pos h2, to_double_of_lt _ (lt_trans h2 (by norm_num))]
    rw [hv]
    have : seed = 0 ∨ seed = 1 := by omega
    rcases this with rfl | rfl <;> norm_num
  · obtain ⟨-, hnum, hv⟩ := test_pattern_1d_eq seed (by omega) h
    rw [hv]
    have hle := to_double_le_two_pow _ _ hnum
    have hpos : (0 : ℚ) < 2 ^ (Nat.log2 (seed - 1) + 1) := by positivity
    constructor
    · exact div_nonneg (Nat.cast_nonneg _) hpos.le
    · rw [div_le_one hpos]
      exact_mod_cast hle

/-- An odd multiple of a power of two determines both factors. -/
lemma odd_mul_two_pow_inj (m n j k : ℕ) (hm : m % 2 = 1) (hn : n % 2 = 1)
    (h : m * 2 ^ k = n * 2 ^ j) : j = k ∧ m = n := by
  have key : ∀ (m n j k : ℕ), m % 2 = 1 → n % 2 = 1 → j ≤ k → m * 2 ^ k = n * 2 ^ j →
      j = k ∧ m = n := by
    intro m n j k _ hn hjk h
    have hsplit : 2 ^ k = 2 ^ (k - j) * 2 ^ j := by
      rw [← pow_add]
      congr 1
      omega
    rw [hsplit, ← mul_assoc] at h
    have h2 : m * 2 ^ (k - j) = n := Nat.eq_of_mul_eq_mul_right (by positivity) h
    by_cases hkj : k - j = 0
    · rw [hkj, pow_zero, mul_one] at h2
      exact ⟨by omega, h2⟩
    · exfalso
      obtain ⟨d, hd⟩ : ∃ d, k - j = d + 1 := ⟨k - j - 1, by omega⟩
      rw [hd, pow_succ] at h2
      have h3 : n = 2 * (m * 2 ^ d) := by
        rw [← h2]
        ring
      omega
  rcases Nat.le_total j k with hjk | hkj
  · exact key m n j k hm hn hjk h
  · obtain ⟨h1, h2⟩ := key n m k j hn hm hkj h.symm
    exact ⟨h1.symm, h2.symm⟩

/-- The cells of `seeds` stay below `2^32` through the Morton loop when
`dim >= 2`: bit `i < 64` of `seed` goes to bit `i / dim <= 31`. -/
lemma morton_loop_lt (seed dim : ℕ) (hd : 2 ≤ dim) :
    ∀ (n i : ℕ) (seeds : ℕ → ℕ), 64 - i = n → (∀ k, seeds k < 2 ^ 32) →
      ∀ k, morton_loop seed dim i seeds k < 2 ^ 32 := by
  intro n
  induction n with
  | zero =>
    intro i seeds hi hs k
    rw [morton_loop, if_neg (fun h => by omega)]
    exact hs k
  | succ n ih =>
    intro i seeds hi hs k
    rw [morton_loop]
    by_cases hc : i < 64 ∧ 2 ^ i ≤ seed
    · rw [if_pos hc]
      refine ih (i + 1) _ (by omega) ?_ k
      intro j
      by_cases hb : seed &&& 2 ^ i ≠ 0
      · rw [if_pos hb]
        by_cases hj : j = i % dim
        · rw [hj, Function.update_same]
          refine Nat.or_lt_two_pow (hs _) (Nat.pow_lt_pow_right (by norm_num) ?_)
          have : i / dim ≤ i / 2 := Nat.div_le_div_left hd (by norm_num)
          omega
        · rw [Function.update_noteq hj]
          exact hs j
      · rw [if_neg hb]
        exact hs j
    · rw [if_neg hc]
      exact hs k

/-- Up to `seed = 2^53 + 2^52` the numerator of `test_pattern_1d` is below
`2^53`, so that its conversion to `double` is exact. -/
lemma numer_lt_of_le (s : ℕ) (h2 : 2 ≤ s) (h : s ≤ 2 ^ 53 + 2 ^ 52) :
    1 + (s - 1 - 2 ^ Nat.log2 (s - 1)) * 2 < 2 ^ 53 := by
  have hs0 : s - 1 ≠ 0 := by omega
  by_cases hlt : s - 1 < 2 ^ 53
  · have hk : Nat.log2 (s - 1) < 53 := (Nat.log2_lt hs0).2 hlt
    have hhi : s - 1 < 2 ^ (Nat.log2 (s - 1) + 1) := Nat.lt_log2_self
    have hlo : 2 ^ Nat.log2 (s - 1) ≤ s - 1 := Nat.log2_self_le hs0
    have hp : 2 ^ (Nat.log2 (s - 1) + 1) ≤ 2 ^ 53 :=
      Nat.pow_le_pow_right (by norm_num) (by omega)
    rw [pow_succ] at hhi hp
    omega
  · have h1 : 53 ≤ Nat.log2 (s - 1) := (Nat.le_log2 hs0).2 (not_lt.mp hlt)
    have h2' : Nat.log2 (s - 1) < 54 := (Nat.log2_lt hs0).2 (by
      have : (2 : ℕ) ^ 53 + 2 ^ 52 < 2 ^ 54 := by norm_num
      omega)
    have hk : Nat.log2 (s - 1) = 53 := by omega
    rw [hk]
    norm_num at h hlt ⊢
    omega

/-- C20 (as amended). For every seed in `0 .. 2^63`, every `dim >= 1` and
every `i < dim`, the parameter `params[i]` produced by `test_pattern` lies in
`[0, 1]`.  For `2 <= seed <= 2^53 + 2^52`, `test_pattern_1d(seed)` is the
dyadic rational `numer / 2^level` with `level` the bit length of `seed - 1`,
`numer` odd and `0 < numer < 2^level`; and on the seeds `0 .. 2^53 + 2^52`
distinct seeds give distinct values. -/
theorem C20_test_pattern_range_and_dyadic (seed dim i : ℕ) (params : ℕ → ℚ)
    (hs : seed ≤ 2 ^ 63) (hdim : 1 ≤ dim) (hi : i < dim) :
    (0 ≤ test_pattern seed dim params i ∧ test_pattern seed dim params i ≤ 1) ∧
    (2 ≤ seed → seed ≤ 2 ^ 53 + 2 ^ 52 →
      ∃ numer level : ℕ, level = Nat.log2 (seed - 1) + 1 ∧ numer % 2 = 1 ∧ 0 < numer ∧
        numer < 2 ^ level ∧ test_pattern_1d seed = (numer : ℚ) / 2 ^ level) ∧
    (∀ seed', seed ≤ 2 ^ 53 + 2 ^ 52 → seed' ≤ 2 ^ 53 + 2 ^ 52 →
      test_pattern_1d seed = test_pattern_1d seed' → seed = seed') := by
  have dyadic : ∀ s : ℕ, 2 ≤ s → s ≤ 2 ^ 53 + 2 ^ 52 →
      2 ^ Nat.log2 (s - 1) ≤ s - 1 ∧
      (1 + (s - 1 - 2 ^ Nat.log2 (s - 1)) * 2) < 2 ^ (Nat.log2 (s - 1) + 1) ∧
      test_pattern_1d s =
        ((1 + (s - 1 - 2 ^ Nat.log2 (s - 1)) * 2 : ℕ) : ℚ) / 2 ^ (Nat.log2 (s - 1) + 1) := by
    intro s h2 h53
    obtain ⟨hlo, hnum, hv⟩ :=
      test_pattern_1d_eq s h2 (le_trans h53 (by norm_num))
    refine ⟨hlo, hnum, ?_⟩
    have hn53 : 1 + (s - 1 - 2 ^ Nat.log2 (s - 1)) * 2 < 2 ^ 53 :=
      numer_lt_of_le s h2 h53
    rw [hv, to_double_of_lt _ hn53]
  have small : ∀ s : ℕ, s < 2 → test_pattern_1d s = (s : ℚ) := by
    intro s h2
    unfold test_pattern_1d
    rw [if_pos h2, to_double_of_lt _ (lt_trans h2 (by norm_num))]
  have inner : ∀ s : ℕ, 2 ≤ s → s ≤ 2 ^ 53 + 2 ^ 52 →
      0 < test_pattern_1d s ∧ test_pattern_1d s < 1 := by
    intro s h2 h53
    obtain ⟨-, hnum, hv⟩ := dyadic s h2 h53
    have hpos : (0 : ℚ) < 2 ^ (Nat.log2 (s - 1) + 1) := by positivity
    rw [hv]
    constructor
    · exact div_pos (by positivity) hpos
    · rw [div_lt_one hpos]
      exact_mod_cast hnum
  refine ⟨?_, ?_, ?_⟩
  · unfold test_pattern
    by_cases h1 : dim = 1
    · rw [if_pos h1]
      have hi0 : i = 0 := by omega
      rw [hi0, Function.update_same]
      exact test_pattern_1d_range seed hs
    · rw [if_neg h1, if_pos hi]
      have hlt := morton_loop_lt seed dim (by omega) 64 0 (fun _ => 0) rfl
        (fun _ => by positivity) i
      exact test_pattern_1d_range _ (le_trans hlt.le (by norm_num))
  · intro h2 h53
    obtain ⟨-, hnum, hv⟩ := dyadic seed h2 h53
    exact ⟨_, _, rfl, by omega, by omega, hnum, hv⟩
  · intro seed' h53 h53' heq
    by_cases ha : seed < 2
    · by_cases hb : seed' < 2
      · rw [small _ ha, small _ hb] at heq
        exact_mod_cast heq
      · obtain ⟨h0, h1⟩ := inner seed' (by omega) h53'
        rw [← heq, small _ ha] at h0 h1
        have : seed = 0 ∨ seed = 1 := by omega
        rcases this with rfl | rfl
        · exact absurd h0 (by norm_num)
        · exact absurd h1 (by norm_num)
    · by_cases hb : seed' < 2
      · obtain ⟨h0, h1⟩ := inner seed (by omega) h53
        rw [heq, small _ hb] at h0 h1
        have : seed' = 0 ∨ seed' = 1 := by omega
        rcases this with rfl | rfl
        · exact absurd h0 (by norm_num)
        · exact absurd h1 (by norm_num)
      · obtain ⟨hlo, -, hv⟩ := dyadic seed (by omega) h53
        obtain ⟨hlo', -, hv'⟩ := dyadic seed' (by omega) h53'
        rw [hv, hv', div_eq_div_iff (by positivity) (by positivity)] at heq
        have hnat : (1 + (seed - 1 - 2 ^ Nat.log2 (seed - 1)) * 2) *
            2 ^ (Nat.log2 (seed' - 1) + 1) =
            (1 + (seed' - 1 - 2 ^ Nat.log2 (seed' - 1)) * 2) *
              2 ^ (Nat.log2 (seed - 1) + 1) := by
          exact_mod_cast heq
        obtain ⟨hk, hn⟩ := odd_mul_two_pow_inj _ _ _ _ (by omega) (by omega) hnat
        have hk' : Nat.log2 (seed - 1) = Nat.log2 (seed' - 1) := by omega
        rw [hk'] at hn hlo
        omega

/-- The Morton decoding of the seed 24 in dimension 3: bits 3 and 4 of the
seed go to bit 1 of `seeds[0]` and of `seeds[1]`. -/
lemma morton_loop_example :
    morton_loop 24 3 0 (fun _ => 0) =
      Function.update (Function.update (fun _ => 0) 0 2) 1 2 := by
  rw [morton_loop, if_pos (show 0 < 64 ∧ 2 ^ 0 ≤ 24 by decide),
    if_neg (show ¬ (24 &&& 2 ^ 0 ≠ 0) by decide),
    morton_loop, if_pos (show 0 + 1 < 64 ∧ 2 ^ (0 + 1) ≤ 24 by decide),
    if_neg (show ¬ (24 &&& 2 ^ (0 + 1) ≠ 0) by decide),
    morton_loop, if_pos (show 0 + 1 + 1 < 64 ∧ 2 ^ (0 + 1 + 1) ≤ 24 by decide),
    if_neg (show ¬ (24 &&& 2 ^ (0 + 1 + 1) ≠ 0) by decide),
    morton_loop, if_pos (show 0 + 1 + 1 + 1 < 64 ∧ 2 ^ (0 + 1 + 1 + 1) ≤ 24 by decide),
    if_pos (show 24 &&& 2 ^ (0 + 1 + 1 + 1) ≠ 0 by decide),
    morton_loop, if_pos (show 0 + 1 + 1 + 1 + 1 < 64 ∧ 2 ^ (0 + 1 + 1 + 1 + 1) ≤ 24 by decide),
    if_pos (show 24 &&& 2 ^ (0 + 1 + 1 + 1 + 1) ≠ 0 by decide),
    morton_loop,
    if_neg (show ¬ (0 + 1 + 1 + 1 + 1 + 1 < 64 ∧ 2 ^ (0 + 1 + 1 + 1 + 1 + 1) ≤ 24) by decide)]
  rfl

/-- In dimension 3 the seed 24 gives `params[0] = test_pattern_1d(2) = 1/2`. -/
lemma test_pattern_example (params : ℕ → ℚ) : test_pattern 24 3 params 0 = 1 / 2 := by
  have hv2 : test_pattern_1d 2 = 1 / 2 := by
    obtain ⟨-, -, h⟩ := test_pattern_1d_eq 2 (by norm_num) (by norm_num)
    rw [h]
    have hl : Nat.log2 (2 - 1) = 0 := by
      show Nat.log2 1 = 0
      have := @Nat.log2_two_pow 0
      simpa using this
    rw [hl, to_double_of_lt _ (by norm_num)]
    norm_num
  unfold test_pattern
  rw [if_neg (by norm_num), if_pos (by norm_num), morton_loop_example]
  exact hv2

/-- C20, witness: seed 24 in dimension 3, cell 0.  The Morton decoding gives
`seeds[0] = 2`, so `params[0] = test_pattern_1d(2) = 1/2`, in `[0, 1]`;
`test_pattern_1d(24)` is `15/32` (`seed - 1 = 23` has bit length 5) and no
other seed up to `2^53 + 2^52` has that value. -/
theorem C20_test_pattern_range_and_dyadic_witness :
    (24 : ℕ) ≤ 2 ^ 63 ∧ 1 ≤ 3 ∧ 0 < 3 ∧ (2 : ℕ) ≤ 24 ∧ (24 : ℕ) ≤ 2 ^ 53 + 2 ^ 52 ∧
    test_pattern 24 3 (fun _ => 0) 0 = 1 / 2 ∧
    (0 ≤ test_pattern 24 3 (fun _ => 0) 0 ∧ test_pattern 24 3 (fun _ => 0) 0 ≤ 1) ∧
    (∃ numer level : ℕ, level = Nat.log2 (24 - 1) + 1 ∧ numer % 2 = 1 ∧ 0 < numer ∧
      numer < 2 ^ level ∧ test_pattern_1d 24 = (numer : ℚ) / 2 ^ level) ∧
    (∀ seed', seed' ≤ 2 ^ 53 + 2 ^ 52 → test_pattern_1d 24 = test_pattern_1d seed' →
      24 = seed') :=
  ⟨by norm_num, by norm_num, by norm_num, by norm_num, by norm_num,
    test_pattern_example _,
    (C20_test_pattern_range_and_dyadic 24 3 0 (fun _ => 0) (by norm_num) (by norm_num)
      (by norm_num)).1,
    (C20_test_pattern_range_and_dyadic 24 3 0 (fun _ => 0) (by norm_num) (by norm_num)
      (by norm_num)).2.1 (by norm_num) (by norm_num),
    fun seed' h => (C20_test_pattern_range_and_dyadic 24 3 0 (fun _ => 0) (by norm_num)
      (by norm_num) (by norm_num)).2.2 seed' (by norm_num) h⟩

lemma log2_counterexample : Nat.log2 (2 ^ 53 + 2 ^ 52) = 53 := by
  have h0 : 2 ^ 53 + 2 ^ 52 ≠ 0 := by norm_num
  have h1 : 53 ≤ Nat.log2 (2 ^ 53 + 2 ^ 52) := (Nat.le_log2 h0).2 (by norm_num)
  have h2 : Nat.log2 (2 ^ 53 + 2 ^ 52) < 54 := (Nat.log2_lt h0).2 (by norm_num)
  omega

/-- C20, counterexample to the claim as stated: the seed `2^53 + 2^52 + 1`
is in `0 .. 2^63`; `seed - 1` has bit length 54 and the numerator is
`2^53 + 1`, which is odd and not a `double`; its conversion is `2^53`, so
`test_pattern_1d` returns `2^53 / 2^54 = 1/2`, which is not
`(2^53 + 1) / 2^54` and is the value of `test_pattern_1d(2)`. -/
theorem C20_counterexample :
    2 ^ 53 + 2 ^ 52 + 1 ≤ 2 ^ 63 ∧
    test_pattern_1d (2 ^ 53 + 2 ^ 52 + 1) = 1 / 2 ∧
    test_pattern_1d (2 ^ 53 + 2 ^ 52 + 1) ≠ ((2 ^ 53 + 1 : ℕ) : ℚ) / 2 ^ 54 ∧
    test_pattern_1d 2 = 1 / 2 ∧
    (2 ^ 53 + 2 ^ 52 + 1 : ℕ) ≠ 2 := by
  have hv : test_pattern_1d (2 ^ 53 + 2 ^ 52 + 1) = 1 / 2 := by
    obtain ⟨-, -, h⟩ := test_pattern_1d_eq (2 ^ 53 + 2 ^ 52 + 1) (by norm_num) (by norm_num)
    rw [h, Nat.add_sub_cancel, log2_counterexample]
    have hn : 1 + (2 ^ 53 + 2 ^ 52 - 2 ^ 53) * 2 = 2 ^ 53 + 1 := by norm_num
    have hl : Nat.log2 (2 ^ 53 + 1) = 53 := by
      have h0 : 2 ^ 53 + 1 ≠ 0 := by norm_num
      have h1 : 53 ≤ Nat.log2 (2 ^ 53 + 1) := (Nat.le_log2 h0).2 (by norm_num)
      have h2 : Nat.log2 (2 ^ 53 + 1) < 54 := (Nat.log2_lt h0).2 (by norm_num)
      omega
    have hd : to_double (2 ^ 53 + 1) = 2 ^ 53 := by
      unfold to_double
      rw [if_neg (by norm_num), hl]
      norm_num
    rw [hn, hd]
    norm_num
  have hv2 : test_pattern_1d 2 = 1 / 2 := by
    obtain ⟨-, -, h⟩ := test_pattern_1d_eq 2 (by norm_num) (by norm_num)
    rw [h]
    have hl : Nat.log2 (2 - 1) = 0 := by
      show Nat.log2 1 = 0
      have := @Nat.log2_two_pow 0
      simpa using this
    rw [hl, to_double_of_lt _ (by norm_num)]
    norm_num
  refine ⟨by norm_num, hv, ?_, hv2, by norm_num⟩
  rw [hv]
  norm_num

end test_pattern_range

end libkepler
